import Mathlib

/-
Verification of dbctool (src/dbctool.py): a DBC (CAN database) parser,
semantic model builder, serializer and diff engine.

The Python source is shallowly embedded: Python numbers are Int/Nat,
Python floats are modelled as rationals (the parser only produces decimal
literals; IEEE-754 rounding is irrelevant to the properties verified here),
Python exceptions become `Except` error values, and mutation of the object
graph is modelled by explicit state passing.  Signals, which in Python are
heap objects aliased from a message's `signals` list, its `signals_dict`
and multiplexor `switch`es, are kept in a per-message store and referred
to by their index (creation order) in that store.
-/

set_option maxRecDepth 10000

namespace Dbc

/-- Python literal values produced by the parser atoms `uint`/`sint`
(ints), `double` (floats, modelled as rationals) and `string`. -/
inductive PyVal where
  | int (i : Int)
  | float (q : Rat)
  | str (s : String)
deriving DecidableEq, Repr

/-- Python `==` on literal values: numbers compare across int/float
(`5 == 5.0` is true); strings never equal numbers. -/
def pyValEq : PyVal → PyVal → Bool
  | .int a, .int b => a == b
  | .int a, .float b => (a : Rat) == b
  | .float a, .int b => a == (b : Rat)
  | .float a, .float b => a == b
  | .str a, .str b => a == b
  | _, _ => false

/-- Python dict assignment `d[k] = v`: if the key is present its value is
replaced in place (Python dicts keep the first-insertion position),
otherwise the pair is appended. -/
def dictSet [DecidableEq κ] (d : List (κ × α)) (k : κ) (v : α) : List (κ × α) :=
  match d with
  | [] => [(k, v)]
  | (k', v') :: rest =>
    if k' = k then (k', v) :: rest else (k', v') :: dictSet rest k v

/-- Python dict read `d[k]` (None when the key is absent, which in Python
would be a KeyError). -/
def dictLookup [DecidableEq κ] (d : List (κ × α)) (k : κ) : Option α :=
  match d with
  | [] => none
  | (k', v') :: rest => if k' = k then some v' else dictLookup rest k

/-- Python `k in d`. -/
def dictMem [DecidableEq κ] (d : List (κ × α)) (k : κ) : Bool :=
  (dictLookup d k).isSome

/-- The `Range` class (dbctool.py lines 52-96): a closed interval of
values.  The numeric payloads in dbctool are Python ints and floats; both
are modelled as rationals. -/
structure Range where
  minval : Rat
  maxval : Rat
deriving DecidableEq, Repr, Inhabited

/-- `Range.within` (line 79): true iff `x >= minval and x <= maxval`. -/
def Range.within (r : Range) (x : Rat) : Bool :=
  decide (x ≥ r.minval) && decide (x ≤ r.maxval)

/-- `Range.limits` (line 73). -/
def Range.limits (r : Range) : Rat × Rat :=
  (r.minval, r.maxval)

/-- `Range.intersection` (lines 88-96): `None` when
`self.minval > other.maxval or self.maxval < other.minval`, otherwise the
range from `max` of the minima to `min` of the maxima. -/
def Range.intersection (r other : Range) : Option Range :=
  if r.minval > other.maxval ∨ r.maxval < other.minval then none
  else some ⟨max r.minval other.minval, min r.maxval other.maxval⟩

/-- The two closed intervals have no common point (the spec's notion of
"disjoint" for §3/§8.4). -/
def Range.disjointWith (r other : Range) : Prop :=
  ∀ x : Rat, ¬(r.within x = true ∧ other.within x = true)

/-! ## The semantic model (dbctool.py classes Signal, Message, SignalGroup, Bus)

A Python `Signal` is a heap object aliased from its message's `signals`
list, the `signals_dict` map and (for multiplexed signals) a multiplexor's
`switch`.  We model the heap by keeping every `Signal` object of a message
in a per-message `store : List Signal`; the object identity of a signal is
its index ("tag") in that store, which is its creation order.  `signals`,
`signals_dict` and `switch` hold tags.

Switch entries pair a `Range` with a signal.  In the source every range
stored in a switch holds two Python ints (`Range(v, v)` in the
single-multiplexor reconstruction and `Range((lo, hi))` from
`SG_MUL_VAL_`), so switch ranges are modelled as pairs of naturals;
`Range.__eq__` is component-wise, matching pair equality. -/

/-- A multiplexor switch entry: integer selector range and the tag of the
multiplexed signal.  Python's `Switch.append` compares the signal by
object identity (no `Signal.__eq__`), i.e. by tag. -/
abbrev SwEntry := (Nat × Nat) × Nat

/-- `Switch.append` (lines 109-119): skip if an entry with equal range and
identical signal is already present, else append at the end. -/
def switchAppend (sw : List SwEntry) (r : Nat × Nat) (t : Nat) : List SwEntry :=
  if (r, t) ∈ sw then sw else sw ++ [(r, t)]

/-- `Switch.any_multiples` (lines 132-146): true iff some signal (by
identity) appears under more than one entry. -/
def switchAnyMultiples (sw : List SwEntry) : Bool :=
  (sw.map (·.2)).any fun t => 1 < (sw.map (·.2)).count t

/-- The `Signal` class (lines 167-283).  `is_little_endian` and
`is_signed` are `Option Bool` because the `endian`/`signed` parser atoms
can produce Python `None` (see `Parser.endian` below).  `value_type` is
`None` until a `SIG_VALTYPE_` section sets it. -/
structure Signal where
  name : String
  multiplex_value : Option Nat
  is_multiplexor : Bool
  is_little_endian : Option Bool
  is_signed : Option Bool
  start_bit : Nat
  numbits : Nat
  factor : Rat
  offset : Rat
  range : Range
  unit : String
  receivers : List String
  switch : List SwEntry
  comments : List String
  attributes : List (String × PyVal)
  value_descriptions : List (Int × String)
  value_type : Option Nat
deriving DecidableEq, Repr, Inhabited

/-- `Signal.multiplexes` (lines 225-230): the signal is a multiplexor and
`val` is within `[0, 2**numbits)`.  (`multiplex_value`s come from the
`uint` atom, hence `Nat`; the source's `val >= 0` is kept verbatim.) -/
def Signal.multiplexes (s : Signal) (val : Nat) : Bool :=
  s.is_multiplexor && decide (0 ≤ val) && decide (val < 2 ^ s.numbits)

/-- The `SignalGroup` class (lines 286-320): a list of signal names with a
repetition count `n`. -/
structure SignalGroup where
  n : Nat
  sigs : List String
deriving DecidableEq, Repr

/-- The `Message` class (lines 323-466).  `store` holds every `Signal`
object ever appended to the message (tag = index); `signals` is the
top-level signal list and `signals_dict` the name map, both holding tags. -/
structure Message where
  id : Nat
  name : String
  size : Nat
  transmitters : List String
  store : List Signal
  signals : List Nat
  signals_dict : List (String × Nat)
  comments : List String
  attributes : List (String × PyVal)
  signal_groups : List (String × SignalGroup)
deriving DecidableEq, Repr, Inhabited

/-- `Message.__init__` (lines 327-344). -/
def Message.mkNew (id : Nat) (name : String) (size : Nat) (transmitter : String) : Message :=
  ⟨id, name, size, [transmitter], [], [], [], [], [], []⟩

/-- `Message.append` (lines 346-353): append the signal object to
`signals` and bind its name in `signals_dict` (a plain dict assignment,
so a repeated name silently overwrites the previous binding). -/
def Message.appendSig (m : Message) (sg : Signal) : Message :=
  { m with
    store := m.store ++ [sg]
    signals := m.signals ++ [m.store.length]
    signals_dict := dictSet m.signals_dict sg.name m.store.length }

/-- Replace the signal object at tag `t` (in-place mutation of the store;
tags are always in range in states reachable from `Bus` construction). -/
def Message.setSig (m : Message) (t : Nat) (s : Signal) : Message :=
  { m with store := m.store.set t s }

/-- Read the signal object at tag `t` (out-of-range reads cannot occur in
states reachable from `Bus` construction). -/
def Message.getSig (m : Message) (t : Nat) : Signal :=
  m.store.getD t default

/-- Per-node payload: `self.nodes[node] = {'comments': [], 'attributes': {}}`
(line 540). -/
structure NodeInfo where
  comments : List String
  attributes : List (String × PyVal)
deriving DecidableEq, Repr

/-- One attribute typedef payload (`BA_DEF_`, lines 675-683): INT/HEX/FLOAT
carry a `(min, max)` pair, ENUM carries the value list, STRING carries
`None`. -/
inductive TypPayload where
  | pairVals (a b : PyVal)
  | enumVals (l : List String)
  | noneVal
deriving DecidableEq, Repr

/-- An attribute typedef: the dict `{'type': typ, 'values': payload}`. -/
structure AttrTypedef where
  type : String
  values : TypPayload
deriving DecidableEq, Repr

/-- The `Bus` class state (lines 469-1279), without the usermode/debugmode
I/O plumbing. -/
structure Bus where
  version : String
  baudrate : Option Nat
  btr : Option (Nat × Nat)
  nodes : List (String × NodeInfo)
  newsymbols : List String
  global_values : List (String × List (Int × String))
  messages : List (Nat × Message)
  comments : List String
  attrib_typedefs : List (String × List (String × AttrTypedef))
  attrib_defaults : List (String × PyVal)
  attributes : List (String × PyVal)
deriving DecidableEq, Repr

/-! ## Parsed sections (the Parser's tagged tuples) -/

/-- The signal dict built by `Parser.signal` (lines 1746-1805).
`little_endian`/`signed_choice` are `Option Bool` because `endian` and
`signed` return `None` on unexpected input (missing `raise`). -/
structure SigDict where
  name : String
  multiplex_value : Option Nat
  is_multiplexor : Bool
  start : Nat
  size : Nat
  little_endian : Option Bool
  signed_choice : Option Bool
  factor : Rat
  offset : Rat
  range : Rat × Rat
  unit : String
  receivers : List String
deriving DecidableEq, Repr

/-- `Signal.__init__` from a parsed signal dict (lines 171-193). -/
def Signal.ofDict (d : SigDict) : Signal :=
  { name := d.name
    multiplex_value := d.multiplex_value
    is_multiplexor := d.is_multiplexor
    is_little_endian := d.little_endian
    is_signed := d.signed_choice
    start_bit := d.start
    numbits := d.size
    factor := d.factor
    offset := d.offset
    range := ⟨d.range.1, d.range.2⟩
    unit := d.unit
    receivers := d.receivers
    switch := []
    comments := []
    attributes := []
    value_descriptions := []
    value_type := none }

/-- The message dict built by `Parser.section_body_BO_` (lines 1807-1826). -/
structure BoDict where
  id : Nat
  name : String
  size : Nat
  transmitter : String
  signals : List SigDict
deriving DecidableEq, Repr

/-- `CM_` scope payload (lines 1839-1876). -/
inductive CmSpec where
  | glob (c : String)
  | bu (name c : String)
  | bo (id : Nat) (c : String)
  | sg (id : Nat) (name c : String)
  | ev (name c : String)
deriving DecidableEq, Repr

/-- `BA_DEF_` attribute type payload (lines 1946-1978). -/
inductive BaTyp where
  | intRange (a b : Int)
  | hexRange (a b : Int)
  | floatRange (a b : Rat)
  | stringTyp
  | enumTyp (vals : List String)
deriving DecidableEq, Repr

/-- `BA_` target descriptor (lines 2009-2041). -/
inductive BaDesc where
  | glob
  | bu (name : String)
  | bo (id : Nat)
  | sg (id : Nat) (name : String)
  | ev (name : String)
deriving DecidableEq, Repr

/-- A parsed dbc section: the tagged tuples produced by the section body
rules and consumed by `Bus.__init__`. -/
inductive DbcSection where
  | version (s : String)
  | ns (l : List String)
  | bs (o : Option (Nat × Nat × Nat))
  | bu (l : List String)
  | valTable (name : String) (table : List (Int × String))
  | bo (d : BoDict)
  | boTxBu (id : Nat) (txs : List String)
  | cm (spec : CmSpec)
  | baDef (scope : String) (name : String) (typ : BaTyp)
  | baDefDef (name : String) (val : PyVal)
  | ba (name : String) (desc : BaDesc) (val : PyVal)
  | valDesc (id : Nat) (sig : String) (vals : List (Int × String))
  | sigGroup (id : Nat) (name : String) (number : Nat) (sigs : List String)
  | sigValtype (id : Nat) (sig : String) (tn : Nat)
  | sgMulVal (id : Nat) (sig : String) (mux : String) (ranges : List (Nat × Nat))
deriving DecidableEq, Repr

/-! ## The model builder (`Bus.__init__`, lines 481-906)

Python exceptions become `Except` error values.  Besides `DatabaseError`,
the builder can raise a `NameError` (an error-construction site references
an undefined variable, e.g. `goup_name` on line 787) and a `TypeError`
(`DatabaseError(msg, arg)` called with two arguments while its `__init__`
accepts one, e.g. line 629). -/

inductive BErr where
  | databaseError (msg : String)
  | nameError
  | typeError
  | otherError (msg : String)
deriving DecidableEq, Repr

def secVersion? : DbcSection → Option String
  | .version s => some s
  | _ => none

def secNs? : DbcSection → Option (List String)
  | .ns l => some l
  | _ => none

def secBs? : DbcSection → Option (Option (Nat × Nat × Nat))
  | .bs o => some o
  | _ => none

def secBu? : DbcSection → Option (List String)
  | .bu l => some l
  | _ => none

def secValTable? : DbcSection → Option (String × List (Int × String))
  | .valTable n t => some (n, t)
  | _ => none

def secBo? : DbcSection → Option BoDict
  | .bo d => some d
  | _ => none

def secBoTxBu? : DbcSection → Option (Nat × List String)
  | .boTxBu id txs => some (id, txs)
  | _ => none

def secCm? : DbcSection → Option CmSpec
  | .cm c => some c
  | _ => none

def secBaDef? : DbcSection → Option (String × String × BaTyp)
  | .baDef sc n t => some (sc, n, t)
  | _ => none

def secBaDefDef? : DbcSection → Option (String × PyVal)
  | .baDefDef n v => some (n, v)
  | _ => none

def secBa? : DbcSection → Option (String × BaDesc × PyVal)
  | .ba n d v => some (n, d, v)
  | _ => none

def secValDesc? : DbcSection → Option (Nat × String × List (Int × String))
  | .valDesc id s vs => some (id, s, vs)
  | _ => none

def secSigGroup? : DbcSection → Option (Nat × String × Nat × List String)
  | .sigGroup id n num ss => some (id, n, num, ss)
  | _ => none

def secSigValtype? : DbcSection → Option (Nat × String × Nat)
  | .sigValtype id s tn => some (id, s, tn)
  | _ => none

def secSgMulVal? : DbcSection → Option (Nat × String × String × List (Nat × Nat))
  | .sgMulVal id s mx rs => some (id, s, mx, rs)
  | _ => none

/-- `Bus._xtract_sec` (lines 899-906): remove and return all sections of a
tag, both sublists keeping their input order. -/
def xtractWith (f : DbcSection → Option α) (l : List DbcSection) :
    List α × List DbcSection :=
  (l.filterMap f, l.filter fun s => (f s).isNone)

/-- Update the message stored under `id` (mutating the shared object in
Python). -/
def Bus.withMsg (b : Bus) (id : Nat) (m : Message) : Bus :=
  { b with messages := dictSet b.messages id m }

/-- `tab[2].sort(key=lambda x: x[0], reverse=True)` (line 561): Python's
stable sort, descending by the integer key. -/
def sortTableDesc (t : List (Int × String)) : List (Int × String) :=
  t.mergeSort fun a b => decide (b.1 ≤ a.1)

/-- One `VAL_TABLE_` section (lines 555-569): duplicate table name is an
error; per-table duplicate keys keep the last definition (dict overwrite
over the descending-sorted list). -/
def addValTable (gv : List (String × List (Int × String)))
    (tab : String × List (Int × String)) :
    Except BErr (List (String × List (Int × String))) :=
  if dictMem gv tab.1 then
    .error (.databaseError ("multiply defined table \"" ++ tab.1 ++ "\""))
  else
    let vals := (sortTableDesc tab.2).foldl (fun d t => dictSet d t.1 t.2) []
    .ok (dictSet gv tab.1 vals)

/-- One `BO_` section (lines 580-590): create the Message, fail on a
duplicate id, then append its signals. -/
def addMessage (msgs : List (Nat × Message)) (d : BoDict) :
    Except BErr (List (Nat × Message)) :=
  if dictMem msgs d.id then
    .error (.databaseError ("multiple definitions of message " ++ toString d.id ++
      " " ++ d.name ++ " "))
  else
    let msg := d.signals.foldl (fun m sd => m.appendSig (Signal.ofDict sd))
      (Message.mkNew d.id d.name d.size d.transmitter)
    .ok (dictSet msgs d.id msg)

/-- One transmitter of a `BO_TX_BU_` section (lines 603-608): the node must
be defined; append only if not already listed. -/
def addTx (nodes : List (String × NodeInfo)) (m : Message) (tx : String) :
    Except BErr Message :=
  if ¬ dictMem nodes tx then
    .error (.databaseError ("transmitter \"" ++ tx ++ "\" not among defined nodes"))
  else if tx ∈ m.transmitters then .ok m
  else .ok { m with transmitters := m.transmitters ++ [tx] }

/-- One `BO_TX_BU_` section (lines 594-608). -/
def applyBoTxBu1 (b : Bus) (s : Nat × List String) : Except BErr Bus := do
  match dictLookup b.messages s.1 with
  | none =>
    .error (.databaseError ("undefined message id \"" ++ toString s.1 ++
      "\" in BO_TX_BU-statement"))
  | some msg =>
    let msg' ← s.2.foldlM (addTx b.nodes) msg
    .ok (b.withMsg s.1 msg')

/-- One `CM_` section (lines 617-657).  The undefined-node branch calls
`DatabaseError("...", name)` with two arguments: a Python `TypeError`. -/
def applyCm1 (b : Bus) (c : CmSpec) : Except BErr Bus :=
  match c with
  | .glob s => .ok { b with comments := b.comments ++ [s] }
  | .bu name s =>
    match dictLookup b.nodes name with
    | some ni =>
      .ok { b with nodes := dictSet b.nodes name { ni with comments := ni.comments ++ [s] } }
    | none => .error .typeError
  | .bo id s =>
    match dictLookup b.messages id with
    | some m => .ok (b.withMsg id { m with comments := m.comments ++ [s] })
    | none =>
      .error (.databaseError ("comment for undefined message \"" ++ toString id ++ "\""))
  | .sg id name s =>
    match dictLookup b.messages id with
    | some m =>
      match dictLookup m.signals_dict name with
      | some t =>
        let sg := m.getSig t
        .ok (b.withMsg id (m.setSig t { sg with comments := sg.comments ++ [s] }))
      | none =>
        .error (.databaseError ("comment for undefined signal \"" ++ name ++
          "\" in message \"" ++ toString id ++ "\""))
    | none =>
      .error (.databaseError ("comment for signal \"" ++ name ++
        "\" in undefined message \"" ++ toString id ++ "\""))
  | .ev _ _ => .error (.databaseError "CM_ EV_ not implented")

/-- Typedef stored for a `BA_DEF_` type payload (lines 675-683). -/
def typedefOf : BaTyp → AttrTypedef
  | .intRange a b => ⟨"INT", .pairVals (.int a) (.int b)⟩
  | .hexRange a b => ⟨"HEX", .pairVals (.int a) (.int b)⟩
  | .floatRange a b => ⟨"FLOAT", .pairVals (.float a) (.float b)⟩
  | .stringTyp => ⟨"STRING", .noneVal⟩
  | .enumTyp l => ⟨"ENUM", .enumVals l⟩

/-- One `BA_DEF_` section (lines 663-685). -/
def applyBaDef1 (b : Bus) (c : String × String × BaTyp) : Except BErr Bus :=
  match dictLookup b.attrib_typedefs c.1 with
  | none =>
    .error (.databaseError ("unknown object type \"" ++ c.1 ++ "\" in BA_DEF_"))
  | some d =>
    if dictMem d c.2.1 then
      .error (.databaseError ("attribute \"" ++ c.2.1 ++ "\" already defined for \"" ++
        c.1 ++ "\""))
    else
      .ok { b with attrib_typedefs :=
              dictSet b.attrib_typedefs c.1 (dictSet d c.2.1 (typedefOf c.2.2)) }

/-- One `BA_DEF_DEF_` section (lines 689-695).  The duplicate branch calls
`DatabaseError(msg, format(name))` with two arguments: a Python
`TypeError`. -/
def applyBaDefDef1 (b : Bus) (c : String × PyVal) : Except BErr Bus :=
  if dictMem b.attrib_defaults c.1 then .error .typeError
  else .ok { b with attrib_defaults := dictSet b.attrib_defaults c.1 c.2 }

/-- One `BA_` section (lines 701-754).  In the `SG_` branch all three
error messages interpolate the undefined variable `sig` (lines 739, 744,
749), so those paths raise `NameError`; on the non-error path the source
never performs the assignment `attr[name] = val`, so the signal's
attribute map is left unchanged. -/
def applyBa1 (b : Bus) (c : String × BaDesc × PyVal) : Except BErr Bus :=
  match c.2.1 with
  | .glob =>
    if dictMem b.attributes c.1 then
      .error (.databaseError ("general attribute \"" ++ c.1 ++ "\" multiply defined "))
    else .ok { b with attributes := dictSet b.attributes c.1 c.2.2 }
  | .bu node =>
    match dictLookup b.nodes node with
    | none =>
      .error (.databaseError ("unknown node \"" ++ node ++ "\" in attribute value statement"))
    | some ni =>
      if dictMem ni.attributes c.1 then
        .error (.databaseError ("attribute \"" ++ c.1 ++ "\" multiply defined for node \"" ++
          node ++ "\""))
      else
        .ok { b with nodes :=
                dictSet b.nodes node { ni with attributes := dictSet ni.attributes c.1 c.2.2 } }
  | .bo id =>
    match dictLookup b.messages id with
    | none =>
      .error (.databaseError ("unknown message id \"" ++ toString id ++
        "\" in attribute value statement"))
    | some m =>
      if dictMem m.attributes c.1 then
        .error (.databaseError ("attribute \"" ++ c.1 ++ "\" multiply defined for message \"" ++
          toString id ++ "\""))
      else
        .ok (b.withMsg id { m with attributes := dictSet m.attributes c.1 c.2.2 })
  | .sg id sname =>
    match dictLookup b.messages id with
    | none => .error .nameError
    | some m =>
      match dictLookup m.signals_dict sname with
      | none => .error .nameError
      | some t =>
        if dictMem (m.getSig t).attributes c.1 then .error .nameError
        else .ok b
  | .ev _ => .error (.databaseError "attributes for EV_ not implemented")

/-- One `VAL_` section (lines 757-772). -/
def applyValDesc1 (b : Bus) (c : Nat × String × List (Int × String)) : Except BErr Bus :=
  match dictLookup b.messages c.1 with
  | none =>
    .error (.databaseError ("unknown message id \"" ++ toString c.1 ++
      "\" in signal value description for signal \"" ++ c.2.1 ++ "\""))
  | some m =>
    match dictLookup m.signals_dict c.2.1 with
    | none =>
      .error (.databaseError ("unknown message - signal designation \"" ++ toString c.1 ++
        "\" - \"" ++ c.2.1 ++ "\" in signal value description"))
    | some t =>
      let sg := m.getSig t
      .ok (b.withMsg c.1 (m.setSig t
        { sg with value_descriptions :=
            c.2.2.foldl (fun d p => dictSet d p.1 p.2) sg.value_descriptions }))

/-- One `SIG_GROUP_` section (lines 775-800).  The duplicate-group branch
interpolates the undefined variable `goup_name` (line 787) and the
undefined-signal branch the undefined variable `groupname` (line 795), so
both raise `NameError`. -/
def applySigGroup1 (b : Bus) (c : Nat × String × Nat × List String) : Except BErr Bus :=
  match dictLookup b.messages c.1 with
  | none =>
    .error (.databaseError ("unknown message id \"" ++ toString c.1 ++
      "\" in definition of signal group \"" ++ c.2.1 ++ "\""))
  | some m =>
    if dictMem m.signal_groups c.2.1 then .error .nameError
    else
      let signals := c.2.2.2.foldl (fun acc n => if n ∈ acc then acc else acc ++ [n]) []
      if signals.any (fun n => ¬ dictMem m.signals_dict n) then .error .nameError
      else
        .ok (b.withMsg c.1
          { m with signal_groups := dictSet m.signal_groups c.2.1 ⟨c.2.2.1, signals⟩ })

/-- One `SIG_VALTYPE_` section (lines 803-817). -/
def applySigValtype1 (b : Bus) (c : Nat × String × Nat) : Except BErr Bus :=
  match dictLookup b.messages c.1 with
  | none =>
    .error (.databaseError ("unknown message id \"" ++ toString c.1 ++
      "\" in signal value-type statement for signal \"" ++ c.2.1 ++ "\""))
  | some m =>
    match dictLookup m.signals_dict c.2.1 with
    | none =>
      .error (.databaseError ("unknown message - signal desgination \"" ++ toString c.1 ++
        "\" - \"" ++ c.2.1 ++ "\" in signal value-type statement"))
    | some t =>
      let sg := m.getSig t
      .ok (b.withMsg c.1 (m.setSig t { sg with value_type := some c.2.2 }))

/-- Scan of `msg.signals` (lines 821-829): number of multiplexors, the
last multiplexor seen, and the multiplexed signals in order. -/
def muxScan (m : Message) : Nat × Option Nat × List Nat :=
  m.signals.foldl
    (fun acc t =>
      let sig := m.getSig t
      let n := if sig.is_multiplexor then acc.1 + 1 else acc.1
      let mx := if sig.is_multiplexor then some t else acc.2.1
      let ml := if sig.multiplex_value.isSome then acc.2.2 ++ [t] else acc.2.2
      (n, mx, ml))
    ((0 : Nat), (none : Option Nat), ([] : List Nat))

/-- The reconstruction loop over the multiplexed signals (lines 831-840):
append `(Range(v, v), sig)` to the multiplexor's switch and remove the
signal from the top-level list, or fail if `v` is out of range. -/
def organizeLoop (muxTag : Nat) : List Nat → Message → Except BErr Message
  | [], m => .ok m
  | t :: ts, m =>
    let sig := m.getSig t
    let mux := m.getSig muxTag
    match sig.multiplex_value with
    | none => .error .typeError
    | some v =>
      if mux.multiplexes v then
        let m' := m.setSig muxTag { mux with switch := switchAppend mux.switch (v, v) t }
        organizeLoop muxTag ts { m' with signals := m'.signals.erase t }
      else
        .error (.databaseError ("multiplex value for signal \"" ++ sig.name ++
          "\" in message \"" ++ toString m.id ++ "\" is not in range of multiplexor \"" ++
          mux.name ++ "\""))

/-- Single-multiplexor reconstruction for one message (lines 819-840):
only performed when the message has exactly one multiplexor. -/
def organizeMsgMux (m : Message) : Except BErr Message :=
  let scan := muxScan m
  if scan.1 = 1 then
    match scan.2.1 with
    | some muxTag => organizeLoop muxTag scan.2.2 m
    | none => .error .typeError
  else .ok m

/-- Reconstruction over all messages, in dict order (line 819). -/
def organizeAllMux : Bus → List Nat → Except BErr Bus
  | b, [] => .ok b
  | b, id :: ids =>
    match dictLookup b.messages id with
    | none => .error .typeError
    | some m =>
      match organizeMsgMux m with
      | .error e => .error e
      | .ok m' => organizeAllMux (b.withMsg id m') ids

/-- One `SG_MUL_VAL_` section (lines 844-880). -/
def applySgMulVal1 (b : Bus) (c : Nat × String × String × List (Nat × Nat)) :
    Except BErr Bus :=
  match dictLookup b.messages c.1 with
  | none =>
    .error (.databaseError ("unknown message id \"" ++ toString c.1 ++
      "\" in extended multiplexing statement for signal \"" ++ c.2.1 ++
      "\" and mux \"" ++ c.2.2.1 ++ "\" "))
  | some m =>
    match dictLookup m.signals_dict c.2.1 with
    | none =>
      .error (.databaseError ("unknown signal name \"" ++ c.2.1 ++
        "\" in extended multiplexing statement for message id \"" ++ toString c.1 ++ "\""))
    | some sigTag =>
      match dictLookup m.signals_dict c.2.2.1 with
      | none =>
        .error (.databaseError ("unknown multiplexor name \"" ++ c.2.2.1 ++
          "\" in extended multiplexing statement for message id \"" ++ toString c.1 ++ "\""))
      | some muxTag =>
        if ¬ (m.getSig muxTag).is_multiplexor then
          .error (.databaseError ("named multiplexor \"" ++ c.2.2.1 ++
            "\" in extended multiplexing statement for message id \"" ++ toString c.1 ++
            "\" is not a multiplexor"))
        else if sigTag ∈ m.signals then
          let m' := { m with signals := m.signals.erase sigTag }
          let mux := m'.getSig muxTag
          let m'' := m'.setSig muxTag
            { mux with switch := c.2.2.2.foldl (fun sw r => switchAppend sw r sigTag) mux.switch }
          .ok (b.withMsg c.1 m'')
        else
          .error (.databaseError ("signal \"" ++ c.2.1 ++ "\" in message \"" ++
            toString c.1 ++ "\" multiplexed be more than one multiplexor"))

/-- Orphan scan (lines 881-886): remaining top-level signals that still
carry a `multiplex_value`. -/
def orphanList (b : Bus) : List (Nat × String) :=
  b.messages.foldl
    (fun acc p =>
      acc ++ p.2.signals.filterMap fun t =>
        let sig := p.2.getSig t
        if sig.multiplex_value.isSome then some (p.2.id, sig.name) else none)
    []

/-- The orphan error text (lines 887-891). -/
def orphanMsg (l : List (Nat × String)) : String :=
  l.foldl
    (fun s p => s ++ "\n    \"" ++ toString p.1 ++ "\": \"" ++ p.2 ++ "\"")
    "there were signals with unspecified multiplexor: "

/-- `Bus.__init__` (lines 481-897): consume the section store in the fixed
dependency order, validating and populating the Bus. -/
def buildBus (seclist : List DbcSection) : Except BErr Bus := do
  let (vl, s1) := xtractWith secVersion? seclist
  let version ← match vl with
    | [] => .error (.databaseError "missing section: \"VERSION\"")
    | [v] => Except.ok v
    | _ => .error (.databaseError "more than one section of type \"VERSION\"")
  let (bsl, s2) := xtractWith secBs? s1
  let bsv ← match bsl with
    | [] => .error (.databaseError "missing section: \"BS_\"")
    | [v] => Except.ok v
    | _ => .error (.databaseError "more than one section of type \"BS_\"")
  let (baudrate, btr) := match bsv with
    | some (b, b1, b2) => (some b, some (b1, b2))
    | none => (none, none)
  let (bul, s3) := xtractWith secBu? s2
  let nl0 ← match bul with
    | [] => .error (.databaseError "missing section: \"BU_\"")
    | [v] => Except.ok v
    | _ => .error (.databaseError "more than one section of type \"BU_\"")
  let nl := if nl0.length - nl0.eraseDups.length ≠ 0 then nl0.eraseDups else nl0
  let nodes := nl.foldl (fun d n => dictSet d n ⟨[], []⟩) []
  let (nsl, s4) := xtractWith secNs? s3
  let newsymbols ← match nsl with
    | [] => Except.ok []
    | [v] => Except.ok v
    | _ => .error (.databaseError "more than one section of type \"NS_\"")
  let (tabs, s5) := xtractWith secValTable? s4
  let global_values ← tabs.foldlM addValTable []
  let (bos, s6) := xtractWith secBo? s5
  let messages ← bos.foldlM addMessage []
  let b0 : Bus :=
    ⟨version, baudrate, btr, nodes, newsymbols, global_values, messages, [],
     [("", []), ("BU_", []), ("BO_", []), ("SG_", []), ("EV_", [])], [], []⟩
  let (txs, s7) := xtractWith secBoTxBu? s6
  let b1 ← txs.foldlM applyBoTxBu1 b0
  let (cms, s8) := xtractWith secCm? s7
  let b2 ← cms.foldlM applyCm1 b1
  let (bds, s9) := xtractWith secBaDef? s8
  let b3 ← bds.foldlM applyBaDef1 b2
  let (bdds, s10) := xtractWith secBaDefDef? s9
  let b4 ← bdds.foldlM applyBaDefDef1 b3
  let (bas, s11) := xtractWith secBa? s10
  let b5 ← bas.foldlM applyBa1 b4
  let (vals, s12) := xtractWith secValDesc? s11
  let b6 ← vals.foldlM applyValDesc1 b5
  let (sgs, s13) := xtractWith secSigGroup? s12
  let b7 ← sgs.foldlM applySigGroup1 b6
  let (svts, s14) := xtractWith secSigValtype? s13
  let b8 ← svts.foldlM applySigValtype1 b7
  let b9 ← organizeAllMux b8 (b8.messages.map (·.1))
  let (smvs, s15) := xtractWith secSgMulVal? s14
  let b10 ← smvs.foldlM applySgMulVal1 b9
  if orphanList b10 ≠ [] then
    .error (.databaseError (orphanMsg (orphanList b10)))
  else if s15 ≠ [] then
    .error (.otherError "sections left to unpack")
  else
    .ok b10

/-! ## The serializer (`Bus.dbc`, lines 909-1103)

Serialization is total except where the Python would raise (empty
`receivers` in `Signal.dbc`, malformed typedef payloads): those paths
return `none`. -/

/-- Python truthiness of an optional int: `None` and `0` are falsy. -/
def pyTruthyOptNat : Option Nat → Bool
  | none => false
  | some n => n != 0

/-- Python truthiness of `is_little_endian`/`is_signed`: `None` and
`False` are falsy. -/
def pyTruthyOptBool (o : Option Bool) : Bool := o.getD false

/-- Fractional decimal digits of a rational in `[0, 1)`, fuel-bounded (the
floats here come from decimal literals, whose expansions terminate). -/
def fracDigits : Nat → Rat → String
  | 0, _ => ""
  | fuel + 1, q =>
    if q = 0 then ""
    else
      let q10 := q * 10
      let d := q10.floor
      toString d ++ fracDigits fuel (q10 - d)

/-- Positional rendering of a non-negative rational as Python `str()`
renders the corresponding float: integral values get a trailing ".0". -/
def fmtRatCore (q : Rat) : String :=
  let ip := q.floor
  let fr := q - ip
  if fr = 0 then toString ip ++ ".0"
  else toString ip ++ "." ++ fracDigits 40 fr

/-- Python `str()` of a float.  (CPython switches to scientific notation
outside `[1e-4, 1e16)`; no value in this development reaches that.) -/
def fmtRat (q : Rat) : String :=
  if q < 0 then "-" ++ fmtRatCore (-q) else fmtRatCore q

/-- Python `str()` of a parsed literal value. -/
def pyStrVal : PyVal → String
  | .int i => toString i
  | .float q => fmtRat q
  | .str v => v

/-- A literal value as it appears in an emitted statement: quoted iff the
stored literal is a string (lines 1021-1022, 1031-1034, ...). -/
def baValStr : PyVal → String
  | .str v => "\"" ++ v ++ "\""
  | .int i => toString i
  | .float q => fmtRat q

/-- `c.replace('"', '\\"')` applied to comments on emission (line 967):
each double quote becomes backslash-quote. -/
def escQuotesList : List Char → List Char
  | [] => []
  | c :: r => if c = '"' then '\\' :: '"' :: escQuotesList r else c :: escQuotesList r

def escQuotes (c : String) : String := ⟨escQuotesList c.toList⟩

/-- `Signal.dbc` (lines 232-262): the canonical `SG_` line.  `none` when
`receivers` is empty (a Python IndexError on `receivers[0]`). -/
def Signal.dbc (s : Signal) : Option String :=
  match s.receivers with
  | [] => none
  | r0 :: rest =>
    let muxpart :=
      (match s.multiplex_value with
       | some v => "m" ++ toString v
       | none => "") ++ (if s.is_multiplexor then "M" else "")
    let onemore := s.multiplex_value.isSome || s.is_multiplexor
    some ("SG_ " ++ s.name ++ " " ++ muxpart ++ (if onemore then " " else "") ++ ":" ++
      " " ++ toString s.start_bit ++ "|" ++ toString s.numbits ++ "@" ++
      (if pyTruthyOptBool s.is_little_endian then "1" else "0") ++
      (if pyTruthyOptBool s.is_signed then "-" else "+") ++
      " (" ++ fmtRat s.factor ++ "," ++ fmtRat s.offset ++ ")" ++
      " [" ++ fmtRat s.range.minval ++ "|" ++ fmtRat s.range.maxval ++ "]" ++
      " \"" ++ s.unit ++ "\"  " ++ r0 ++
      rest.foldl (fun acc r => acc ++ ", " ++ r) "" ++ "\n")

/-- `SignalGroup.dbc` (lines 304-312). -/
def SignalGroup.dbc (g : SignalGroup) : String :=
  toString g.n ++ " :" ++ g.sigs.foldl (fun s n => s ++ " " ++ n) "" ++ ";"

/-- `Switch.dbc_sg_mul_val_strs` (lines 148-164): first-seen signals and
the switch ranges grouped by multiplexed-signal name. -/
def swMulValGroups (store : List Signal) (sw : List SwEntry) :
    List Nat × List (String × List (Nat × Nat)) :=
  sw.foldl
    (fun acc e =>
      let signame := (store.getD e.2 default).name
      match dictLookup acc.2 signame with
      | some rs => (acc.1, dictSet acc.2 signame (rs ++ [e.1]))
      | none => (acc.1 ++ [e.2], acc.2 ++ [(signame, [e.1])]))
    (([] : List Nat), ([] : List (String × List (Nat × Nat))))

/-- `' '.join` of "min-max" range strings (line 162). -/
def rangesJoin (rs : List (Nat × Nat)) : String :=
  String.intercalate " " (rs.map fun r => toString r.1 ++ "-" ++ toString r.2)

/-- `Signal.dbc_sg_mul_val` (lines 264-272): one "sig mux ranges" entry per
multiplexed signal, recursing into nested multiplexors.  The fuel bounds
the nesting depth (any value above the store size is exact on built
buses). -/
def sigDbcMulVal (store : List Signal) : Nat → Nat → List String
  | 0, _ => []
  | fuel + 1, t =>
    let s := store.getD t default
    if ¬ s.is_multiplexor then []
    else
      let gr := swMulValGroups store s.switch
      gr.1.foldl
        (fun acc t' =>
          let sname := (store.getD t' default).name
          acc ++ [sname ++ " " ++ s.name ++ " " ++ rangesJoin ((dictLookup gr.2 sname).getD [])]
            ++ sigDbcMulVal store fuel t')
        []

/-- `Message.dbc` (lines 375-384): `BO_` header plus one `SG_` line per
`signals_dict` entry. -/
def Message.dbc (m : Message) : Option String := do
  let tx0 ← m.transmitters.head?
  let header := "BO_ " ++ toString m.id ++ " " ++ m.name ++ ": " ++ toString m.size ++
    " " ++ tx0 ++ "\n"
  m.signals_dict.foldlM
    (fun acc p => do
      let line ← (m.getSig p.2).dbc
      pure (acc ++ " " ++ line))
    header

/-- `Message.dbc_sg_mul_val` (lines 386-399): the `SG_MUL_VAL_` block,
emitted only with more than one multiplexor or a signal under several
ranges. -/
def Message.dbcSgMulVal (m : Message) : String :=
  let sd := m.signals_dict
  let multipleMuxes := 1 < (sd.filter fun p => (m.getSig p.2).is_multiplexor).length
  let multipleSwitches := sd.any fun p => switchAnyMultiples (m.getSig p.2).switch
  if multipleMuxes || multipleSwitches then
    m.signals.foldl
      (fun acc t =>
        (sigDbcMulVal m.store (m.store.length + 1) t).foldl
          (fun a sstr => a ++ "SG_MUL_VAL_ " ++ toString m.id ++ " " ++ sstr ++ ";\n")
          acc)
      ""
  else ""

/-- The `BS_:` line (lines 922-926).  The source tests
`if self.baudrate and self.btr:`, so a baudrate of `0` — falsy in
Python — suppresses the bit-timing data. -/
def bsLine (b : Bus) : String :=
  "BS_:" ++
    (if pyTruthyOptNat b.baudrate && b.btr.isSome then
      match b.baudrate, b.btr with
      | some br, some t => " " ++ toString br ++ ": " ++ toString t.1 ++ ", " ++ toString t.2
      | _, _ => ""
    else "") ++ "\n\n"

/-- One value table's entries, descending by key (lines 937-940). -/
def tableEntries (d : List (Int × String)) : String :=
  (sortTableDesc d).foldl (fun s t => s ++ " " ++ toString t.1 ++ " \"" ++ t.2 ++ "\"") ""

/-- The `VAL_TABLE_` block (lines 934-943). -/
def valTableLines (gv : List (String × List (Int × String))) : String :=
  gv.foldl (fun s p => s ++ "VAL_TABLE_ " ++ p.1 ++ tableEntries p.2 ++ " ;\n") "" ++
    (if ¬ gv.isEmpty then "\n" else "")

/-- The `BO_` blocks (lines 945-948). -/
def messagesDbc (msgs : List (Nat × Message)) : Option String := do
  let body ← msgs.foldlM (fun s p => do pure (s ++ (← p.2.dbc))) ""
  pure (body ++ if ¬ msgs.isEmpty then "\n" else "")

/-- The `BO_TX_BU_` lines, for messages with more than one transmitter
(lines 950-960); the trailing blank line iff any were emitted. -/
def boTxBuLines (msgs : List (Nat × Message)) : String :=
  msgs.foldl
    (fun s p =>
      if 1 < p.2.transmitters.length then
        s ++ "BO_TX_BU_ " ++ toString p.1 ++ ":" ++
          p.2.transmitters.foldl (fun a tx => a ++ " " ++ tx) "" ++ " ;\n"
      else s)
    "" ++
    (if msgs.any (fun p => 1 < p.2.transmitters.length) then "\n" else "")

/-- The `CM_` lines (lines 964-991): global, per node, per message, per
signal; the trailing blank line iff any comment was emitted. -/
def cmLines (b : Bus) : String :=
  b.comments.foldl (fun s c => s ++ "CM_ \"" ++ escQuotes c ++ "\";\n") "" ++
  b.nodes.foldl
    (fun s p => p.2.comments.foldl
      (fun a c => a ++ "CM_ BU_ " ++ p.1 ++ " \"" ++ escQuotes c ++ "\";\n") s) "" ++
  b.messages.foldl
    (fun s p =>
      p.2.comments.foldl
        (fun a c => a ++ "CM_ BO_ " ++ toString p.1 ++ " \"" ++ escQuotes c ++ "\";\n") s ++
      p.2.signals_dict.foldl
        (fun a q => (p.2.getSig q.2).comments.foldl
          (fun a' c => a' ++ "CM_ SG_ " ++ toString p.1 ++ " " ++ q.1 ++ " \"" ++
            escQuotes c ++ "\";\n") a) "") "" ++
  (if ¬ b.comments.isEmpty ∨ b.nodes.any (fun p => ¬ p.2.comments.isEmpty) ∨
      b.messages.any (fun p => ¬ p.2.comments.isEmpty ∨
        p.2.signals_dict.any fun q => ¬ (p.2.getSig q.2).comments.isEmpty)
   then "\n" else "")

/-- One `BA_DEF_` statement body (lines 1002-1013); `none` when the stored
payload does not fit the declared type (a Python TypeError). -/
def baDefLine (ot : String) (attrname : String) (tdef : AttrTypedef) : Option String := do
  let valpart ←
    if tdef.type = "INT" ∨ tdef.type = "HEX" ∨ tdef.type = "FLOAT" then
      match tdef.values with
      | .pairVals a b => some (pyStrVal a ++ " " ++ pyStrVal b)
      | _ => none
    else if tdef.type = "ENUM" then
      match tdef.values with
      | .enumVals l => some (String.intercalate ", " (l.map fun v => "\"" ++ v ++ "\""))
      | _ => none
    else some ""
  pure ((if ot.length ≠ 0 then "BA_DEF_ " ++ ot ++ " " else "BA_DEF_ ") ++
    "\"" ++ attrname ++ "\" " ++ tdef.type ++ " " ++ valpart ++ ";\n")

/-- The `BA_DEF_` block (lines 996-1015). -/
def baDefLines (tds : List (String × List (String × AttrTypedef))) : Option String := do
  let body ← tds.foldlM
    (fun s p => p.2.foldlM (fun a q => do pure (a ++ (← baDefLine p.1 q.1 q.2))) s) ""
  pure (body ++ if tds.any (fun p => ¬ p.2.isEmpty) then "\n" else "")

/-- The `BA_DEF_DEF_` block (lines 1017-1025). -/
def baDefDefLines (dfl : List (String × PyVal)) : String :=
  dfl.foldl (fun s p => s ++ "BA_DEF_DEF_ \"" ++ p.1 ++ "\" " ++ baValStr p.2 ++ ";\n") "" ++
    (if ¬ dfl.isEmpty then "\n" else "")

/-- The `BA_` block (lines 1027-1068): global, per node, per message, per
signal attribute values. -/
def baLines (b : Bus) : String :=
  b.attributes.foldl (fun s p => s ++ "BA_ \"" ++ p.1 ++ "\" " ++ baValStr p.2 ++ ";\n") "" ++
  b.nodes.foldl
    (fun s p => p.2.attributes.foldl
      (fun a q => a ++ "BA_ \"" ++ q.1 ++ "\" BU_ " ++ p.1 ++ " " ++ baValStr q.2 ++ ";\n") s)
    "" ++
  b.messages.foldl
    (fun s p =>
      p.2.attributes.foldl
        (fun a q => a ++ "BA_ \"" ++ q.1 ++ "\" BO_ " ++ toString p.1 ++ " " ++
          baValStr q.2 ++ ";\n") s ++
      p.2.signals_dict.foldl
        (fun a q => (p.2.getSig q.2).attributes.foldl
          (fun a' r => a' ++ "BA_ \"" ++ r.1 ++ "\" SG_ " ++ toString p.1 ++ " " ++ q.1 ++
            " " ++ baValStr r.2 ++ ";\n") a) "") "" ++
  (if ¬ b.attributes.isEmpty ∨ b.nodes.any (fun p => ¬ p.2.attributes.isEmpty) ∨
      b.messages.any (fun p => ¬ p.2.attributes.isEmpty ∨
        p.2.signals_dict.any fun q => ¬ (p.2.getSig q.2).attributes.isEmpty)
   then "\n" else "")

/-- The `VAL_` block (lines 1070-1085): per-signal value descriptions,
descending by key. -/
def valDescLines (msgs : List (Nat × Message)) : String :=
  msgs.foldl
    (fun s p => p.2.signals_dict.foldl
      (fun a q =>
        let sig := p.2.getSig q.2
        if ¬ sig.value_descriptions.isEmpty then
          a ++ "VAL_ " ++ toString p.1 ++ " " ++ q.1 ++
            tableEntries sig.value_descriptions ++ " ;\n"
        else a) s) "" ++
  (if msgs.any (fun p => p.2.signals_dict.any fun q =>
      ¬ (p.2.getSig q.2).value_descriptions.isEmpty) then "\n" else "")

/-- The `SIG_GROUP_` block (lines 1088-1096). -/
def sigGroupLines (msgs : List (Nat × Message)) : String :=
  msgs.foldl
    (fun s p => p.2.signal_groups.foldl
      (fun a q => a ++ "SIG_GROUP_ " ++ toString p.1 ++ " " ++ q.1 ++ " " ++ q.2.dbc ++ "\n")
      s) "" ++
  (if msgs.any (fun p => ¬ p.2.signal_groups.isEmpty) then "\n" else "")

/-- `Bus.dbc` (lines 909-1103): the canonical dbc text of a Bus. -/
def busDbc (b : Bus) : Option String := do
  let msgsPart ← messagesDbc b.messages
  let baDefPart ← baDefLines b.attrib_typedefs
  pure ("VERSION " ++ "\"" ++ b.version ++ "\"\n\n" ++
    "NS_ :\n" ++ b.newsymbols.foldl (fun s sym => s ++ "    " ++ sym ++ "\n") "" ++ "\n" ++
    bsLine b ++
    "BU_:" ++ b.nodes.foldl (fun s p => s ++ " " ++ p.1) "" ++ "\n\n" ++
    valTableLines b.global_values ++
    msgsPart ++
    boTxBuLines b.messages ++
    cmLines b ++
    baDefPart ++
    baDefDefLines b.attrib_defaults ++
    baLines b ++
    valDescLines b.messages ++
    sigGroupLines b.messages ++
    b.messages.foldl (fun s p => s ++ p.2.dbcSgMulVal) "")

/-! ## The diff engine (lines 274-283, 314-320, 401-466, 1195-1279)

Each diff returns the first difference found as a string; the empty string
means "equal".  `none` models a Python exception (a KeyError from an
unguarded dict access or the `self.btr[0]` TypeError), none of which are
reachable from buses produced by `buildBus`. -/

/-- Python `"{}".format` of an optional int: `None` or the number. -/
def pyOptNatStr : Option Nat → String
  | none => "None"
  | some n => toString n

/-- Python `repr()` of a literal value (as container elements print). -/
def pyReprVal : PyVal → String
  | .int i => toString i
  | .float q => fmtRat q
  | .str s => "'" ++ s ++ "'"

/-- Python `str()` of a list of strings. -/
def pyStrList (l : List String) : String :=
  "[" ++ String.intercalate ", " (l.map fun s => "'" ++ s ++ "'") ++ "]"

/-- Python `str()` of a set (iteration order is unspecified in Python;
rendered here in first-occurrence order). -/
def pySetStrBy (f : κ → String) (l : List κ) : String :=
  if l.isEmpty then "set()"
  else "\x7b" ++ String.intercalate ", " (l.map f) ++ "\x7d"

/-- Python `str()` of a dict, given renderers for keys and values. -/
def pyDictStrBy (kstr : κ → String) (vstr : α → String) (d : List (κ × α)) : String :=
  "\x7b" ++ String.intercalate ", " (d.map fun p => kstr p.1 ++ ": " ++ vstr p.2) ++ "\x7d"

/-- Python set difference `set(a) - set(b)`, in first-occurrence order. -/
def setSub [DecidableEq κ] (a b : List κ) : List κ :=
  (a.filter fun x => ¬ x ∈ b).eraseDups

/-- Python `==` on dicts: same key set and (`veq`-)equal values. -/
def pyDictEqBy [DecidableEq κ] (veq : α → α → Bool) (d1 d2 : List (κ × α)) : Bool :=
  d1.all (fun p => match dictLookup d2 p.1 with
    | some v => veq p.2 v
    | none => false) &&
  d2.all fun p => (dictLookup d1 p.1).isSome

/-- Python `==` on the node payload `{'comments': [...], 'attributes': {...}}`. -/
def nodeInfoEq (a b : NodeInfo) : Bool :=
  a.comments == b.comments && pyDictEqBy pyValEq a.attributes b.attributes

/-- `str()` of a node payload. -/
def nodeInfoStr (ni : NodeInfo) : String :=
  "\x7b'comments': " ++ pyStrList ni.comments ++ ", 'attributes': " ++
    pyDictStrBy (fun k => "'" ++ k ++ "'") pyReprVal ni.attributes ++ "\x7d"

/-- Python `==` on a typedef payload (tuple/list/None comparison). -/
def typPayloadEq : TypPayload → TypPayload → Bool
  | .pairVals a b, .pairVals c d => pyValEq a c && pyValEq b d
  | .enumVals l, .enumVals l2 => l == l2
  | .noneVal, .noneVal => true
  | _, _ => false

/-- Python `==` on a stored typedef dict. -/
def typedefEq (a b : AttrTypedef) : Bool :=
  a.type == b.type && typPayloadEq a.values b.values

/-- `str()` of a typedef payload. -/
def typPayloadStr : TypPayload → String
  | .pairVals a b => "(" ++ pyReprVal a ++ ", " ++ pyReprVal b ++ ")"
  | .enumVals l => pyStrList l
  | .noneVal => "None"

/-- `str()` of a stored typedef dict. -/
def typedefStr (t : AttrTypedef) : String :=
  "\x7b'type': '" ++ t.type ++ "', 'values': " ++ typPayloadStr t.values ++ "\x7d"

/-- `str()` of a string-keyed dict of literal values. -/
def attrsStr (d : List (String × PyVal)) : String :=
  pyDictStrBy (fun k => "'" ++ k ++ "'") pyReprVal d

/-- `Signal.diff` (lines 274-283): signals compare by their canonical
`SG_` line. -/
def signalDiff (s o : Signal) : Option String :=
  match s.dbc, o.dbc with
  | some a, some b => if a ≠ b then some (" < " ++ a ++ " > " ++ b) else some ""
  | _, _ => none

/-- `SignalGroup.diff` (lines 314-320): set-of-names comparison (the
repetition count is not compared). -/
def groupDiff (g o : SignalGroup) : String :=
  if ¬ (g.sigs.all (fun x => x ∈ o.sigs) && o.sigs.all fun x => x ∈ g.sigs) then
    "< " ++ g.dbc ++ "\n> " ++ o.dbc
  else ""

/-- The per-signal loop of `Message.diff` (lines 434-441): first signal
whose canonical lines differ. -/
def msgSigLoop (m o : Message) : List (String × Nat) → Option String
  | [] => some ""
  | p :: rest => do
    let t2 ← dictLookup o.signals_dict p.1
    let d ← signalDiff (m.getSig p.2) (o.getSig t2)
    if d ≠ "" then
      some ("message id " ++ toString m.id ++ " signal " ++ p.1 ++ ":\n" ++ d ++ "\n")
    else msgSigLoop m o rest

/-- The per-group loop of `Message.diff` (lines 458-464). -/
def msgGroupLoop (m o : Message) : List (String × SignalGroup) → Option String
  | [] => some ""
  | p :: rest => do
    let g2 ← dictLookup o.signal_groups p.1
    let d := groupDiff p.2 g2
    if d ≠ "" then
      some ("id " ++ toString m.id ++ " signal group " ++ p.1 ++ " :\n  " ++ d ++ "\n")
    else msgGroupLoop m o rest

/-- `Message.diff` (lines 401-466). -/
def msgDiff (m o : Message) : Option String :=
  if m.id ≠ o.id then
    some ("message id:\n < " ++ toString m.id ++ "\n > " ++ toString o.id ++ "\n")
  else if m.name ≠ o.name then
    some ("id " ++ toString m.id ++ " message name:\n < " ++ m.name ++ "\n > " ++ o.name ++ "\n")
  else if m.size ≠ o.size then
    some ("id " ++ toString m.id ++ " message size:\n < " ++ toString m.size ++ "\n > " ++
      toString o.size ++ "\n")
  else
    if ¬ (setSub m.transmitters o.transmitters).isEmpty ∨
        ¬ (setSub o.transmitters m.transmitters).isEmpty then
      some ("id " ++ toString m.id ++ " transmitters :\n < " ++
        pySetStrBy (fun s => "'" ++ s ++ "'") (setSub m.transmitters o.transmitters) ++
        "\n > " ++
        pySetStrBy (fun s => "'" ++ s ++ "'") (setSub o.transmitters m.transmitters) ++ "\n")
    else
      if ¬ (setSub (m.signals_dict.map (·.1)) (o.signals_dict.map (·.1))).isEmpty ∨
          ¬ (setSub (o.signals_dict.map (·.1)) (m.signals_dict.map (·.1))).isEmpty then
        some ("message id " ++ toString m.id ++ " signals :\n < " ++
          pySetStrBy (fun s => "'" ++ s ++ "'")
            (setSub (m.signals_dict.map (·.1)) (o.signals_dict.map (·.1))) ++ "\n > " ++
          pySetStrBy (fun s => "'" ++ s ++ "'")
            (setSub (o.signals_dict.map (·.1)) (m.signals_dict.map (·.1))) ++ "\n")
      else
        match msgSigLoop m o m.signals_dict with
        | none => none
        | some d =>
          if d ≠ "" then some d
          else if m.comments ≠ o.comments then
            some ("id " ++ toString m.id ++ " comments:\n < " ++ pyStrList m.comments ++
              "\n > " ++ pyStrList o.comments ++ "\n")
          else if ¬ pyDictEqBy pyValEq m.attributes o.attributes then
            some ("id " ++ toString m.id ++ " attributes:\n < " ++ attrsStr m.attributes ++
              "\n > " ++ attrsStr o.attributes ++ "\n")
          else
            if ¬ (setSub (m.signal_groups.map (·.1)) (o.signal_groups.map (·.1))).isEmpty ∨
                ¬ (setSub (o.signal_groups.map (·.1)) (m.signal_groups.map (·.1))).isEmpty then
              some ("id " ++ toString m.id ++ " signal groups :\n < " ++
                pySetStrBy (fun s => "'" ++ s ++ "'")
                  (setSub (m.signal_groups.map (·.1)) (o.signal_groups.map (·.1))) ++
                "\n > " ++
                pySetStrBy (fun s => "'" ++ s ++ "'")
                  (setSub (o.signal_groups.map (·.1)) (m.signal_groups.map (·.1))) ++ "\n")
            else
              match msgGroupLoop m o m.signal_groups with
              | none => none
              | some d2 => if d2 ≠ "" then some d2 else some ""

/-- The per-node payload loop of `Bus.diff` (lines 1227-1235): every
differing node is collected into one report. -/
def busNodeLoop (other : List (String × NodeInfo)) :
    List (String × NodeInfo) → Nat → String → Option (Nat × String)
  | [], c, s => some (c, s)
  | p :: rest, c, s => do
    let o ← dictLookup other p.1
    if ¬ nodeInfoEq p.2 o then
      busNodeLoop other rest (c + 1)
        (s ++ "   " ++ p.1 ++ ":\n      < " ++ nodeInfoStr p.2 ++ "\n      > " ++
          nodeInfoStr o ++ "\n")
    else busNodeLoop other rest c s

/-- The per-message loop of `Bus.diff` (lines 1256-1259). -/
def busMsgLoop (other : List (Nat × Message)) : List (Nat × Message) → Option String
  | [] => some ""
  | p :: rest => do
    let m2 ← dictLookup other p.1
    let d ← msgDiff p.2 m2
    if d ≠ "" then some d else busMsgLoop other rest

/-- `Bus.diff` from the node checks on (lines 1220-1279). -/
def busDiffRest (b1 b2 : Bus) : Option String :=
  if ¬ (setSub (b1.nodes.map (·.1)) (b2.nodes.map (·.1))).isEmpty ∨
      ¬ (setSub (b2.nodes.map (·.1)) (b1.nodes.map (·.1))).isEmpty then
    some ("nodes:\n < " ++
      pySetStrBy (fun s => "'" ++ s ++ "'") (setSub (b1.nodes.map (·.1)) (b2.nodes.map (·.1))) ++
      "\n > " ++
      pySetStrBy (fun s => "'" ++ s ++ "'") (setSub (b2.nodes.map (·.1)) (b1.nodes.map (·.1))) ++
      "\n")
  else
    match busNodeLoop b2.nodes b1.nodes 0 "nodes:\n" with
    | none => none
    | some (c, s) =>
      if c ≠ 0 then some s
      else
        if ¬ (setSub b1.newsymbols b2.newsymbols).isEmpty ∨
            ¬ (setSub b2.newsymbols b1.newsymbols).isEmpty then
          some ("new symbols:\n < " ++
            pySetStrBy (fun x => "'" ++ x ++ "'") (setSub b1.newsymbols b2.newsymbols) ++
            "\n > " ++
            pySetStrBy (fun x => "'" ++ x ++ "'") (setSub b2.newsymbols b1.newsymbols) ++ "\n")
        else if ¬ pyDictEqBy (pyDictEqBy (fun a b : String => a == b))
            b1.global_values b2.global_values then
          some ("global values:\n < " ++
            pyDictStrBy (fun k => "'" ++ k ++ "'")
              (pyDictStrBy toString fun s => "'" ++ s ++ "'") b1.global_values ++ "\n > " ++
            pyDictStrBy (fun k => "'" ++ k ++ "'")
              (pyDictStrBy toString fun s => "'" ++ s ++ "'") b2.global_values ++ "\n")
        else
          if ¬ (setSub (b1.messages.map (·.1)) (b2.messages.map (·.1))).isEmpty ∨
              ¬ (setSub (b2.messages.map (·.1)) (b1.messages.map (·.1))).isEmpty then
            some ("messages by id:\n < " ++
              pySetStrBy toString (setSub (b1.messages.map (·.1)) (b2.messages.map (·.1))) ++
              "\n > " ++
              pySetStrBy toString (setSub (b2.messages.map (·.1)) (b1.messages.map (·.1))) ++
              "\n")
          else
            match busMsgLoop b2.messages b1.messages with
            | none => none
            | some d =>
              if d ≠ "" then some d
              else if b1.comments ≠ b2.comments then
                some ("global comments:\n < " ++ pyStrList b1.comments ++ "\n > " ++
                  pyStrList b2.comments ++ "\n")
              else if ¬ pyDictEqBy (pyDictEqBy typedefEq)
                  b1.attrib_typedefs b2.attrib_typedefs then
                some ("attribute definitions:\n < " ++
                  pyDictStrBy (fun k => "'" ++ k ++ "'")
                    (pyDictStrBy (fun k => "'" ++ k ++ "'") typedefStr) b1.attrib_typedefs ++
                  "\n > " ++
                  pyDictStrBy (fun k => "'" ++ k ++ "'")
                    (pyDictStrBy (fun k => "'" ++ k ++ "'") typedefStr) b2.attrib_typedefs ++
                  "\n")
              else if ¬ pyDictEqBy pyValEq b1.attrib_defaults b2.attrib_defaults then
                some ("attribute defaults:\n < " ++ attrsStr b1.attrib_defaults ++ "\n > " ++
                  attrsStr b2.attrib_defaults ++ "\n")
              else if ¬ pyDictEqBy pyValEq b1.attributes b2.attributes then
                some ("attributes:\n < " ++ attrsStr b1.attributes ++ "\n > " ++
                  attrsStr b2.attributes ++ "\n")
              else some ""

/-- `Bus.diff` (lines 1195-1279).  In the btr branch (lines 1213-1219) a
`None` btr on either side would be subscripted: a Python TypeError
(`none` here); when both tuples are present but the branch finds both
components equal, the Python falls through to the node checks. -/
def busDiff (b1 b2 : Bus) : Option String :=
  if b1.version ≠ b2.version then
    some ("version:\n < " ++ b1.version ++ "\n > " ++ b2.version ++ "\n")
  else if b1.baudrate ≠ b2.baudrate then
    some ("baudrate:\n < " ++ pyOptNatStr b1.baudrate ++ "\n > " ++
      pyOptNatStr b2.baudrate ++ "\n")
  else if b1.btr ≠ b2.btr then
    match b1.btr, b2.btr with
    | some t1, some t2 =>
      if t1.1 ≠ t2.1 then
        some ("btr1:\n < " ++ toString t1.1 ++ "\n > " ++ toString t2.1 ++ "\n")
      else if t1.2 ≠ t2.2 then
        some ("btr2:\n < " ++ toString t1.2 ++ "\n > " ++ toString t2.2 ++ "\n")
      else busDiffRest b1 b2
    | _, _ => none
  else busDiffRest b1 b2

/-! ## The parser (class `Parser`, lines 1282-2096)

The cursor state is `(text, n, line, col)` as in the source (`parse`
initializes `col = 0`, `line = 1`).  A rule is a function
`PState → Except PFail (α × PState)`.  `PFail.parseErr` is a ParseError —
catchable by `optional`/`any_number_of`/`one_of`; `PFail.pyErr` is any
other Python exception (IndexError from an out-of-bounds `self.text[self.n]`),
which those combinators do not catch.  Loops whose Python form is
`while self.n < self.len` take explicit fuel; any fuel above the
remaining text length is exact, and call sites pass `text.length + 1`. -/

structure PState where
  text : List Char
  n : Nat
  line : Nat
  col : Nat
deriving DecidableEq, Repr

/-- `ParseError` (lines 1282-1305): position and (pre-rendered) message. -/
structure PErr where
  line : Nat
  col : Nat
  msg : String
deriving DecidableEq, Repr

inductive PFail where
  | parseErr (e : PErr)
  | pyErr
deriving DecidableEq, Repr

/-- The whitespace set `" \f\v\r\t\n"` (line 1396). -/
def isWs (c : Char) : Bool :=
  c = ' ' || c = '\x0c' || c = '\x0b' || c = '\r' || c = '\t' || c = '\n'

/-- The scan of `eat_whitespace` (lines 1395-1402): consumed count and
updated line/column.  Note the source only increments the column for a
space (never for tab/CR/FF/VT) and resets it to 0 on a newline. -/
def eatWsAux : List Char → Nat → Nat → Nat × Nat × Nat
  | [], line, col => (0, line, col)
  | c :: rest, line, col =>
    if isWs c then
      let col1 := if c = ' ' then col + 1 else col
      let (line2, col2) := if c = '\n' then (line + 1, 0) else (line, col1)
      let r := eatWsAux rest line2 col2
      (r.1 + 1, r.2)
    else (0, line, col)

/-- `Parser.eat_whitespace` (lines 1395-1402). -/
def eat_whitespace (s : PState) : PState :=
  let r := eatWsAux (s.text.drop s.n) s.line s.col
  { s with n := s.n + r.1, line := r.2.1, col := r.2.2 }

/-- `Parser.charmatch` (lines 1404-1416). -/
def charmatch (c : Char) (s : PState) : Except PFail PState :=
  match s.text.get? s.n with
  | none =>
    .error (.parseErr ⟨s.line, s.col,
      "Reached end while looking for \"" ++ String.singleton c ++ "\" at"⟩)
  | some c' =>
    if c' = c then
      let s' := { s with n := s.n + 1, col := s.col + 1 }
      if c = '\n' then .ok { s' with col := 0, line := s'.line + 1 } else .ok s'
    else
      .error (.parseErr ⟨s.line, s.col,
        "Expected \"" ++ String.singleton c ++ "\", found \"" ++ String.singleton c' ++ "\" at"⟩)

/-- `Parser.strmatch` (lines 1418-1425): string prefix match, column
advanced by the length (the matched keywords never contain a newline). -/
def strmatch (t : String) (s : PState) : Except PFail (String × PState) :=
  if (s.text.drop s.n).take t.length = t.toList then
    .ok (t, { s with n := s.n + t.length, col := s.col + t.length })
  else
    .error (.parseErr ⟨s.line, s.col, "Expected \"" ++ t ++ "\" at "⟩)

/-- Greedy run of characters satisfying `f`. -/
def takeRun (f : Char → Bool) : List Char → List Char
  | [] => []
  | c :: r => if f c then c :: takeRun f r else []

def isDigitCh (c : Char) : Bool := '0' ≤ c && c ≤ '9'

def digitsToNat (l : List Char) : Nat :=
  l.foldl (fun a c => a * 10 + (c.toNat - 48)) 0

/-- `Parser.uint` (lines 1427-1441): greedy digit run, fails on empty. -/
def uint (s : PState) : Except PFail (Nat × PState) :=
  let ds := takeRun isDigitCh (s.text.drop s.n)
  if ds.isEmpty then
    .error (.parseErr ⟨s.line, s.col, "Expected unsigned int at"⟩)
  else
    .ok (digitsToNat ds, { s with n := s.n + ds.length, col := s.col + ds.length })

/-- Optional exponent scan for `double`: `([eE][-+]?[0-9]+)?` after the
`e`/`E` has been seen; returns consumed length (including the `e`) and
the exponent, or `(0, none)` when the group does not match. -/
def expScan (rest : List Char) : Nat × Option Int :=
  let sgn : Nat × Bool × List Char :=
    match rest with
    | '+' :: r => (1, false, r)
    | '-' :: r => (1, true, r)
    | _ => (0, false, rest)
  let ds := takeRun isDigitCh sgn.2.2
  if ds.isEmpty then (0, none)
  else (1 + sgn.1 + ds.length,
    some (if sgn.2.1 then -(digitsToNat ds : Int) else (digitsToNat ds : Int)))

/-- The regex of `Parser.double` (line 1444):
`[-+]?[0-9]*\.?[0-9]+([eE][-+]?[0-9]+)?` matched at the head of `cs`,
with the regex backtracking (so "5." matches only "5"); returns consumed
length and the value. -/
def doubleScan (cs : List Char) : Option (Nat × Rat) :=
  let sgn : Nat × Bool × List Char :=
    match cs with
    | '+' :: r => (1, false, r)
    | '-' :: r => (1, true, r)
    | _ => (0, false, cs)
  let ints := takeRun isDigitCh sgn.2.2
  let cs2 := sgn.2.2.drop ints.length
  let fracPart : Option (List Char) :=
    match cs2 with
    | '.' :: rest =>
      let f := takeRun isDigitCh rest
      if f.isEmpty then none else some f
    | _ => none
  if fracPart.isNone ∧ ints.isEmpty then none
  else
    let mlen := ints.length + (match fracPart with | some f => f.length + 1 | none => 0)
    let mval : Rat := (digitsToNat ints : Rat) +
      (match fracPart with
       | some f => (digitsToNat f : Rat) / ((10 : Rat) ^ f.length)
       | none => 0)
    let cs3 := sgn.2.2.drop mlen
    let ex : Nat × Option Int :=
      match cs3 with
      | 'e' :: r => expScan r
      | 'E' :: r => expScan r
      | _ => (0, none)
    let v0 := if sgn.2.1 then -mval else mval
    let v := match ex.2 with
      | some e => v0 * (10 : Rat) ^ e
      | none => v0
    some (sgn.1 + mlen + ex.1, v)

/-- `Parser.double` (lines 1443-1453), the float value as a rational. -/
def double (s : PState) : Except PFail (Rat × PState) :=
  match doubleScan (s.text.drop s.n) with
  | some (len, v) => .ok (v, { s with n := s.n + len, col := s.col + len })
  | none => .error (.parseErr ⟨s.line, s.col, "Expected a floating point at"⟩)

/-- `Parser.sint` (lines 1455-1465): regex `[-+]?[0-9]+`. -/
def sint (s : PState) : Except PFail (Int × PState) :=
  let sgn : Nat × Bool × List Char :=
    match s.text.drop s.n with
    | '+' :: r => (1, false, r)
    | '-' :: r => (1, true, r)
    | _ => (0, false, s.text.drop s.n)
  let ds := takeRun isDigitCh sgn.2.2
  if ds.isEmpty then
    .error (.parseErr ⟨s.line, s.col, "Expected a signed integer at"⟩)
  else
    let len := sgn.1 + ds.length
    let v : Int := if sgn.2.1 then -(digitsToNat ds : Int) else (digitsToNat ds : Int)
    .ok (v, { s with n := s.n + len, col := s.col + len })

/-- The three separator patterns passed to `eat_pattern` (lines
1467-1477): `"^[ ]*"`, `"^[ ,]*"` and `"^[ ]*,[ ]*"`.  None of them can
match a newline, so the source's newline adjustment inside `eat_pattern`
is dead code for them. -/
inductive SepPat where
  | spaces
  | spacesCommas
  | commaSep
deriving DecidableEq, Repr

def sepScan : SepPat → List Char → Nat
  | .spaces, cs => (takeRun (· = ' ') cs).length
  | .spacesCommas, cs => (takeRun (fun c => c = ' ' || c = ',') cs).length
  | .commaSep, cs =>
    let a := (takeRun (· = ' ') cs).length
    match cs.drop a with
    | ',' :: r => a + 1 + (takeRun (· = ' ') r).length
    | _ => 0

/-- `Parser.eat_pattern` (lines 1467-1477) for the separator patterns: on
no match, consume nothing. -/
def eat_pattern (p : SepPat) (s : PState) : PState :=
  let k := sepScan p (s.text.drop s.n)
  { s with n := s.n + k, col := s.col + k }

/-- Body loop of `Parser.string` (lines 1486-1503), after the opening
quote: returns collected characters, consumed count, line, column.  Note
the source bumps `line` and zeroes `col` on a newline and then
unconditionally runs `col += 1`, so a column just after a
newline-inside-a-string is 1 (unlike the 0 used elsewhere). -/
def stringBody : List Char → Nat → Nat → Except PFail (List Char × Nat × Nat × Nat)
  | [], line, col =>
    .error (.parseErr ⟨line, col, "Reached end while parsing string"⟩)
  | c :: rest, line, col =>
    if c = '\\' then
      .error (.parseErr ⟨line, col, "Encounted backslash in string at "⟩)
    else
      let lc : Nat × Nat := if c = '\n' then (line + 1, 0) else (line, col)
      let col2 := lc.2 + 1
      if c = '"' then .ok ([], 1, lc.1, col2)
      else
        match stringBody rest lc.1 col2 with
        | .error e => .error e
        | .ok (cs, k, l2, c2) => .ok (c :: cs, k + 1, l2, c2)

/-- `Parser.string` (lines 1479-1504): double-quoted, no escapes — a
backslash is a ParseError; at end of input the initial `self.text[self.n]`
read raises IndexError (`pyErr`). -/
def string (s : PState) : Except PFail (String × PState) :=
  match s.text.get? s.n with
  | none => .error .pyErr
  | some c =>
    if c ≠ '"' then
      .error (.parseErr ⟨s.line, s.col,
        "expected quote but found \"" ++ String.singleton c ++ "\" at "⟩)
    else
      match stringBody (s.text.drop (s.n + 1)) s.line (s.col + 1) with
      | .error e => .error e
      | .ok (body, k, l2, c2) =>
        .ok (⟨body⟩, { s with n := s.n + 1 + k, line := l2, col := c2 })

/-- `Parser.idchar` (lines 1506-1511). -/
def idchar (c : Char) : Bool :=
  ('a' ≤ c && c ≤ 'z') || ('A' ≤ c && c ≤ 'Z') || ('0' ≤ c && c ≤ '9') || c = '_'

/-- Python `str.isidentifier()` restricted to runs of `idchar`s: non-empty
and not starting with a digit. -/
def isPyIdentifier (l : List Char) : Bool :=
  match l with
  | [] => false
  | c :: _ => ¬ isDigitCh c

/-- `Parser.identifier` (lines 1513-1532). -/
def identifier (reserved : List String) (s : PState) : Except PFail (String × PState) :=
  let run := takeRun idchar (s.text.drop s.n)
  let str : String := ⟨run⟩
  if isPyIdentifier run ∧ ¬ str ∈ reserved then
    .ok (str, { s with n := s.n + run.length, col := s.col + run.length })
  else if str ∈ reserved then
    .error (.parseErr ⟨s.line, s.col,
      "Identifier equals reserved word \"" ++ str ++ "\" at"⟩)
  else
    .error (.parseErr ⟨s.line, s.col,
      "Expected identifier, but found \"" ++ str ++ "\" at"⟩)

/-- `Parser.optional` (lines 1573-1579): try the rule; on a ParseError
restore the position and produce `None`.  Other exceptions propagate. -/
def optional (rule : PState → Except PFail (α × PState)) (s : PState) :
    Except PFail (Option α × PState) :=
  match rule s with
  | .ok (a, s') => .ok (some a, s')
  | .error (.parseErr _) => .ok (none, s)
  | .error .pyErr => .error .pyErr

/-- `Parser.any_number_of` (lines 1581-1591), fuel-bounded. -/
def any_number_of (rule : PState → Except PFail (α × PState)) :
    Nat → PState → Except PFail (List α × PState)
  | 0, s => .ok ([], s)
  | fuel + 1, s =>
    if s.n < s.text.length then
      match rule s with
      | .error (.parseErr _) => .ok ([], s)
      | .error .pyErr => .error .pyErr
      | .ok (a, s') =>
        match any_number_of rule fuel s' with
        | .ok (as, s'') => .ok (a :: as, s'')
        | .error e => .error e
    else .ok ([], s)

/-- Inner fold of `Parser.one_of` (lines 1593-1608): keep the ParseError
that advanced furthest, by `pe.line > ln or (pe.line == ln and cn < pe.col)`. -/
def one_ofAux (s : PState) : List (PState → Except PFail (α × PState)) →
    Nat → Nat → Option PErr → Except PFail (α × PState)
  | [], _, _, ex =>
    match ex with
    | some e => .error (.parseErr e)
    | none => .error .pyErr
  | r :: rs, ln, cn, ex =>
    match r s with
    | .ok res => .ok res
    | .error .pyErr => .error .pyErr
    | .error (.parseErr pe) =>
      if pe.line > ln ∨ (pe.line = ln ∧ cn < pe.col) then
        one_ofAux s rs pe.line pe.col (some pe)
      else
        one_ofAux s rs ln cn ex

/-- `Parser.one_of` (lines 1593-1608). -/
def one_of (rules : List (PState → Except PFail (α × PState))) (s : PState) :
    Except PFail (α × PState) :=
  one_ofAux s rules 0 0 none

/-- `Parser.identifier_ws` (lines 1534-1537). -/
def identifier_ws (reserved : List String) (s : PState) :
    Except PFail (String × PState) :=
  match identifier reserved s with
  | .ok (r, s') => .ok (r, eat_whitespace s')
  | .error e => .error e

/-- `optional(lambda: identifier(reserved))`: `identifier` raises only
ParseErrors, so this cannot fail. -/
def tryIdentifier (reserved : List String) (s : PState) : Option String × PState :=
  match identifier reserved s with
  | .ok (r, s') => (some r, s')
  | .error _ => (none, s)

/-- Loop of `Parser.identifier_list` (lines 1545-1553): remember the
position, eat the separator pattern, try an identifier; on failure (or a
falsy result, impossible for identifiers) restore the remembered position
and stop. -/
def identifier_listAux (reserved : List String) (sep : SepPat) :
    Nat → PState → List String → List String × PState
  | 0, s, acc => (acc, s)
  | fuel + 1, s, acc =>
    if s.n < s.text.length then
      let s1 := eat_pattern sep s
      match tryIdentifier reserved s1 with
      | (some r, s2) =>
        if r ≠ "" then identifier_listAux reserved sep fuel s2 (acc ++ [r])
        else (acc, s)
      | (none, _) => (acc, s)
    else (acc, s)

/-- `Parser.identifier_list` (lines 1539-1554). -/
def identifier_list (reserved : List String) (sep : SepPat) (s : PState) :
    List String × PState :=
  match tryIdentifier reserved s with
  | (none, _) => ([], s)
  | (some r, s') => identifier_listAux reserved sep (s'.text.length + 1) s' [r]

/-- Loop of `Parser.string_list` (lines 1562-1570); an empty parsed string
is falsy in Python, so it ends the list with the position restored. -/
def string_listAux (sep : SepPat) :
    Nat → PState → List String → Except PFail (List String × PState)
  | 0, s, acc => .ok (acc, s)
  | fuel + 1, s, acc =>
    if s.n < s.text.length then
      let s1 := eat_pattern sep s
      match optional string s1 with
      | .error e => .error e
      | .ok (some r, s2) =>
        if r ≠ "" then string_listAux sep fuel s2 (acc ++ [r])
        else .ok (acc, s)
      | .ok (none, _) => .ok (acc, s)
    else .ok (acc, s)

/-- `Parser.string_list` (lines 1556-1571). -/
def string_list (sep : SepPat) (s : PState) : Except PFail (List String × PState) :=
  match optional string s with
  | .error e => .error e
  | .ok (none, s') => .ok ([], s')
  | .ok (some r, s') => string_listAux sep (s'.text.length + 1) s' [r]

/-- `Parser.keywords` (lines 1312-1320). -/
def keywords : List String :=
  ["VERSION", "NS_", "NS_DESC_", "CM_", "BA_DEF_",
   "BA_", "VAL_", "CAT_DEF_", "CAT_", "FILTER", "BA_DEF_DEF_",
   "EV_DATA_", "ENVVAR_DATA_", "SGTYPE_", "SGTYPE_VAL_",
   "BA_DEF_SGTYPE_", "BA_SGTYPE_", "SIG_TYPE_REF_", "VAL_TABLE_",
   "SIG_GROUP_", "SIG_VALTYPE_", "SIGTYPE_VALTYPE_", "BO_TX_BU_",
   "BA_DEF_REL_", "BA_REL_", "BA_DEF_DEF_REL_", "BU_SG_REL_",
   "BU_EV_REL_", "BU_BO_REL_", "SG_MUL_VAL_", "BS_", "BU_",
   "BO_", "SG_", "EV_", "VECTOR__INDEPENDENT_SIG_MSG",
   "Vector__XXX"]

/-- `Parser.keywords_BO` (lines 1322-1324). -/
def keywords_BO : List String := keywords.erase "VECTOR__INDEPENDENT_SIG_MSG"

/-- `Parser.keywords_most` (lines 1326-1328). -/
def keywords_most : List String := keywords.erase "Vector__XXX"

/-- `Parser.sections` (lines 1331-1338): ordered so the first prefix
match is the longest possible keyword. -/
def sections : List String :=
  ["BA_DEF_DEF_", "BA_DEF_", "BA_",
   "BO_TX_BU_", "BO_", "BS_", "BU_",
   "CM_", "ENVVAR_DATA_", "EV_", "NS_",
   "SIG_GROUP_", "SIG_TYPE_REF_", "SIG_VALTYPE_",
   "SGTYPE_", "SG_MUL_VAL_",
   "VAL_TABLE_", "VAL_", "VERSION"]

/-- `symnames` of `section_body_NS_` (lines 1615-1625). -/
def ns_symnames : List String :=
  ["BA_DEF_DEF_REL_", "BA_DEF_DEF_", "BA_DEF_SGTYPE_",
   "BA_DEF_REL_", "BA_DEF_", "BA_REL_", "BA_SGTYPE_", "BA_",
   "BO_TX_BU_", "BU_SG_REL_", "BU_EV_REL_", "BU_BO_REL_",
   "CM_", "CAT_DEF_", "CAT_",
   "ENVVAR_DATA_", "EV_DATA_", "FILTER",
   "NS_DESC_",
   "SIG_GROUP_", "SIG_TYPE_REF_", "SIG_VALTYPE_",
   "SIGTYPE_VALTYPE_", "SGTYPE_VAL_", "SGTYPE_",
   "SG_MUL_VAL_",
   "VAL_TABLE_", "VAL_"]

/-- `Parser.section_body_VERSION` (lines 1610-1612). -/
def section_body_VERSION (s : PState) : Except PFail (DbcSection × PState) := do
  let s := eat_whitespace s
  let (v, s) ← string s
  pure (.version v, s)

/-- Loop of `section_body_NS_` (lines 1634-1652).  `prev` is the
`stored_pos` left by the last completed iteration.  Seeing `:` with a
non-empty list drops the last symbol and rewinds to `prev`; an identifier
in neither `symnames` nor `keywords` appends nothing but the loop goes
on.  An `eat_whitespace` that reaches the end of input makes the
`self.text[self.n]` read raise IndexError. -/
def ns_loop : Nat → PState → List String → Option PState →
    Except PFail (List String × PState)
  | 0, s, acc, _ => .ok (acc, s)
  | fuel + 1, s, acc, prev =>
    if s.n < s.text.length then
      let s1 := eat_whitespace s
      match s1.text.get? s1.n with
      | none => .error .pyErr
      | some c =>
        if c = ':' then
          if ¬ acc.isEmpty then
            match prev with
            | some p => .ok (acc.dropLast, p)
            | none => .error .pyErr
          else
            .error (.parseErr ⟨s1.line, s1.col, "Expected reserved word, found \":\" at"⟩)
        else
          match identifier [] s1 with
          | .error e => .error e
          | .ok (sym, s2) =>
            if sym ∈ ns_symnames then ns_loop fuel s2 (acc ++ [sym]) (some s1)
            else if sym ∈ keywords then .ok (acc, s1)
            else ns_loop fuel s2 acc (some s1)
    else .ok (acc, s)

/-- `Parser.section_body_NS_` (lines 1614-1653). -/
def section_body_NS_ (s : PState) : Except PFail (DbcSection × PState) :=
  let s := eat_whitespace s
  match s.text.get? s.n with
  | none => .error .pyErr
  | some c =>
    if c ≠ ':' then
      .error (.parseErr ⟨s.line, s.col,
        "Expected \":\", found \"" ++ String.singleton c ++ "\" at"⟩)
    else
      let s1 := eat_whitespace { s with n := s.n + 1, col := s.col + 1 }
      match ns_loop (s.text.length + 1) s1 [] none with
      | .error e => .error e
      | .ok (l, s2) => .ok (.ns l, s2)

/-- `Parser.baudrate` (lines 1655-1665). -/
def baudrate (s : PState) : Except PFail ((Nat × Nat × Nat) × PState) := do
  let (b, s) ← uint s
  let s := eat_whitespace s
  let s ← charmatch ':' s
  let s := eat_whitespace s
  let (b1, s) ← uint s
  let s := eat_whitespace s
  let s ← charmatch ',' s
  let s := eat_whitespace s
  let (b2, s) ← uint s
  pure ((b, b1, b2), s)

/-- `Parser.section_body_BS_` (lines 1667-1672). -/
def section_body_BS_ (s : PState) : Except PFail (DbcSection × PState) := do
  let s := eat_whitespace s
  let s ← charmatch ':' s
  let s := eat_whitespace s
  let (res, s) ← optional baudrate s
  pure (.bs res, s)

/-- `Parser.section_body_BU_` (lines 1674-1679). -/
def section_body_BU_ (s : PState) : Except PFail (DbcSection × PState) := do
  let s := eat_whitespace s
  let s ← charmatch ':' s
  let s := eat_whitespace s
  let (l, s) ← any_number_of (identifier_ws keywords_most) (s.text.length + 1) s
  pure (.bu l, s)

/-- `Parser.value_entry` (lines 1681-1686). -/
def value_entry (s : PState) : Except PFail ((Int × String) × PState) := do
  let s := eat_whitespace s
  let (v, s) ← sint s
  let s := eat_whitespace s
  let (t, s) ← string s
  pure ((v, t), s)

/-- `Parser.section_body_VAL_TABLE_` (lines 1688-1695). -/
def section_body_VAL_TABLE_ (s : PState) : Except PFail (DbcSection × PState) := do
  let s := eat_whitespace s
  let (name, s) ← identifier keywords s
  let s := eat_whitespace s
  let (table, s) ← any_number_of value_entry (s.text.length + 1) s
  let s := eat_whitespace s
  let s ← charmatch ';' s
  pure (.valTable name table, s)

/-- `Parser.multiplex_value` (lines 1697-1700). -/
def multiplex_value (s : PState) : Except PFail (Nat × PState) := do
  let s ← charmatch 'm' s
  let s := eat_whitespace s
  uint s

/-- `Parser.multiplex_spec` (lines 1702-1710): optional `m<uint>`, then a
`try: charmatch('M')` whose ParseError means "not a multiplexor". -/
def multiplex_spec (s : PState) : Except PFail ((Option Nat × Bool) × PState) := do
  let (mval, s) ← optional multiplex_value s
  let s := eat_whitespace s
  match charmatch 'M' s with
  | .ok s' => .ok ((mval, true), s')
  | .error (.parseErr _) => .ok ((mval, false), s)
  | .error .pyErr => .error .pyErr

/-- `Parser.endian` (lines 1712-1724).  On a character that is neither
'0' nor '1' the source CONSTRUCTS `ParseError(...)` but never raises it,
so the method returns Python `None` and consumes nothing; at end of input
the read `self.text[self.n]` raises IndexError. -/
def endian (s : PState) : Except PFail (Option Bool × PState) :=
  match s.text.get? s.n with
  | none => .error .pyErr
  | some c =>
    if c = '1' then .ok (some true, { s with n := s.n + 1, col := s.col + 1 })
    else if c = '0' then .ok (some false, { s with n := s.n + 1, col := s.col + 1 })
    else .ok (none, s)

/-- `Parser.signed` (lines 1726-1738).  Same missing `raise` as `endian`:
a character that is neither '+' nor '-' yields Python `None`. -/
def signed (s : PState) : Except PFail (Option Bool × PState) :=
  match s.text.get? s.n with
  | none => .error .pyErr
  | some c =>
    if c = '+' then .ok (some false, { s with n := s.n + 1, col := s.col + 1 })
    else if c = '-' then .ok (some true, { s with n := s.n + 1, col := s.col + 1 })
    else .ok (none, s)

/-- `Parser.additional_receiver` (lines 1740-1744). -/
def additional_receiver (s : PState) : Except PFail (String × PState) := do
  let s := eat_whitespace s
  let s ← charmatch ',' s
  let s := eat_whitespace s
  identifier keywords_most s

/-- `Parser.signal` (lines 1746-1805). -/
def signal (s : PState) : Except PFail (SigDict × PState) := do
  let s := eat_whitespace s
  let (_, s) ← strmatch "SG_" s
  let s := eat_whitespace s
  let (name, s) ← identifier keywords s
  let s := eat_whitespace s
  let (multi, s) ← multiplex_spec s
  let s := eat_whitespace s
  let s ← charmatch ':' s
  let s := eat_whitespace s
  let (start_, s) ← uint s
  let s := eat_whitespace s
  let s ← charmatch '|' s
  let s := eat_whitespace s
  let (size, s) ← uint s
  let s := eat_whitespace s
  let s ← charmatch '@' s
  let s := eat_whitespace s
  let (little, s) ← endian s
  let s := eat_whitespace s
  let (sgn, s) ← signed s
  let s := eat_whitespace s
  let s ← charmatch '(' s
  let s := eat_whitespace s
  let (factor, s) ← double s
  let s := eat_whitespace s
  let s ← charmatch ',' s
  let s := eat_whitespace s
  let (offset, s) ← double s
  let s := eat_whitespace s
  let s ← charmatch ')' s
  let s := eat_whitespace s
  let s ← charmatch '[' s
  let s := eat_whitespace s
  let (mn, s) ← double s
  let s := eat_whitespace s
  let s ← charmatch '|' s
  let s := eat_whitespace s
  let (mx, s) ← double s
  let s := eat_whitespace s
  let s ← charmatch ']' s
  let s := eat_whitespace s
  let (unit, s) ← string s
  let s := eat_whitespace s
  let (r0, s) ← identifier keywords_most s
  let (rs, s) ← any_number_of additional_receiver (s.text.length + 1) s
  pure (⟨name, multi.1, multi.2, start_, size, little, sgn, factor, offset,
    (mn, mx), unit, r0 :: rs⟩, s)

/-- `Parser.section_body_BO_` (lines 1807-1826). -/
def section_body_BO_ (s : PState) : Except PFail (DbcSection × PState) := do
  let s := eat_whitespace s
  let (id, s) ← uint s
  let s := eat_whitespace s
  let (name, s) ← identifier keywords_BO s
  let s := eat_whitespace s
  let s ← charmatch ':' s
  let s := eat_whitespace s
  let (size, s) ← uint s
  let s := eat_whitespace s
  let (tx, s) ← identifier keywords_most s
  let s := eat_whitespace s
  let (sigs, s) ← any_number_of signal (s.text.length + 1) s
  pure (.bo ⟨id, name, size, tx, sigs⟩, s)

/-- `Parser.section_body_BO_TX_BU_` (lines 1828-1837). -/
def section_body_BO_TX_BU_ (s : PState) : Except PFail (DbcSection × PState) := do
  let s := eat_whitespace s
  let (id, s) ← uint s
  let s := eat_whitespace s
  let s ← charmatch ':' s
  let s := eat_whitespace s
  let r := identifier_list keywords_most .spacesCommas s
  let s := eat_whitespace r.2
  let s ← charmatch ';' s
  pure (.boTxBu id r.1, s)

/-- `CM_` scope before the comment string is attached. -/
inductive CmPre where
  | sg (id : Nat) (name : String)
  | bu (name : String)
  | bo (id : Nat)
  | ev (name : String)
  | glob
deriving DecidableEq, Repr

/-- `Parser.cm_specifier_BU_` (lines 1839-1843). -/
def cm_specifier_BU_ (s : PState) : Except PFail (CmPre × PState) := do
  let (_, s) ← strmatch "BU_" s
  let s := eat_whitespace s
  let (name, s) ← identifier keywords s
  pure (.bu name, s)

/-- `Parser.cm_specifier_BO_` (lines 1845-1849). -/
def cm_specifier_BO_ (s : PState) : Except PFail (CmPre × PState) := do
  let (_, s) ← strmatch "BO_" s
  let s := eat_whitespace s
  let (id, s) ← uint s
  pure (.bo id, s)

/-- `Parser.cm_specifier_SG_` (lines 1851-1857). -/
def cm_specifier_SG_ (s : PState) : Except PFail (CmPre × PState) := do
  let (_, s) ← strmatch "SG_" s
  let s := eat_whitespace s
  let (id, s) ← uint s
  let s := eat_whitespace s
  let (name, s) ← identifier keywords s
  pure (.sg id name, s)

/-- `Parser.cm_specifier_EV_` (lines 1859-1863). -/
def cm_specifier_EV_ (s : PState) : Except PFail (CmPre × PState) := do
  let (_, s) ← strmatch "EV_" s
  let s := eat_whitespace s
  let (name, s) ← identifier keywords s
  pure (.ev name, s)

/-- `Parser.section_body_CM_` (lines 1865-1876). -/
def section_body_CM_ (s : PState) : Except PFail (DbcSection × PState) := do
  let s := eat_whitespace s
  let (pre, s) ← one_of [cm_specifier_SG_, cm_specifier_BU_, cm_specifier_BO_,
    cm_specifier_EV_, fun st => .ok (CmPre.glob, st)] s
  let s := eat_whitespace s
  let (c, s) ← string s
  let s := eat_whitespace s
  let s ← charmatch ';' s
  let spec := match pre with
    | .sg id name => CmSpec.sg id name c
    | .bu name => CmSpec.bu name c
    | .bo id => CmSpec.bo id c
    | .ev name => CmSpec.ev name c
    | .glob => CmSpec.glob c
  pure (.cm spec, s)

/-- `Parser.sig_val_type_spec` (lines 1878-1884). -/
def sig_val_type_spec (s : PState) : Except PFail (Nat × PState) :=
  match s.text.get? s.n with
  | none => .error .pyErr
  | some c =>
    if c = '0' ∨ c = '1' ∨ c = '2' ∨ c = '3' then
      .ok (c.toNat - 48, { s with n := s.n + 1, col := s.col + 1 })
    else
      .error (.parseErr ⟨s.line, s.col,
        "Expected one of \"0123\", found \"" ++ String.singleton c ++ "\" at"⟩)

/-- `Parser.section_body_SIG_VALTYPE_` (lines 1886-1897). -/
def section_body_SIG_VALTYPE_ (s : PState) : Except PFail (DbcSection × PState) := do
  let s := eat_whitespace s
  let (id, s) ← uint s
  let s := eat_whitespace s
  let (name, s) ← identifier keywords s
  let s := eat_whitespace s
  let s ← charmatch ':' s
  let s := eat_whitespace s
  let (tn, s) ← sig_val_type_spec s
  let s := eat_whitespace s
  let s ← charmatch ';' s
  pure (.sigValtype id name tn, s)

/-- `Parser.uint_range` (lines 1899-1905). -/
def uint_range (s : PState) : Except PFail ((Nat × Nat) × PState) := do
  let (lo, s) ← uint s
  let s := eat_whitespace s
  let s ← charmatch '-' s
  let s := eat_whitespace s
  let (hi, s) ← uint s
  pure ((lo, hi), s)

/-- `Parser.sep_uint_range` (lines 1907-1909). -/
def sep_uint_range (sep : SepPat) (s : PState) : Except PFail ((Nat × Nat) × PState) :=
  uint_range (eat_pattern sep s)

/-- `Parser.uint_ranges` (lines 1911-1917). -/
def uint_ranges (sep : SepPat) (s : PState) :
    Except PFail (List (Nat × Nat) × PState) := do
  let s := eat_whitespace s
  let (r, s) ← uint_range s
  let (rs, s) ← any_number_of (sep_uint_range sep) (s.text.length + 1) s
  pure (r :: rs, s)

/-- `Parser.section_body_SG_MUL_VAL_` (lines 1919-1933); `if not ranges:
ranges = []` maps both `None` and `[]` to `[]`. -/
def section_body_SG_MUL_VAL_ (s : PState) : Except PFail (DbcSection × PState) := do
  let s := eat_whitespace s
  let (id, s) ← uint s
  let s := eat_whitespace s
  let (name, s) ← identifier keywords s
  let s := eat_whitespace s
  let (mux, s) ← identifier keywords s
  let s := eat_whitespace s
  let (rgs, s) ← optional (uint_ranges .spacesCommas) s
  let s := eat_whitespace s
  let s ← charmatch ';' s
  pure (.sgMulVal id name mux (rgs.getD []), s)

/-- `Parser.section_body_VAL_` (lines 1935-1944). -/
def section_body_VAL_ (s : PState) : Except PFail (DbcSection × PState) := do
  let s := eat_whitespace s
  let (id, s) ← uint s
  let s := eat_whitespace s
  let (name, s) ← identifier keywords s
  let s := eat_whitespace s
  let (vals, s) ← any_number_of value_entry (s.text.length + 1) s
  let s := eat_whitespace s
  let s ← charmatch ';' s
  pure (.valDesc id name vals, s)

/-- `Parser.ba_int` (lines 1946-1952). -/
def ba_int (s : PState) : Except PFail (BaTyp × PState) := do
  let (_, s) ← strmatch "INT" s
  let s := eat_whitespace s
  let (v1, s) ← sint s
  let s := eat_whitespace s
  let (v2, s) ← sint s
  pure (.intRange v1 v2, s)

/-- `Parser.ba_hex` (lines 1954-1960). -/
def ba_hex (s : PState) : Except PFail (BaTyp × PState) := do
  let (_, s) ← strmatch "HEX" s
  let s := eat_whitespace s
  let (v1, s) ← sint s
  let s := eat_whitespace s
  let (v2, s) ← sint s
  pure (.hexRange v1 v2, s)

/-- `Parser.ba_float` (lines 1962-1968). -/
def ba_float (s : PState) : Except PFail (BaTyp × PState) := do
  let (_, s) ← strmatch "FLOAT" s
  let s := eat_whitespace s
  let (v1, s) ← double s
  let s := eat_whitespace s
  let (v2, s) ← double s
  pure (.floatRange v1 v2, s)

/-- `Parser.ba_string` (lines 1970-1972). -/
def ba_string (s : PState) : Except PFail (BaTyp × PState) := do
  let (_, s) ← strmatch "STRING" s
  pure (.stringTyp, s)

/-- `Parser.ba_enum` (lines 1974-1978). -/
def ba_enum (s : PState) : Except PFail (BaTyp × PState) := do
  let (_, s) ← strmatch "ENUM" s
  let s := eat_whitespace s
  let (strs, s) ← string_list .commaSep s
  pure (.enumTyp strs, s)

/-- `Parser.section_body_BA_DEF_` (lines 1980-1996). -/
def section_body_BA_DEF_ (s : PState) : Except PFail (DbcSection × PState) := do
  let s := eat_whitespace s
  let (spec, s) ← one_of [fun st => strmatch "BU_" st, fun st => strmatch "BO_" st,
    fun st => strmatch "SG_" st, fun st => strmatch "EV_" st,
    fun st => .ok ("", st)] s
  let s := eat_whitespace s
  let s ← charmatch '"' s
  let (name, s) ← identifier keywords s
  let s ← charmatch '"' s
  let s := eat_whitespace s
  let (typ, s) ← one_of [ba_float, ba_int, ba_hex, ba_string, ba_enum] s
  let s := eat_whitespace s
  let (_, s) ← strmatch ";" s
  pure (.baDef spec name typ, s)

/-- `uint` as a literal-value rule (`BA_DEF_DEF_`/`BA_` payloads). -/
def uintVal (s : PState) : Except PFail (PyVal × PState) := do
  let (n, s) ← uint s
  pure (.int n, s)

def sintVal (s : PState) : Except PFail (PyVal × PState) := do
  let (i, s) ← sint s
  pure (.int i, s)

def doubleVal (s : PState) : Except PFail (PyVal × PState) := do
  let (q, s) ← double s
  pure (.float q, s)

def stringVal (s : PState) : Except PFail (PyVal × PState) := do
  let (v, s) ← string s
  pure (.str v, s)

/-- `Parser.section_body_BA_DEF_DEF_` (lines 1998-2007): the literal is
`one_of(uint, sint, double, string)`. -/
def section_body_BA_DEF_DEF_ (s : PState) : Except PFail (DbcSection × PState) := do
  let s := eat_whitespace s
  let s ← charmatch '"' s
  let (name, s) ← identifier keywords s
  let s ← charmatch '"' s
  let s := eat_whitespace s
  let (val, s) ← one_of [uintVal, sintVal, doubleVal, stringVal] s
  let s := eat_whitespace s
  let s ← charmatch ';' s
  pure (.baDefDef name val, s)

/-- `Parser.desc_BA_BU_` (lines 2009-2013). -/
def desc_BA_BU_ (s : PState) : Except PFail (BaDesc × PState) := do
  let (_, s) ← strmatch "BU_" s
  let s := eat_whitespace s
  let (name, s) ← identifier keywords s
  pure (.bu name, s)

/-- `Parser.desc_BA_BO_` (lines 2015-2019). -/
def desc_BA_BO_ (s : PState) : Except PFail (BaDesc × PState) := do
  let (_, s) ← strmatch "BO_" s
  let s := eat_whitespace s
  let (id, s) ← uint s
  pure (.bo id, s)

/-- `Parser.desc_BA_SG_` (lines 2021-2027). -/
def desc_BA_SG_ (s : PState) : Except PFail (BaDesc × PState) := do
  let (_, s) ← strmatch "SG_" s
  let s := eat_whitespace s
  let (id, s) ← uint s
  let s := eat_whitespace s
  let (name, s) ← identifier keywords s
  pure (.sg id name, s)

/-- `Parser.desc_BA_EV_` (lines 2029-2033). -/
def desc_BA_EV_ (s : PState) : Except PFail (BaDesc × PState) := do
  let (_, s) ← strmatch "EV_" s
  let s := eat_whitespace s
  let (name, s) ← identifier keywords s
  pure (.ev name, s)

/-- `Parser.section_body_BA_` (lines 2035-2046): here the literal is
`one_of(double, uint, sint, string)` — `double` first. -/
def section_body_BA_ (s : PState) : Except PFail (DbcSection × PState) := do
  let s := eat_whitespace s
  let (name, s) ← string s
  let s := eat_whitespace s
  let (desc, s) ← one_of [desc_BA_BU_, desc_BA_BO_, desc_BA_SG_, desc_BA_EV_,
    fun st => .ok (BaDesc.glob, st)] s
  let s := eat_whitespace s
  let (val, s) ← one_of [doubleVal, uintVal, sintVal, stringVal] s
  let s := eat_whitespace s
  let s ← charmatch ';' s
  pure (.ba name desc val, s)

/-- `Parser.section_body_SIG_GROUP_` (lines 2048-2061). -/
def section_body_SIG_GROUP_ (s : PState) : Except PFail (DbcSection × PState) := do
  let s := eat_whitespace s
  let (id, s) ← uint s
  let s := eat_whitespace s
  let (name, s) ← identifier keywords s
  let s := eat_whitespace s
  let (number, s) ← uint s
  let s := eat_whitespace s
  let s ← charmatch ':' s
  let s := eat_whitespace s
  let (sigs, s) ← any_number_of (identifier_ws keywords) (s.text.length + 1) s
  let s := eat_whitespace s
  let s ← charmatch ';' s
  pure (.sigGroup id name number sigs, s)

/-- Inner scan of `Parser.section_keyword` (lines 2063-2073): first
prefix match over the `sections` order. -/
def section_keywordAux (s : PState) : List String → Except PFail (String × PState)
  | [] =>
    let strex : String := ⟨(s.text.drop s.n).take 10⟩
    .error (.parseErr ⟨s.line, s.col,
      "Expected section keyword but found instead \"" ++ escQuotes strex ++ "\" at"⟩)
  | kw :: rest =>
    if (s.text.drop s.n).take kw.length = kw.toList then
      .ok (kw, { s with n := s.n + kw.length, col := s.col + kw.length })
    else section_keywordAux s rest

def section_keyword (s : PState) : Except PFail (String × PState) :=
  section_keywordAux s sections

/-- `Parser.section` (lines 2075-2082): dispatch on the recognized
keyword; the sections without a `section_body_` method (`ENVVAR_DATA_`,
`EV_`, `SGTYPE_`, `SIG_TYPE_REF_`) are "Unimplemented". -/
def sectionRule (s : PState) : Except PFail (DbcSection × PState) := do
  let (name, s') ← section_keyword s
  if name = "VERSION" then section_body_VERSION s'
  else if name = "NS_" then section_body_NS_ s'
  else if name = "BS_" then section_body_BS_ s'
  else if name = "BU_" then section_body_BU_ s'
  else if name = "VAL_TABLE_" then section_body_VAL_TABLE_ s'
  else if name = "BO_TX_BU_" then section_body_BO_TX_BU_ s'
  else if name = "BO_" then section_body_BO_ s'
  else if name = "CM_" then section_body_CM_ s'
  else if name = "BA_DEF_DEF_" then section_body_BA_DEF_DEF_ s'
  else if name = "BA_DEF_" then section_body_BA_DEF_ s'
  else if name = "BA_" then section_body_BA_ s'
  else if name = "VAL_" then section_body_VAL_ s'
  else if name = "SIG_GROUP_" then section_body_SIG_GROUP_ s'
  else if name = "SIG_VALTYPE_" then section_body_SIG_VALTYPE_ s'
  else if name = "SG_MUL_VAL_" then section_body_SG_MUL_VAL_ s'
  else
    .error (.parseErr ⟨s'.line, s'.col,
      "Unimplemented section type " ++ name ++ " encountered near"⟩)

/-- Loop of `Parser.start` (lines 2088-2096), fuel-bounded. -/
def startLoop : Nat → PState → List DbcSection → Except PFail (List DbcSection × PState)
  | 0, s, acc => .ok (acc, s)
  | fuel + 1, s, acc =>
    if s.n < s.text.length then
      match sectionRule s with
      | .error e => .error e
      | .ok (sec, s') => startLoop fuel (eat_whitespace s') (acc ++ [sec])
    else .ok (acc, s)

/-- `Parser.start` (lines 2084-2096). -/
def start (s : PState) : Except PFail (List DbcSection × PState) :=
  startLoop (s.text.length + 1) (eat_whitespace s) []

/-- The cursor as `Parser.parse` initializes it (lines 1364-1369):
offset 0, line 1, column 0. -/
def initPState (text : String) : PState := ⟨text.toList, 0, 1, 0⟩

/-- `Parser.assert_at_end` (lines 1390-1393). -/
def assert_at_end (s : PState) : Except PFail Unit :=
  if s.n < s.text.length then
    .error (.parseErr ⟨s.line, s.col, "Unrecognizable text remains from"⟩)
  else .ok ()

/-- `Parser.parse` (lines 1355-1374). -/
def parse (text : String) : Except PFail (List DbcSection) := do
  let (secs, s) ← start (initPState text)
  let _ ← assert_at_end s
  pure secs

/-- `Bus(Parser().parse(text))` as in dbcdiff.py: parse, then build. -/
inductive RunErr where
  | parseFail (e : PFail)
  | buildFail (e : BErr)
deriving DecidableEq, Repr

def parseBuild (text : String) : Except RunErr Bus :=
  match parse text with
  | .error e => .error (.parseFail e)
  | .ok secs =>
    match buildBus secs with
    | .error e => .error (.buildFail e)
    | .ok b => .ok b

/-! ## Concrete inputs used by the verification -/

deriving instance DecidableEq for Except

/-- parse → build → serialize → reparse → rebuild → diff; `none` when any
stage fails. -/
def roundTripDiff (t : String) : Option String :=
  (parseBuild t).toOption.bind fun b1 =>
    (busDbc b1).bind fun t2 =>
      (parseBuild t2).toOption.bind fun b2 => busDiff b1 b2

/-- A dbc text this system accepts whose `BS_` section carries baudrate 0
with bit-timing registers. -/
def c1text : String := "VERSION \"\"\nBS_: 0: 1, 2\nBU_:\n"

/-- A well-formed signal dict named `nm` at the given start bit. -/
def mkSig (nm : String) (st : Nat) : SigDict :=
  ⟨nm, none, false, st, 8, some true, some false, 1, 0, (0, 0), "", ["N1"]⟩

/-- Sections with a `BA_` of `SG_` scope naming a defined signal whose
attribute is not yet set. -/
def c3secs : List DbcSection :=
  [.version "", .bs none, .bu ["N1"],
   .bo ⟨1, "M", 8, "N1", [mkSig "S" 0]⟩,
   .ba "attr" (.sg 1 "S") (.int 5)]

/-- Sections with two `SIG_GROUP_` definitions of the same group name for
the same message. -/
def c5dupSecs : List DbcSection :=
  [.version "", .bs none, .bu ["N1"],
   .bo ⟨1, "M", 8, "N1", [mkSig "S" 0]⟩,
   .sigGroup 1 "G" 1 ["S"], .sigGroup 1 "G" 1 ["S"]]

/-- Sections with a `SIG_GROUP_` listing a name that is not a signal of
the referenced message. -/
def c5undefSecs : List DbcSection :=
  [.version "", .bs none, .bu ["N1"],
   .bo ⟨1, "M", 8, "N1", [mkSig "S" 0]⟩,
   .sigGroup 1 "G" 1 ["T"]]

/-- A dbc text whose `SG_` line has `@+` where the endian atom reads: the
endian atom silently yields `None` and the '+' is then consumed by the
sign atom, so the line parses. -/
def c6text : String :=
  "VERSION \"\"\nBS_:\nBU_: N1\nBO_ 1 M: 8 N1\n SG_ S : 0|8@+ (1,0) [0|0] \"\" N1\n"

/-- A message with two signals sharing the name "A". -/
def c2secs : List DbcSection :=
  [.version "", .bs none, .bu ["N1"],
   .bo ⟨1, "M", 8, "N1", [mkSig "A" 0, mkSig "A" 8]⟩]

/-- A concrete message with exactly one multiplexor and one multiplexed
signal, as `Bus.__init__` builds it from a `BO_` section. -/
def c4msg : Message :=
  ((Message.mkNew 1 "M" 8 "N1").appendSig (Signal.ofDict
      ⟨"Sel", none, true, 0, 8, some true, some false, 1, 0, (0, 3), "", ["N2"]⟩)).appendSig
    (Signal.ofDict ⟨"A", some 2, false, 8, 8, some true, some false, 1, 0, (0, 0), "", ["N2"]⟩)

/-- A small bus with a message and one multiplexed signal (used as a
concrete witness input). -/
def cwSecs : List DbcSection :=
  [.version "v", .bs (some (500, 1, 2)), .bu ["N1", "N2"],
   .bo ⟨1, "M", 8, "N1",
     [⟨"Sel", none, true, 0, 8, some true, some false, 1, 0, (0, 3), "", ["N2"]⟩,
      ⟨"A", some 2, false, 8, 8, some true, some false, 1, 0, (0, 0), "", ["N2"]⟩]⟩]

/-- `cwSecs` with a `BO_TX_BU_` section re-listing the canonical
transmitter and adding a second node. -/
def c10secs : List DbcSection := cwSecs ++ [.boTxBu 1 ["N1", "N2"]]

/-! ## Invariants of constructed buses -/

/-- The `signals_dict` obtained by appending signals with the given names
in order: tag `i` is bound under `names[i]`, a repeated name overwriting
the earlier binding in place. -/
def buildDict (names : List String) : List (String × Nat) :=
  names.enum.foldl (fun d p => dictSet d p.2 p.1) []

/-- The tags of the message's top-level signals together with the tags
reachable through the switch of any stored signal. -/
def reachTags (m : Message) : List Nat :=
  m.signals ++ m.store.flatMap fun s => s.switch.map (·.2)

/-- The name of the signal at tag `t`. -/
def nameAt (m : Message) (t : Nat) : String := (m.getSig t).name

/-- The bijection claim C2 asserts for one message: the names in
`signals_dict` are pairwise distinct, every entry names a reachable
signal of that name, and every reachable signal is the value of exactly
one entry. -/
def SigBijection (m : Message) : Prop :=
  (m.signals_dict.map Prod.fst).Nodup ∧
  (∀ p ∈ m.signals_dict, p.2 ∈ reachTags m ∧ nameAt m p.2 = p.1) ∧
  (∀ t ∈ reachTags m, ∃ nm, (nm, t) ∈ m.signals_dict ∧
    ∀ p ∈ m.signals_dict, p.2 = t → p = (nm, t))

/-- Structural invariants of a signal object inside a constructed bus. -/
structure SigInv (s : Signal) : Prop where
  attrs_nodup : (s.attributes.map Prod.fst).Nodup
  vdesc_nodup : (s.value_descriptions.map Prod.fst).Nodup

/-- Structural invariants of a message inside a constructed bus. -/
structure MsgInv (m : Message) : Prop where
  tx_nodup : m.transmitters.Nodup
  attrs_nodup : (m.attributes.map Prod.fst).Nodup
  groups_nodup : (m.signal_groups.map Prod.fst).Nodup
  sig_lt : ∀ t ∈ m.signals, t < m.store.length
  sig_nodup : m.signals.Nodup
  dict_eq : m.signals_dict = buildDict (m.store.map (·.name))
  switch_lt : ∀ s ∈ m.store, ∀ e ∈ s.switch, e.2 < m.store.length
  sigs : ∀ s ∈ m.store, SigInv s

/-- Every stored signal is reachable: it is still in the top-level list or
hangs under some multiplexor's switch.  This holds after construction
except when an `SG_MUL_VAL_` section lists an empty set of ranges (the
signal is then removed from the top level but attached to no switch
entry), so it is tracked separately from `MsgInv`. -/
def MsgCover (m : Message) : Prop :=
  ∀ t, t < m.store.length → t ∈ reachTags m

/-- `MsgCover` for every message of the bus. -/
def BusCover (b : Bus) : Prop :=
  ∀ p ∈ b.messages, MsgCover p.2

/-- The stored signal names of every message are pairwise distinct. -/
def BusNames (b : Bus) : Prop :=
  ∀ p ∈ b.messages, ((p.2.store.map (·.name)).Nodup)

/-- Structural invariants every successfully constructed bus satisfies. -/
structure BusInv (b : Bus) : Prop where
  btr_iff : b.baudrate.isSome = b.btr.isSome
  nodes_nodup : (b.nodes.map Prod.fst).Nodup
  node_attrs : ∀ p ∈ b.nodes, (p.2.attributes.map Prod.fst).Nodup
  gv_nodup : (b.global_values.map Prod.fst).Nodup
  gv_inner : ∀ p ∈ b.global_values, (p.2.map Prod.fst).Nodup
  msgs_nodup : (b.messages.map Prod.fst).Nodup
  msgs : ∀ p ∈ b.messages, MsgInv p.2
  td_nodup : (b.attrib_typedefs.map Prod.fst).Nodup
  td_inner : ∀ p ∈ b.attrib_typedefs, (p.2.map Prod.fst).Nodup
  defaults_nodup : (b.attrib_defaults.map Prod.fst).Nodup
  attrs_nodup : (b.attributes.map Prod.fst).Nodup

/-- Every signal of every `BO_` section lists at least one receiver (the
grammar guarantees this: `Parser.signal` builds `[receiver] + extras`; the
spec's data model likewise makes `receivers` a non-empty list). -/
def SecsRecvOk (secs : List DbcSection) : Prop :=
  ∀ d ∈ (xtractWith secBo? secs).1, ∀ sd ∈ d.signals, sd.receivers ≠ []

/-- Every stored signal of every message has a non-empty receiver list. -/
def BusRecv (b : Bus) : Prop :=
  ∀ p ∈ b.messages, ∀ s ∈ p.2.store, s.receivers ≠ []

/-- The symmetric content of `Message.diff` (lines 401-466) returning the
empty report: equal header fields, equal transmitter sets, the same signal
names bound to signals with identical canonical `SG_` lines, equal
comments and attributes, and the same groups with equal signal sets. -/
def MsgEquiv (m o : Message) : Prop :=
  m.id = o.id ∧ m.name = o.name ∧ m.size = o.size ∧
  (∀ x ∈ m.transmitters, x ∈ o.transmitters) ∧
  (∀ x ∈ o.transmitters, x ∈ m.transmitters) ∧
  (∀ k, (dictLookup m.signals_dict k).isSome ↔ (dictLookup o.signals_dict k).isSome) ∧
  (∀ k t1 t2, dictLookup m.signals_dict k = some t1 →
    dictLookup o.signals_dict k = some t2 → (m.getSig t1).dbc = (o.getSig t2).dbc) ∧
  m.comments = o.comments ∧
  pyDictEqBy pyValEq m.attributes o.attributes = true ∧
  (∀ k, (dictLookup m.signal_groups k).isSome ↔ (dictLookup o.signal_groups k).isSome) ∧
  (∀ k g1 g2, dictLookup m.signal_groups k = some g1 →
    dictLookup o.signal_groups k = some g2 →
    (∀ x ∈ g1.sigs, x ∈ g2.sigs) ∧ (∀ x ∈ g2.sigs, x ∈ g1.sigs))

/-- The symmetric content of `Bus.diff` (lines 1195-1279) returning the
empty report. -/
def BusEquiv (b1 b2 : Bus) : Prop :=
  b1.version = b2.version ∧ b1.baudrate = b2.baudrate ∧ b1.btr = b2.btr ∧
  (∀ k, (dictLookup b1.nodes k).isSome ↔ (dictLookup b2.nodes k).isSome) ∧
  (∀ k n1 n2, dictLookup b1.nodes k = some n1 → dictLookup b2.nodes k = some n2 →
    nodeInfoEq n1 n2 = true) ∧
  (∀ x ∈ b1.newsymbols, x ∈ b2.newsymbols) ∧
  (∀ x ∈ b2.newsymbols, x ∈ b1.newsymbols) ∧
  pyDictEqBy (pyDictEqBy (fun a b : String => a == b))
    b1.global_values b2.global_values = true ∧
  (∀ k, (dictLookup b1.messages k).isSome ↔ (dictLookup b2.messages k).isSome) ∧
  (∀ k m1 m2, dictLookup b1.messages k = some m1 →
    dictLookup b2.messages k = some m2 → MsgEquiv m1 m2) ∧
  b1.comments = b2.comments ∧
  pyDictEqBy (pyDictEqBy typedefEq) b1.attrib_typedefs b2.attrib_typedefs = true ∧
  pyDictEqBy pyValEq b1.attrib_defaults b2.attrib_defaults = true ∧
  pyDictEqBy pyValEq b1.attributes b2.attributes = true

/-! ## Theorems -/

/-- **C8 — counterexample.**  The claim quantifies over all Ranges; with an
improper range (minval > maxval) the closed intervals are disjoint (the
second is empty) yet `intersection` is not `none`:
`Range(0,10).intersection(Range(5,1)) = Range(5,1)`. -/
theorem c8_intersection_disjoint_cex :
    Range.intersection ⟨0, 10⟩ ⟨5, 1⟩ ≠ none ∧
    Range.disjointWith ⟨0, 10⟩ ⟨5, 1⟩ := by
  constructor
  · decide
  · intro x hx
    have h1 := hx.2
    simp only [Range.within, Bool.and_eq_true, decide_eq_true_eq] at h1
    have : (5 : Rat) ≤ 1 := le_trans h1.1 h1.2
    norm_num at this

/-- **C8 (amended).**  `Range(a,b).within(x) ⟺ a ≤ x ≤ b` and
`intersection` is commutative, both for all ranges unconditionally;
`intersection` is `none` iff the closed intervals are disjoint, provided
both ranges are proper (min ≤ max). -/
theorem c8_range_semantics (a b x : Rat) (r1 r2 : Range) :
    ((Range.mk a b).within x = true ↔ a ≤ x ∧ x ≤ b) ∧
    r1.intersection r2 = r2.intersection r1 ∧
    (r1.minval ≤ r1.maxval → r2.minval ≤ r2.maxval →
      (r1.intersection r2 = none ↔ r1.disjointWith r2)) := by
  refine ⟨?_, ?_, ?_⟩
  · simp only [Range.within, Bool.and_eq_true, decide_eq_true_eq, ge_iff_le]
  · unfold Range.intersection
    by_cases h : r1.minval > r2.maxval ∨ r1.maxval < r2.minval
    · rw [if_pos h, if_pos h.symm]
    · rw [if_neg h, if_neg fun hc => h hc.symm, max_comm, min_comm]
  · intro h1 h2
    unfold Range.intersection
    constructor
    · intro hnone x hx
      simp only [Range.within, Bool.and_eq_true, decide_eq_true_eq, ge_iff_le] at hx
      by_cases h : r1.minval > r2.maxval ∨ r1.maxval < r2.minval
      · rcases h with h | h
        · exact absurd (le_trans hx.1.1 hx.2.2) (not_le.mpr h)
        · exact absurd (le_trans hx.2.1 hx.1.2) (not_le.mpr h)
      · rw [if_neg h] at hnone
        exact Option.some_ne_none _ hnone
    · intro hd
      by_cases h : r1.minval > r2.maxval ∨ r1.maxval < r2.minval
      · rw [if_pos h]
      · exfalso
        push_neg at h
        refine hd (max r1.minval r2.minval) ⟨?_, ?_⟩ <;>
          simp only [Range.within, Bool.and_eq_true, decide_eq_true_eq, ge_iff_le]
        · exact ⟨le_max_left _ _, max_le h1 h.2⟩
        · exact ⟨le_max_right _ _, max_le h.1 h2⟩

/-- Witness for `c8_range_semantics` at `a = 0`, `b = 1`, `x = 0` and the
proper ranges `[0,1]`, `[2,3]`. -/
theorem c8_range_semantics_witness :
    ((Range.mk 0 1).within 0 = true ↔ (0 : Rat) ≤ 0 ∧ (0 : Rat) ≤ 1) ∧
    (Range.mk 0 1).intersection ⟨2, 3⟩ = (Range.mk 2 3).intersection ⟨0, 1⟩ ∧
    ((Range.mk 0 1).intersection ⟨2, 3⟩ = none ↔ (Range.mk 0 1).disjointWith ⟨2, 3⟩) := by
  obtain ⟨hw, hc, hd⟩ := c8_range_semantics 0 1 0 ⟨0, 1⟩ ⟨2, 3⟩
  exact ⟨hw, hc, hd (by norm_num) (by norm_num)⟩

/-- **C6 — the endian and sign atoms do not raise.**  On '2' (not
'0'/'1') `Parser.endian` constructs a ParseError without raising it and
returns `None`, consuming nothing; likewise `Parser.signed` on '*'.  A
whole `SG_` line with `@+` therefore parses — the endian atom yields
`None`, the sign atom consumes the '+' — leaving `little_endian = None`
in the signal dict. -/
theorem c6_endian_signed_return_none :
    endian ⟨['2'], 0, 1, 0⟩ = .ok (none, ⟨['2'], 0, 1, 0⟩) ∧
    signed ⟨['*'], 0, 1, 0⟩ = .ok (none, ⟨['*'], 0, 1, 0⟩) ∧
    ((parse c6text).toOption.bind fun secs =>
      ((xtractWith secBo? secs).1.head?).bind fun d =>
        (d.signals.head?).map fun sd => sd.little_endian) = some none := by
  refine ⟨rfl, rfl, ?_⟩
  decide

/-- **C9 — counterexample.**  Columns are not 1-based: parsing "@" reports
a ParseError at line 1, column 0. -/
theorem c9_column_zero_cex :
    parse "@" = .error (.parseErr
      ⟨1, 0, "Expected section keyword but found instead \"@\" at"⟩) := by
  decide

/-- **C9 (amended).**  Line numbering is 1-based but column numbering is
0-based: `parse` initializes the cursor to line 1, column 0, and a newline
consumed by `eat_whitespace` increments the line and resets the column
to 0 (so reported columns can be 0). -/
theorem eatWsAux_newline (rest : List Char) (line col : Nat) :
    eatWsAux ('\n' :: rest) line col =
      ((eatWsAux rest (line + 1) 0).1 + 1, (eatWsAux rest (line + 1) 0).2) := by
  simp [eatWsAux, isWs]

theorem c9_cursor_base (text : String) (s : PState) (rest : List Char)
    (h : s.text.drop s.n = '\n' :: rest) :
    (initPState text).line = 1 ∧ (initPState text).col = 0 ∧
    eat_whitespace s = eat_whitespace { s with n := s.n + 1, line := s.line + 1, col := 0 } := by
  refine ⟨rfl, rfl, ?_⟩
  have h2 : s.text.drop (s.n + 1) = rest := by
    rw [← List.drop_drop, h]
    rfl
  unfold eat_whitespace
  simp only [h, h2, eatWsAux_newline, PState.mk.injEq]
  repeat' apply And.intro
  all_goals first | trivial | omega

/-- Witness for `c9_cursor_base` at a concrete state whose cursor sits on
a newline. -/
theorem c9_cursor_base_witness :
    (initPState "x").line = 1 ∧ (initPState "x").col = 0 ∧
    eat_whitespace ⟨['\n'], 0, 5, 7⟩ =
      eat_whitespace ⟨['\n'], 0 + 1, 5 + 1, 0⟩ :=
  c9_cursor_base "x" ⟨['\n'], 0, 5, 7⟩ [] rfl

/-- **C3 — the `BA_` `SG_` assignment is missing.**  Building sections
with `BA_ "attr" SG_ 1 S 5` succeeds (the target exists and the attribute
is unset), but afterwards the signal's attribute map is empty instead of
containing `attr ↦ 5`: the source checks for a duplicate and then never
assigns. -/
theorem c3_ba_sg_attribute_not_assigned :
    ((buildBus c3secs).toOption.bind fun b =>
      (dictLookup b.messages 1).bind fun m =>
        (dictLookup m.signals_dict "S").map fun t => (m.getSig t).attributes) =
      some [] := by
  decide

/-- **C5 — `SIG_GROUP_` error paths raise NameError, not DatabaseError.**
Both a duplicate group name (the message interpolates the undefined
variable `goup_name`, line 787) and an unknown listed signal (undefined
`groupname`, line 795) abort construction with a Python `NameError`. -/
theorem c5_siggroup_raises_nameerror :
    buildBus c5dupSecs = .error .nameError ∧
    buildBus c5undefSecs = .error .nameError := by
  constructor <;> decide

/-- **C1 — round-trip fails on an accepted input.**  `c1text` (baudrate 0
with bit-timing registers) parses and builds; its serialization drops the
`BS_` payload because `if self.baudrate and self.btr:` treats baudrate 0
as falsy; the reserialized text parses and builds to a bus with no
baudrate, and the diff of the two buses is not empty. -/
theorem c1_roundtrip_fails :
    roundTripDiff c1text = some "baudrate:\n < 0\n > None\n" ∧
    (parseBuild c1text).toOption.bind busDbc =
      some "VERSION \"\"\n\nNS_ :\n\nBS_:\n\nBU_:\n\n" := by
  constructor <;> decide

/-! ## Association-list toolkit -/

theorem mem_dictSet [DecidableEq κ] {d : List (κ × α)} {k : κ} {v : α} {p : κ × α}
    (h : p ∈ dictSet d k v) : p = (k, v) ∨ p ∈ d := by
  induction d with
  | nil => simpa [dictSet] using h
  | cons q rest ih =>
    by_cases hk : q.1 = k
    · simp only [dictSet, hk, if_pos] at h
      rcases List.mem_cons.mp h with h | h
      · subst h; left; rw [← hk]
      · right; exact List.mem_cons_of_mem _ h
    · simp only [dictSet, hk, if_neg, not_false_iff] at h
      rcases List.mem_cons.mp h with h | h
      · right; rw [h]; exact List.mem_cons_self _ _
      · rcases ih h with h | h
        · exact Or.inl h
        · exact Or.inr (List.mem_cons_of_mem _ h)

theorem mem_dictSet_of_ne [DecidableEq κ] {d : List (κ × α)} {k : κ} {v : α} {p : κ × α}
    (hp : p ∈ d) (hne : p.1 ≠ k) : p ∈ dictSet d k v := by
  induction d with
  | nil => simp at hp
  | cons q rest ih =>
    rcases List.mem_cons.mp hp with h | h
    · subst h
      by_cases hk : p.1 = k
      · exact absurd hk hne
      · simp only [dictSet, hk, if_neg, not_false_iff]
        exact List.mem_cons_self _ _
    · by_cases hk : q.1 = k
      · simp only [dictSet, hk, if_pos]
        exact List.mem_cons_of_mem _ h
      · simp only [dictSet, hk, if_neg, not_false_iff]
        exact List.mem_cons_of_mem _ (ih h)

theorem dictSet_of_not_mem [DecidableEq κ] {d : List (κ × α)} {k : κ} (v : α)
    (h : ¬ k ∈ d.map Prod.fst) : dictSet d k v = d ++ [(k, v)] := by
  induction d with
  | nil => rfl
  | cons q rest ih =>
    simp only [List.map_cons, List.mem_cons] at h
    push_neg at h
    have hq : ¬ q.1 = k := fun he => h.1 he.symm
    simp only [dictSet, hq, if_neg, not_false_iff, List.cons_append]
    rw [ih h.2]

theorem dictSet_keys [DecidableEq κ] (d : List (κ × α)) (k : κ) (v : α) :
    (dictSet d k v).map Prod.fst =
      if k ∈ d.map Prod.fst then d.map Prod.fst else d.map Prod.fst ++ [k] := by
  induction d with
  | nil => rfl
  | cons q rest ih =>
    by_cases hk : q.1 = k
    · simp [dictSet, hk]
    · simp only [dictSet, hk, if_neg, not_false_iff, List.map_cons, ih]
      have hk' : ¬ k = q.1 := fun he => hk he.symm
      by_cases hm : k ∈ rest.map Prod.fst <;> simp [hm, hk']

theorem dictSet_keys_nodup [DecidableEq κ] {d : List (κ × α)} {k : κ} {v : α}
    (h : (d.map Prod.fst).Nodup) : ((dictSet d k v).map Prod.fst).Nodup := by
  rw [dictSet_keys]
  by_cases hm : k ∈ d.map Prod.fst
  · simpa [hm]
  · simp only [hm, if_neg, not_false_iff]
    rw [List.nodup_append]
    refine ⟨h, List.nodup_singleton _, ?_⟩
    intro a ha hb
    rw [List.mem_singleton] at hb
    exact hm (hb ▸ ha)

theorem dictLookup_mem [DecidableEq κ] {d : List (κ × α)} {k : κ} {v : α}
    (h : dictLookup d k = some v) : (k, v) ∈ d := by
  induction d with
  | nil => simp [dictLookup] at h
  | cons q rest ih =>
    by_cases hk : q.1 = k
    · simp only [dictLookup, hk, if_pos] at h
      cases h
      subst hk
      rw [Prod.mk.eta]
      exact List.mem_cons_self _ _
    · simp only [dictLookup, hk, if_neg, not_false_iff] at h
      exact List.mem_cons_of_mem _ (ih h)

theorem dictLookup_eq_of_mem_nodup [DecidableEq κ] {d : List (κ × α)} {k : κ} {v : α}
    (hn : (d.map Prod.fst).Nodup) (h : (k, v) ∈ d) : dictLookup d k = some v := by
  induction d with
  | nil => simp at h
  | cons q rest ih =>
    simp only [List.map_cons, List.nodup_cons] at hn
    rcases List.mem_cons.mp h with h | h
    · subst h
      simp [dictLookup]
    · have hk : q.1 ≠ k := by
        intro he
        exact hn.1 (he ▸ List.mem_map_of_mem Prod.fst h)
      simp only [dictLookup, hk, if_neg, not_false_iff]
      exact ih hn.2 h

theorem dictLookup_isSome_iff [DecidableEq κ] {d : List (κ × α)} {k : κ} :
    (dictLookup d k).isSome = true ↔ k ∈ d.map Prod.fst := by
  induction d with
  | nil => simp [dictLookup]
  | cons q rest ih =>
    by_cases hk : q.1 = k
    · simp [dictLookup, hk]
    · have hk' : ¬ k = q.1 := fun he => hk he.symm
      simp [dictLookup, hk, ih, hk']

theorem dictLookup_dictSet_self [DecidableEq κ] (d : List (κ × α)) (k : κ) (v : α) :
    dictLookup (dictSet d k v) k = some v := by
  induction d with
  | nil => simp [dictSet, dictLookup]
  | cons q rest ih =>
    by_cases hk : q.1 = k
    · simp [dictSet, dictLookup, hk]
    · simp [dictSet, dictLookup, hk, ih]

theorem dictLookup_dictSet_ne [DecidableEq κ] (d : List (κ × α)) {k k' : κ} (v : α)
    (h : k' ≠ k) : dictLookup (dictSet d k v) k' = dictLookup d k' := by
  induction d with
  | nil =>
    have hk' : ¬ k = k' := fun he => h he.symm
    simp [dictSet, dictLookup, hk']
  | cons q rest ih =>
    by_cases hk : q.1 = k
    · have hq : ¬ k = k' := fun he => h he.symm
      simp [dictSet, dictLookup, hk, hq]
    · simp only [dictSet, hk, if_neg, not_false_iff, dictLookup]
      by_cases hq : q.1 = k' <;> simp [hq, ih]

theorem getD_set_self : ∀ (l : List α) (i : Nat) (a d : α), i < l.length →
    (l.set i a).getD i d = a
  | [], _, _, _, h => absurd h (by simp)
  | _ :: _, 0, _, _, _ => rfl
  | _ :: xs, i + 1, a, d, h =>
    getD_set_self xs i a d (Nat.lt_of_succ_lt_succ (by simpa using h))

theorem getD_set_ne : ∀ (l : List α) (i j : Nat) (a d : α), i ≠ j →
    (l.set i a).getD j d = l.getD j d
  | [], _, _, _, _, _ => rfl
  | _ :: _, 0, 0, _, _, h => absurd rfl h
  | _ :: _, 0, _ + 1, _, _, _ => rfl
  | _ :: _, _ + 1, 0, _, _, _ => rfl
  | _ :: xs, i + 1, j + 1, a, d, h =>
    getD_set_ne xs i j a d fun he => h (by rw [he])

theorem getSig_setSig_ne (m : Message) {t u : Nat} (s : Signal) (h : t ≠ u) :
    (m.setSig t s).getSig u = m.getSig u :=
  getD_set_ne _ _ _ _ _ h

theorem getSig_setSig_self (m : Message) {t : Nat} (s : Signal)
    (h : t < m.store.length) : (m.setSig t s).getSig t = s :=
  getD_set_self _ _ _ _ h

theorem setSig_store_length (m : Message) (t : Nat) (s : Signal) :
    (m.setSig t s).store.length = m.store.length := by
  simp [Message.setSig]

theorem mem_switchAppend_self (sw : List SwEntry) (r : Nat × Nat) (t : Nat) :
    (r, t) ∈ switchAppend sw r t := by
  unfold switchAppend
  by_cases h : (r, t) ∈ sw <;> simp [h]

theorem mem_switchAppend_of_mem (sw : List SwEntry) (r : Nat × Nat) (t : Nat)
    {e : SwEntry} (h : e ∈ sw) : e ∈ switchAppend sw r t := by
  unfold switchAppend
  by_cases hm : (r, t) ∈ sw <;> simp [hm, h]

/-! ## C4: single-multiplexor reconstruction -/

theorem muxScan_ml (m : Message) : ∀ (l : List Nat) (acc : Nat × Option Nat × List Nat),
    (l.foldl (fun acc t =>
      let sig := m.getSig t
      let n := if sig.is_multiplexor then acc.1 + 1 else acc.1
      let mx := if sig.is_multiplexor then some t else acc.2.1
      let ml := if sig.multiplex_value.isSome then acc.2.2 ++ [t] else acc.2.2
      (n, mx, ml)) acc).2.2 =
      acc.2.2 ++ l.filter fun t => (m.getSig t).multiplex_value.isSome
  | [], acc => by simp
  | t :: l, acc => by
    rw [List.foldl_cons, muxScan_ml m l, List.filter_cons]
    by_cases hs : (m.getSig t).multiplex_value.isSome <;>
      by_cases hx : (m.getSig t).is_multiplexor <;>
      simp [hs, hx]

theorem muxScan_mx (m : Message) : ∀ (l : List Nat) (acc : Nat × Option Nat × List Nat)
    (u : Nat),
    (l.foldl (fun acc t =>
      let sig := m.getSig t
      let n := if sig.is_multiplexor then acc.1 + 1 else acc.1
      let mx := if sig.is_multiplexor then some t else acc.2.1
      let ml := if sig.multiplex_value.isSome then acc.2.2 ++ [t] else acc.2.2
      (n, mx, ml)) acc).2.1 = some u →
      (u ∈ l ∧ (m.getSig u).is_multiplexor = true) ∨ acc.2.1 = some u
  | [], acc, u => fun h => Or.inr h
  | t :: l, acc, u => by
    intro h
    rw [List.foldl_cons] at h
    rcases muxScan_mx m l _ u h with h2 | h2
    · exact Or.inl ⟨List.mem_cons_of_mem _ h2.1, h2.2⟩
    · by_cases hx : (m.getSig t).is_multiplexor
      · simp only [hx, if_pos] at h2
        cases h2
        exact Or.inl ⟨List.mem_cons_self _ _, hx⟩
      · simp only [hx, if_neg, not_false_iff] at h2
        exact Or.inr h2

/-- After one reconstruction step only the multiplexor's switch and the
top-level list change: every signal keeps its scalar fields. -/
theorem organize_step_fields (m : Message) (muxTag : Nat) (sw : List SwEntry)
    (h : muxTag < m.store.length) (u : Nat) :
    ((m.setSig muxTag { m.getSig muxTag with switch := sw }).getSig u).multiplex_value
        = (m.getSig u).multiplex_value ∧
    ((m.setSig muxTag { m.getSig muxTag with switch := sw }).getSig u).is_multiplexor
        = (m.getSig u).is_multiplexor ∧
    ((m.setSig muxTag { m.getSig muxTag with switch := sw }).getSig u).numbits
        = (m.getSig u).numbits ∧
    ((m.setSig muxTag { m.getSig muxTag with switch := sw }).getSig u).name
        = (m.getSig u).name := by
  by_cases he : muxTag = u
  · subst he
    rw [getSig_setSig_self _ _ h]
    exact ⟨rfl, rfl, rfl, rfl⟩
  · rw [getSig_setSig_ne _ _ he]
    exact ⟨rfl, rfl, rfl, rfl⟩

theorem organizeLoop_cons_ok (muxTag t : Nat) (ts : List Nat) (m m1 : Message) (v : Nat)
    (hv : (m.getSig t).multiplex_value = some v)
    (hmul : (m.getSig muxTag).multiplexes v = true)
    (hm1 : m1 = { m.setSig muxTag { m.getSig muxTag with
        switch := switchAppend (m.getSig muxTag).switch (v, v) t } with
        signals := (m.setSig muxTag { m.getSig muxTag with
          switch := switchAppend (m.getSig muxTag).switch (v, v) t }).signals.erase t }) :
    organizeLoop muxTag (t :: ts) m = organizeLoop muxTag ts m1 := by
  subst hm1
  simp only [organizeLoop, hv, hmul, if_true]

theorem organizeLoop_cons_err (muxTag t : Nat) (ts : List Nat) (m : Message) (v : Nat)
    (hv : (m.getSig t).multiplex_value = some v)
    (hmul : (m.getSig muxTag).multiplexes v = false) :
    ∃ e, organizeLoop muxTag (t :: ts) m = .error (.databaseError e) := by
  have h : organizeLoop muxTag (t :: ts) m = .error (.databaseError
      ("multiplex value for signal \"" ++ (m.getSig t).name ++ "\" in message \"" ++
        toString m.id ++ "\" is not in range of multiplexor \"" ++
        (m.getSig muxTag).name ++ "\"")) := by
    simp only [organizeLoop, hv, hmul, Bool.false_eq_true, if_false]
  exact ⟨_, h⟩

theorem organizeLoop_total (muxTag : Nat) :
    ∀ (ts : List Nat) (m : Message),
      muxTag < m.store.length →
      (m.getSig muxTag).is_multiplexor = true →
      m.signals.Nodup →
      (∀ t ∈ ts, (m.getSig t).multiplex_value.isSome = true) →
      (∀ t ∈ ts, ∀ v, (m.getSig t).multiplex_value = some v →
        v < 2 ^ (m.getSig muxTag).numbits) →
      ∃ m', organizeLoop muxTag ts m = .ok m' ∧
        m'.store.length = m.store.length ∧
        m'.signals.Sublist m.signals ∧ m'.signals.Nodup ∧
        (∀ u, (m'.getSig u).multiplex_value = (m.getSig u).multiplex_value ∧
              (m'.getSig u).name = (m.getSig u).name) ∧
        (∀ e ∈ (m.getSig muxTag).switch, e ∈ (m'.getSig muxTag).switch) ∧
        (∀ t ∈ ts, (∀ v, (m.getSig t).multiplex_value = some v →
            ((v, v), t) ∈ (m'.getSig muxTag).switch) ∧ t ∉ m'.signals)
  | [], m => fun _ _ hnd _ _ =>
    ⟨m, rfl, rfl, List.Sublist.refl _, hnd, fun _ => ⟨rfl, rfl⟩,
      fun _ he => he, fun t ht => absurd ht (List.not_mem_nil t)⟩
  | t :: ts, m => by
    intro hlt hmux hnd hsome hgood
    obtain ⟨v, hv⟩ := Option.isSome_iff_exists.mp (hsome t (List.mem_cons_self _ _))
    have hvlt : v < 2 ^ (m.getSig muxTag).numbits :=
      hgood t (List.mem_cons_self _ _) v hv
    have hmul : (m.getSig muxTag).multiplexes v = true := by
      simp [Signal.multiplexes, hmux, hvlt]
    set m1 : Message := { m.setSig muxTag { m.getSig muxTag with
        switch := switchAppend (m.getSig muxTag).switch (v, v) t } with
        signals := (m.setSig muxTag { m.getSig muxTag with
          switch := switchAppend (m.getSig muxTag).switch (v, v) t }).signals.erase t }
      with hm1
    have hstep := organizeLoop_cons_ok muxTag t ts m m1 v hv hmul hm1
    have hfields1 : ∀ u, (m1.getSig u).multiplex_value = (m.getSig u).multiplex_value ∧
        (m1.getSig u).is_multiplexor = (m.getSig u).is_multiplexor ∧
        (m1.getSig u).numbits = (m.getSig u).numbits ∧
        (m1.getSig u).name = (m.getSig u).name := by
      intro u
      rw [hm1]
      exact organize_step_fields m muxTag _ hlt u
    have hlen1 : m1.store.length = m.store.length := by
      rw [hm1]
      exact setSig_store_length m _ _
    have hsig1 : m1.signals = m.signals.erase t := by
      rw [hm1]
      rfl
    have hm1mux : (m1.getSig muxTag).switch
        = switchAppend (m.getSig muxTag).switch (v, v) t := by
      rw [hm1]
      have h2 : (m.setSig muxTag { m.getSig muxTag with
          switch := switchAppend (m.getSig muxTag).switch (v, v) t }).getSig muxTag
          = { m.getSig muxTag with
              switch := switchAppend (m.getSig muxTag).switch (v, v) t } :=
        getSig_setSig_self m _ hlt
      exact congrArg Signal.switch h2
    obtain ⟨m', hok, hlen, hsub, hnd', hstable, hmono, hmem⟩ :=
      organizeLoop_total muxTag ts m1
        (by rw [hlen1]; exact hlt)
        (by rw [(hfields1 muxTag).2.1]; exact hmux)
        (by rw [hsig1]; exact hnd.erase t)
        (fun u hu => by rw [(hfields1 u).1]; exact hsome u (List.mem_cons_of_mem _ hu))
        (fun u hu w hw => by
          rw [(hfields1 muxTag).2.2.1]
          exact hgood u (List.mem_cons_of_mem _ hu) w (by rw [← (hfields1 u).1]; exact hw))
    refine ⟨m', by rw [hstep]; exact hok, by rw [hlen, hlen1],
      hsub.trans (by rw [hsig1]; exact List.erase_sublist _ _),
      hnd', ?_, ?_, ?_⟩
    · intro u
      exact ⟨(hstable u).1.trans (hfields1 u).1, (hstable u).2.trans (hfields1 u).2.2.2⟩
    · intro e he
      apply hmono
      rw [hm1mux]
      exact mem_switchAppend_of_mem _ _ _ he
    · intro u hu
      rcases List.mem_cons.mp hu with rfl | hu2
      · constructor
        · intro w hw
          rw [hv] at hw
          cases hw
          apply hmono
          rw [hm1mux]
          exact mem_switchAppend_self _ _ _
        · intro hcon
          have hmem1 : u ∈ m1.signals := hsub.subset hcon
          rw [hsig1] at hmem1
          have hle : m.signals.count u ≤ 1 := List.nodup_iff_count_le_one.mp hnd u
          have hzero : (m.signals.erase u).count u = 0 := by
            rw [List.count_erase_self]
            omega
          exact absurd (List.count_pos_iff_mem.mpr hmem1) (by omega)
      · have h2 := hmem u hu2
        exact ⟨fun w hw => h2.1 w (by rw [(hfields1 u).1]; exact hw), fun hcon => h2.2 hcon⟩

theorem organizeLoop_err (muxTag : Nat) :
    ∀ (ts : List Nat) (m : Message),
      muxTag < m.store.length →
      (m.getSig muxTag).is_multiplexor = true →
      (∀ t ∈ ts, (m.getSig t).multiplex_value.isSome = true) →
      (∃ t ∈ ts, ∃ v, (m.getSig t).multiplex_value = some v ∧
        ¬ v < 2 ^ (m.getSig muxTag).numbits) →
      ∃ e, organizeLoop muxTag ts m = .error (.databaseError e)
  | [], m => by
    intro _ _ _ hbad
    simp at hbad
  | t :: ts, m => by
    intro hlt hmux hsome hbad
    obtain ⟨v, hv⟩ := Option.isSome_iff_exists.mp (hsome t (List.mem_cons_self _ _))
    by_cases hvlt : v < 2 ^ (m.getSig muxTag).numbits
    · have hmul : (m.getSig muxTag).multiplexes v = true := by
        simp [Signal.multiplexes, hmux, hvlt]
      set m1 : Message := { m.setSig muxTag { m.getSig muxTag with
          switch := switchAppend (m.getSig muxTag).switch (v, v) t } with
          signals := (m.setSig muxTag { m.getSig muxTag with
            switch := switchAppend (m.getSig muxTag).switch (v, v) t }).signals.erase t }
        with hm1
      have hstep := organizeLoop_cons_ok muxTag t ts m m1 v hv hmul hm1
      have hfields1 : ∀ u, (m1.getSig u).multiplex_value = (m.getSig u).multiplex_value ∧
          (m1.getSig u).is_multiplexor = (m.getSig u).is_multiplexor ∧
          (m1.getSig u).numbits = (m.getSig u).numbits ∧
          (m1.getSig u).name = (m.getSig u).name := by
        intro u
        rw [hm1]
        exact organize_step_fields m muxTag _ hlt u
      obtain ⟨u, hu, w, hw, hwbad⟩ := hbad
      have hu2 : u ∈ ts := by
        rcases List.mem_cons.mp hu with rfl | h2
        · rw [hv] at hw
          cases hw
          exact absurd hvlt hwbad
        · exact h2
      obtain ⟨e, he⟩ := organizeLoop_err muxTag ts m1
        (by rw [hm1]; rw [setSig_store_length]; exact hlt)
        (by rw [(hfields1 muxTag).2.1]; exact hmux)
        (fun a ha => by rw [(hfields1 a).1]; exact hsome a (List.mem_cons_of_mem _ ha))
        ⟨u, hu2, w, by rw [(hfields1 u).1]; exact hw,
          by rw [(hfields1 muxTag).2.2.1]; exact hwbad⟩
      exact ⟨e, by rw [hstep]; exact he⟩
    · have hmul : (m.getSig muxTag).multiplexes v = false := by
        simp [Signal.multiplexes, hvlt]
      exact organizeLoop_cons_err muxTag t ts m v hv hmul

/-- **C4 — single-multiplexor reconstruction (lines 818-840).**  For a
message with exactly one multiplexor (the `muxScan` count is 1 and the
scan names `muxTag`): if every multiplexed signal's selector value `v`
satisfies `0 ≤ v < 2^(mux.numbits)` (the left bound holds by the `Nat`
encoding of the `uint`-parsed selector), reconstruction succeeds and every
such signal ends up as `(Range(v,v), s)` in the multiplexor's switch and
off the top-level `signals` list; if some selector is out of range,
reconstruction raises a DatabaseError. -/
theorem c4_single_mux (m : Message) (muxTag : Nat)
    (hsig : ∀ t ∈ m.signals, t < m.store.length)
    (hnd : m.signals.Nodup)
    (hone : (muxScan m).1 = 1)
    (hmx : (muxScan m).2.1 = some muxTag) :
    ((∀ t ∈ (muxScan m).2.2, ∀ v, (m.getSig t).multiplex_value = some v →
        v < 2 ^ (m.getSig muxTag).numbits) →
      ∃ m', organizeMsgMux m = .ok m' ∧
        ∀ t ∈ (muxScan m).2.2, ∀ v, (m.getSig t).multiplex_value = some v →
          ((v, v), t) ∈ (m'.getSig muxTag).switch ∧ t ∉ m'.signals) ∧
    ((∃ t ∈ (muxScan m).2.2, ∃ v, (m.getSig t).multiplex_value = some v ∧
        ¬ v < 2 ^ (m.getSig muxTag).numbits) →
      ∃ e, organizeMsgMux m = .error (.databaseError e)) := by
  have hmem : muxTag ∈ m.signals ∧ (m.getSig muxTag).is_multiplexor = true := by
    have h2 := muxScan_mx m m.signals ((0 : Nat), (none : Option Nat), ([] : List Nat))
      muxTag (by simpa [muxScan] using hmx)
    rcases h2 with h2 | h2
    · exact h2
    · cases h2
  have hlt := hsig muxTag hmem.1
  have hml : (muxScan m).2.2 =
      m.signals.filter fun t => (m.getSig t).multiplex_value.isSome := by
    have h2 := muxScan_ml m m.signals ((0 : Nat), (none : Option Nat), ([] : List Nat))
    simpa [muxScan] using h2
  have hsome : ∀ t ∈ (muxScan m).2.2, (m.getSig t).multiplex_value.isSome = true := by
    rw [hml]
    intro t ht
    exact (List.mem_filter.mp ht).2
  have horg : organizeMsgMux m = organizeLoop muxTag (muxScan m).2.2 m := by
    simp only [organizeMsgMux, hone, hmx, if_true]
  constructor
  · intro hgood
    obtain ⟨m', hok, _, _, _, _, _, hmem2⟩ :=
      organizeLoop_total muxTag (muxScan m).2.2 m hlt hmem.2 hnd hsome hgood
    refine ⟨m', by rw [horg]; exact hok, ?_⟩
    intro t ht v hv
    exact ⟨(hmem2 t ht).1 v hv, (hmem2 t ht).2⟩
  · intro hbad
    obtain ⟨e, he⟩ := organizeLoop_err muxTag (muxScan m).2.2 m hlt hmem.2 hsome hbad
    exact ⟨e, by rw [horg]; exact he⟩

/-- Witness for `c4_single_mux` on `c4msg` (one multiplexor `Sel` at tag
0, one multiplexed signal `A` at tag 1 with selector 2, in range). -/
theorem c4_single_mux_witness :
    ∃ m', organizeMsgMux c4msg = .ok m' ∧
      ∀ t ∈ (muxScan c4msg).2.2, ∀ v, (c4msg.getSig t).multiplex_value = some v →
        ((v, v), t) ∈ (m'.getSig 0).switch ∧ t ∉ m'.signals := by
  have hml : (muxScan c4msg).2.2 = [1] := by decide
  refine (c4_single_mux c4msg 0 (by decide) (by decide) (by decide) (by decide)).1 ?_
  intro t ht v hv
  rw [hml, List.mem_singleton] at ht
  subst ht
  have h2 : (c4msg.getSig 1).multiplex_value = some 2 := by decide
  rw [h2] at hv
  cases hv
  decide

/-! ## The invariant walk: generic fold and store lemmas -/

theorem foldlME_inv {ε α β} {P : β → Prop} {f : β → α → Except ε β}
    (hf : ∀ b a b', P b → f b a = .ok b' → P b') :
    ∀ (l : List α) (b b' : β), P b → l.foldlM f b = .ok b' → P b'
  | [], b, b', hP, h => by
    simp only [List.foldlM] at h
    cases h
    exact hP
  | a :: l, b, b', hP, h => by
    simp only [List.foldlM] at h
    cases hfa : f b a with
    | error e =>
      rw [hfa] at h
      simp [Bind.bind, Except.bind] at h
    | ok b2 =>
      rw [hfa] at h
      simp only [Bind.bind, Except.bind] at h
      exact foldlME_inv hf l b2 b' (hf b a b2 hP hfa) h

theorem foldl_dictSet_keys_nodup [DecidableEq κ] {f : γ → κ} {g : γ → α} :
    ∀ (l : List γ) (d : List (κ × α)), (d.map Prod.fst).Nodup →
      ((l.foldl (fun acc x => dictSet acc (f x) (g x)) d).map Prod.fst).Nodup
  | [], _, h => h
  | x :: l, d, h =>
    foldl_dictSet_keys_nodup l (dictSet d (f x) (g x)) (dictSet_keys_nodup h)

theorem foldl_dictSet_values [DecidableEq κ] {P : α → Prop} {f : γ → κ} {g : γ → α} :
    ∀ (l : List γ) (d : List (κ × α)), (∀ p ∈ d, P p.2) → (∀ x ∈ l, P (g x)) →
      ∀ p ∈ l.foldl (fun acc x => dictSet acc (f x) (g x)) d, P p.2
  | [], _, hd, _, p, hp => hd p hp
  | x :: l, d, hd, hg, p, hp => by
    refine foldl_dictSet_values l (dictSet d (f x) (g x)) ?_
      (fun y hy => hg y (List.mem_cons_of_mem _ hy)) p hp
    intro q hq
    rcases mem_dictSet hq with rfl | hq2
    · exact hg x (List.mem_cons_self _ _)
    · exact hd q hq2

theorem getD_mem_of_lt : ∀ (l : List α) (i : Nat) (d : α), i < l.length → l.getD i d ∈ l
  | [], _, _, h => absurd h (by simp)
  | _ :: _, 0, _, _ => List.mem_cons_self _ _
  | _ :: xs, i + 1, d, h =>
    List.mem_cons_of_mem _ (getD_mem_of_lt xs i d (by simpa using h))

theorem map_proj_set [Inhabited α] (f : α → β) :
    ∀ (l : List α) (i : Nat) (a : α), f a = f (l.getD i default) →
      (l.set i a).map f = l.map f
  | [], _, _, _ => rfl
  | x :: _, 0, a, h => by
    simp only [List.set, List.map_cons]
    rw [show f a = f x from h]
  | _ :: xs, i + 1, a, h => by
    simp only [List.set, List.map_cons]
    rw [map_proj_set f xs i a h]

theorem getD_of_le : ∀ (l : List α) (i : Nat) (d : α), l.length ≤ i → l.getD i d = d
  | [], _, _, _ => rfl
  | _ :: _, 0, _, h => absurd h (by simp)
  | _ :: xs, i + 1, d, h => getD_of_le xs i d (by simpa using h)

theorem flatMap_congr_map (g : α → List β) :
    ∀ {l1 l2 : List α}, l1.map g = l2.map g → l1.flatMap g = l2.flatMap g
  | [], l2, h => by
    cases l2 with
    | nil => rfl
    | cons y ys => simp at h
  | x :: xs, l2, h => by
    cases l2 with
    | nil => simp at h
    | cons y ys =>
      simp only [List.map_cons, List.cons.injEq] at h
      rw [List.flatMap_cons, List.flatMap_cons, h.1,
        flatMap_congr_map g h.2]

/-! ## buildDict: properties of signal-name dictionaries -/

theorem buildDict_append (names : List String) (nm : String) :
    buildDict (names ++ [nm]) = dictSet (buildDict names) nm names.length := by
  unfold buildDict
  rw [List.enum_append, List.foldl_append]
  rfl

theorem buildDict_keys_nodup (names : List String) :
    ((buildDict names).map Prod.fst).Nodup :=
  foldl_dictSet_keys_nodup names.enum [] (by simp)

theorem buildDict_mem_spec {names : List String} :
    ∀ p ∈ buildDict names, p.2 < names.length ∧ names.getD p.2 "" = p.1 := by
  induction names using List.reverseRecOn with
  | nil => intro p hp; simp [buildDict] at hp
  | append_singleton xs x ih =>
    intro p hp
    rw [buildDict_append] at hp
    rcases mem_dictSet hp with h | h
    · subst h
      refine ⟨by simp, ?_⟩
      rw [List.getD_append_right xs [x] "" xs.length (le_refl _)]
      simp
    · have hs := ih p h
      refine ⟨by simp; omega, ?_⟩
      rw [List.getD_append xs [x] "" p.2 hs.1]
      exact hs.2

theorem buildDict_complete {names : List String} (hn : names.Nodup) :
    ∀ t, t < names.length → (names.getD t "", t) ∈ buildDict names := by
  induction names using List.reverseRecOn with
  | nil => intro t ht; simp at ht
  | append_singleton xs x ih =>
    intro t ht
    rw [buildDict_append]
    have hxs : xs.Nodup := (List.nodup_append.mp hn).1
    have hxnot : x ∉ xs := by
      intro hx
      exact (List.nodup_append.mp hn).2.2 hx (List.mem_singleton_self x)
    by_cases he : t = xs.length
    · subst he
      have hget : (xs ++ [x]).getD xs.length "" = x := by
        rw [List.getD_append_right xs [x] "" xs.length (le_refl _)]
        simp
      rw [hget]
      have hkey : x ∉ (buildDict xs).map Prod.fst := by
        intro hk
        rcases List.mem_map.mp hk with ⟨q, hq, hqe⟩
        have hs := buildDict_mem_spec q hq
        apply hxnot
        rw [← hqe, ← hs.2]
        exact getD_mem_of_lt xs q.2 "" hs.1
      rw [dictSet_of_not_mem _ hkey]
      exact List.mem_append_right _ (List.mem_singleton_self _)
    · have ht' : t < xs.length := by
        simp at ht
        omega
      have hget : (xs ++ [x]).getD t "" = xs.getD t "" :=
        List.getD_append xs [x] "" t ht'
      rw [hget]
      refine mem_dictSet_of_ne (ih hxs t ht') ?_
      intro hkey
      apply hxnot
      rw [← hkey]
      exact getD_mem_of_lt xs t "" ht'

/-! ## MsgInv preservation under the builder's message updates -/

theorem sigInv_default : SigInv (default : Signal) :=
  ⟨List.nodup_nil, List.nodup_nil⟩

theorem getSig_sigInv {m : Message} (h : MsgInv m) (t : Nat) :
    SigInv (m.getSig t) := by
  by_cases hlt : t < m.store.length
  · exact h.sigs _ (getD_mem_of_lt _ _ _ hlt)
  · rw [Message.getSig, getD_of_le _ _ _ (le_of_not_lt hlt)]
    exact sigInv_default

theorem getSig_switch_lt {m : Message} (h : MsgInv m) (t : Nat) :
    ∀ e ∈ (m.getSig t).switch, e.2 < m.store.length := by
  by_cases hlt : t < m.store.length
  · exact h.switch_lt _ (getD_mem_of_lt _ _ _ hlt)
  · intro e he
    rw [Message.getSig, getD_of_le _ _ _ (le_of_not_lt hlt)] at he
    exact absurd he (List.not_mem_nil e)

theorem msgInv_mkNew (id : Nat) (name : String) (size : Nat) (tx : String) :
    MsgInv (Message.mkNew id name size tx) := by
  refine ⟨List.nodup_singleton tx, List.nodup_nil, List.nodup_nil, ?_, List.nodup_nil,
    rfl, ?_, ?_⟩
  · intro t ht; exact absurd ht (List.not_mem_nil t)
  · intro s hs; exact absurd hs (List.not_mem_nil s)
  · intro s hs; exact absurd hs (List.not_mem_nil s)

theorem msgCover_mkNew (id : Nat) (name : String) (size : Nat) (tx : String) :
    MsgCover (Message.mkNew id name size tx) := by
  intro t ht
  exact absurd ht (by simp [Message.mkNew])

theorem msgInv_appendSig {m : Message} (h : MsgInv m) {s : Signal}
    (hsw : s.switch = []) (hsinv : SigInv s) :
    MsgInv (m.appendSig s) := by
  have hd : (m.appendSig s).signals_dict
      = buildDict ((m.appendSig s).store.map (·.name)) := by
    show dictSet m.signals_dict s.name m.store.length
      = buildDict ((m.store ++ [s]).map (·.name))
    rw [List.map_append, List.map_singleton, buildDict_append, ← h.dict_eq,
      List.length_map]
  refine ⟨h.tx_nodup, h.attrs_nodup, h.groups_nodup, ?_, ?_, hd, ?_, ?_⟩
  · intro t ht
    rcases List.mem_append.mp ht with h2 | h2
    · have := h.sig_lt t h2
      simp only [Message.appendSig, List.length_append, List.length_singleton]
      omega
    · rw [List.mem_singleton.mp h2]
      simp [Message.appendSig]
  · refine List.Nodup.append h.sig_nodup (List.nodup_singleton _) ?_
    intro t ht ht2
    have := h.sig_lt t ht
    rw [List.mem_singleton.mp ht2] at this
    omega
  · intro q hq e he
    rcases List.mem_append.mp hq with h2 | h2
    · have := h.switch_lt q h2 e he
      simp only [Message.appendSig, List.length_append, List.length_singleton]
      omega
    · rw [List.mem_singleton.mp h2, hsw] at he
      exact absurd he (List.not_mem_nil e)
  · intro q hq
    rcases List.mem_append.mp hq with h2 | h2
    · exact h.sigs q h2
    · rw [List.mem_singleton.mp h2]
      exact hsinv

theorem msgCover_appendSig {m : Message} (h : MsgCover m) (s : Signal) :
    MsgCover (m.appendSig s) := by
  intro t ht
  simp only [Message.appendSig, List.length_append, List.length_singleton] at ht
  by_cases he : t = m.store.length
  · subst he
    apply List.mem_append_left
    show m.store.length ∈ m.signals ++ [m.store.length]
    exact List.mem_append_right _ (List.mem_singleton_self _)
  · have := h t (by omega)
    rcases List.mem_append.mp this with h2 | h2
    · exact List.mem_append_left _ (List.mem_append_left _ h2)
    · apply List.mem_append_right
      rcases List.mem_flatMap.mp h2 with ⟨q, hq, ht2⟩
      exact List.mem_flatMap.mpr ⟨q, List.mem_append_left _ hq, ht2⟩

theorem reach_setSig {m : Message} {t : Nat} {s : Signal}
    (hsw : s.switch = (m.getSig t).switch) :
    reachTags (m.setSig t s) = reachTags m := by
  show m.signals ++ (m.store.set t s).flatMap (fun x => x.switch.map (·.2))
    = m.signals ++ m.store.flatMap (fun x => x.switch.map (·.2))
  congr 1
  apply flatMap_congr_map
  have hx : (fun x : Signal => x.switch.map (·.2)) s
      = (fun x : Signal => x.switch.map (·.2)) (m.store.getD t default) := by
    show s.switch.map (·.2) = (m.getSig t).switch.map (·.2)
    rw [hsw]
  exact map_proj_set _ m.store t s hx

theorem msgCover_setSig {m : Message} (h : MsgCover m) (t : Nat) {s : Signal}
    (hsw : s.switch = (m.getSig t).switch) :
    MsgCover (m.setSig t s) := by
  intro q hq
  rw [show (m.setSig t s).store.length = m.store.length from
    List.length_set m.store t s] at hq
  rw [reach_setSig hsw]
  exact h q hq

theorem msgInv_setSig {m : Message} (h : MsgInv m) (t : Nat) {s : Signal}
    (hname : s.name = (m.getSig t).name)
    (hsw : s.switch = (m.getSig t).switch)
    (hsinv : SigInv s) :
    MsgInv (m.setSig t s) := by
  have hnames : (m.store.set t s).map (fun x => x.name)
      = m.store.map (fun x => x.name) :=
    map_proj_set _ m.store t s hname
  have hlen : (m.setSig t s).store.length = m.store.length := by
    show (m.store.set t s).length = m.store.length
    exact List.length_set m.store t s
  have hmemlt : ∀ q ∈ m.store.set t s, ∀ e ∈ q.switch, e.2 < m.store.length := by
    intro q hq e he
    rcases List.mem_or_eq_of_mem_set hq with h2 | h2
    · exact h.switch_lt q h2 e he
    · subst h2
      rw [hsw] at he
      exact getSig_switch_lt h t e he
  refine ⟨h.tx_nodup, h.attrs_nodup, h.groups_nodup, ?_, h.sig_nodup, ?_, ?_, ?_⟩
  · intro q hq
    rw [hlen]
    exact h.sig_lt q hq
  · show m.signals_dict = buildDict ((m.store.set t s).map (·.name))
    rw [show ((m.store.set t s).map (·.name) : List String)
      = m.store.map (·.name) from hnames]
    exact h.dict_eq
  · intro q hq e he
    rw [hlen]
    exact hmemlt q hq e he
  · intro q hq
    rcases List.mem_or_eq_of_mem_set hq with h2 | h2
    · exact h.sigs q h2
    · subst h2
      exact hsinv

theorem msgInv_set_comments {m : Message} (h : MsgInv m) (c : List String) :
    MsgInv { m with comments := c } :=
  ⟨h.tx_nodup, h.attrs_nodup, h.groups_nodup, h.sig_lt, h.sig_nodup, h.dict_eq,
   h.switch_lt, h.sigs⟩

theorem msgInv_set_attrs {m : Message} (h : MsgInv m) {a : List (String × PyVal)}
    (ha : (a.map Prod.fst).Nodup) :
    MsgInv { m with attributes := a } :=
  ⟨h.tx_nodup, ha, h.groups_nodup, h.sig_lt, h.sig_nodup, h.dict_eq,
   h.switch_lt, h.sigs⟩

theorem msgInv_set_groups {m : Message} (h : MsgInv m)
    {g : List (String × SignalGroup)} (hg : (g.map Prod.fst).Nodup) :
    MsgInv { m with signal_groups := g } :=
  ⟨h.tx_nodup, h.attrs_nodup, hg, h.sig_lt, h.sig_nodup, h.dict_eq,
   h.switch_lt, h.sigs⟩

theorem msgInv_set_tx {m : Message} (h : MsgInv m) {tx : List String}
    (htx : tx.Nodup) :
    MsgInv { m with transmitters := tx } :=
  ⟨htx, h.attrs_nodup, h.groups_nodup, h.sig_lt, h.sig_nodup, h.dict_eq,
   h.switch_lt, h.sigs⟩

/-! ## More generic list machinery for the construction walk -/

theorem foldlME_inv_mem {ε α β} {P : β → Prop} {f : β → α → Except ε β} :
    ∀ (l : List α), (∀ b a b', a ∈ l → P b → f b a = .ok b' → P b') →
      ∀ (b b' : β), P b → l.foldlM f b = .ok b' → P b'
  | [], _, b, b', hP, h => by
    simp only [List.foldlM] at h
    cases h
    exact hP
  | a :: l, hf, b, b', hP, h => by
    simp only [List.foldlM] at h
    cases hfa : f b a with
    | error e =>
      rw [hfa] at h
      simp [Bind.bind, Except.bind] at h
    | ok b2 =>
      rw [hfa] at h
      simp only [Bind.bind, Except.bind] at h
      exact foldlME_inv_mem l
        (fun b3 a2 b4 ha2 => hf b3 a2 b4 (List.mem_cons_of_mem _ ha2)) b2 b'
        (hf b a b2 (List.mem_cons_self _ _) hP hfa) h

theorem eraseDups_loop_nil [BEq α] : ∀ (as bs : List α),
    List.eraseDups.loop as bs = [] → bs = []
  | [], bs, h => by
    unfold List.eraseDups.loop at h
    simpa using h
  | a :: as, bs, h => by
    unfold List.eraseDups.loop at h
    split at h
    · exact eraseDups_loop_nil as bs h
    · have := eraseDups_loop_nil as (a :: bs) h
      simp at this

theorem eraseDups_eq_nil [BEq α] : ∀ {l : List α}, l.eraseDups = [] → l = []
  | [], _ => rfl
  | a :: as, h => by
    have h2 : List.eraseDups.loop as [a] = [] := h
    have := eraseDups_loop_nil as [a] h2
    simp at this

theorem setSub_eq_nil_iff [DecidableEq κ] {a b : List κ} :
    setSub a b = [] ↔ ∀ x ∈ a, x ∈ b := by
  constructor
  · intro h x hx
    have hf : (a.filter fun x => decide ¬ x ∈ b) = [] := by
      by_contra hne
      cases hq : a.filter fun x => decide ¬ x ∈ b with
      | nil => exact hne hq
      | cons y ys =>
        have : setSub a b = (y :: ys).eraseDups := by
          unfold setSub
          rw [hq]
        rw [this] at h
        have := eraseDups_eq_nil h
        simp at this
    by_contra hnb
    have : x ∈ a.filter fun x => decide ¬ x ∈ b :=
      List.mem_filter.mpr ⟨hx, by simpa using hnb⟩
    rw [hf] at this
    exact absurd this (List.not_mem_nil x)
  · intro h
    unfold setSub
    have hf : (a.filter fun x => decide ¬ x ∈ b) = [] := by
      rw [List.filter_eq_nil]
      intro x hx
      simpa using h x hx
    rw [hf]
    rfl

theorem flatMap_set_superset (g : α → List β) [Inhabited α] :
    ∀ (l : List α) (i : Nat) (a : α), (∀ x ∈ g (l.getD i default), x ∈ g a) →
      ∀ q ∈ l.flatMap g, q ∈ (l.set i a).flatMap g
  | [], _, _, _, q, hq => by simp at hq
  | x :: xs, 0, a, hsub, q, hq => by
    rw [List.flatMap_cons] at hq
    simp only [List.set]
    rw [List.flatMap_cons]
    rcases List.mem_append.mp hq with h | h
    · exact List.mem_append_left _ (hsub q h)
    · exact List.mem_append_right _ h
  | x :: xs, i + 1, a, hsub, q, hq => by
    rw [List.flatMap_cons] at hq
    simp only [List.set]
    rw [List.flatMap_cons]
    rcases List.mem_append.mp hq with h | h
    · exact List.mem_append_left _ h
    · exact List.mem_append_right _ (flatMap_set_superset g xs i a hsub q h)

theorem mem_switchAppend_elim {sw : List SwEntry} {r : Nat × Nat} {t : Nat}
    {e : SwEntry} (h : e ∈ switchAppend sw r t) : e ∈ sw ∨ e = (r, t) := by
  unfold switchAppend at h
  split at h
  · exact Or.inl h
  · rcases List.mem_append.mp h with h2 | h2
    · exact Or.inl h2
    · exact Or.inr (List.mem_singleton.mp h2)

theorem mem_foldl_switchAppend {t : Nat} :
    ∀ (l : List (Nat × Nat)) (sw : List SwEntry) (e : SwEntry),
      e ∈ l.foldl (fun sw r => switchAppend sw r t) sw → e ∈ sw ∨ e.2 = t
  | [], _, _, h => Or.inl h
  | r :: l, sw, e, h => by
    rcases mem_foldl_switchAppend l (switchAppend sw r t) e h with h2 | h2
    · rcases mem_switchAppend_elim h2 with h3 | h3
      · exact Or.inl h3
      · subst h3
        exact Or.inr rfl
    · exact Or.inr h2

theorem foldl_switchAppend_sub {t : Nat} :
    ∀ (l : List (Nat × Nat)) (sw : List SwEntry) (e : SwEntry),
      e ∈ sw → e ∈ l.foldl (fun sw r => switchAppend sw r t) sw
  | [], _, _, h => h
  | r :: l, sw, e, h =>
    foldl_switchAppend_sub l (switchAppend sw r t) e (mem_switchAppend_of_mem _ _ _ h)

theorem mem_set_self [Inhabited α] {l : List α} {i : Nat} (a : α)
    (h : i < l.length) : a ∈ l.set i a := by
  have h2 : i < (l.set i a).length := by
    rw [List.length_set]
    exact h
  have hm := getD_mem_of_lt (l.set i a) i default h2
  rwa [getD_set_self l i a default h] at hm

/-- Transport `MsgCover` across an update that keeps `store` and
`signals`. -/
theorem msgCover_of_eq {m m' : Message} (hst : m'.store = m.store)
    (hsig : m'.signals = m.signals) (h : MsgCover m) : MsgCover m' := by
  intro t ht
  rw [hst] at ht
  show t ∈ m'.signals ++ m'.store.flatMap fun s => s.switch.map (·.2)
  rw [hst, hsig]
  exact h t ht

/-- `msgCover_of_eq` with the covered message given first (fixes the
elaboration order at use sites). -/
theorem msgCover_of_eq2 {m m' : Message} (h : MsgCover m) (hst : m'.store = m.store)
    (hsig : m'.signals = m.signals) : MsgCover m' :=
  msgCover_of_eq hst hsig h

theorem names_of_store_eq {m m' : Message} (hn : ((m.store.map (·.name)).Nodup))
    (hst : m'.store = m.store) : ((m'.store.map (·.name)).Nodup) := by
  rw [hst]
  exact hn

theorem names_setSig {m : Message} {t : Nat} {s : Signal}
    (hname : s.name = (m.getSig t).name)
    (hn : ((m.store.map (·.name)).Nodup)) :
    (((m.setSig t s).store.map (·.name)).Nodup) := by
  show (((m.store.set t s).map (·.name)).Nodup)
  rw [show ((m.store.set t s).map (·.name) : List String)
    = m.store.map (·.name) from map_proj_set _ m.store t s hname]
  exact hn

/-- A tag found in `signals_dict` is a valid store index. -/
theorem tag_lt_of_lookup {m : Message} (h : MsgInv m) {nm : String} {t : Nat}
    (hl : dictLookup m.signals_dict nm = some t) : t < m.store.length := by
  have hm := dictLookup_mem hl
  rw [h.dict_eq] at hm
  have := (buildDict_mem_spec _ hm).1
  simpa using this

/-! ## Bus-level update helpers -/

theorem busInv_withMsg {b : Bus} (h : BusInv b) (id : Nat) {m' : Message}
    (hm' : MsgInv m') : BusInv (b.withMsg id m') := by
  refine ⟨h.btr_iff, h.nodes_nodup, h.node_attrs, h.gv_nodup, h.gv_inner, ?_, ?_,
    h.td_nodup, h.td_inner, h.defaults_nodup, h.attrs_nodup⟩
  · exact dictSet_keys_nodup h.msgs_nodup
  · intro p hp
    rcases mem_dictSet hp with rfl | hp2
    · exact hm'
    · exact h.msgs p hp2

theorem busCover_withMsg {b : Bus} (h : BusCover b) (id : Nat) {m' : Message}
    (hm' : MsgCover m') : BusCover (b.withMsg id m') := by
  intro p hp
  rcases mem_dictSet hp with rfl | hp2
  · exact hm'
  · exact h p hp2

theorem busNames_withMsg {b : Bus} (h : BusNames b) (id : Nat) {m' : Message}
    (hm' : ((m'.store.map (·.name)).Nodup)) : BusNames (b.withMsg id m') := by
  intro p hp
  rcases mem_dictSet hp with rfl | hp2
  · exact hm'
  · exact h p hp2

theorem busInv_msg {b : Bus} (h : BusInv b) {id : Nat} {m : Message}
    (hl : dictLookup b.messages id = some m) : MsgInv m :=
  h.msgs (id, m) (dictLookup_mem hl)

theorem busCover_msg {b : Bus} (h : BusCover b) {id : Nat} {m : Message}
    (hl : dictLookup b.messages id = some m) : MsgCover m :=
  h (id, m) (dictLookup_mem hl)

theorem busNames_msg {b : Bus} (h : BusNames b) {id : Nat} {m : Message}
    (hl : dictLookup b.messages id = some m) : ((m.store.map (·.name)).Nodup) :=
  h (id, m) (dictLookup_mem hl)

/-! ## Preservation of the invariants by each construction step -/

theorem addValTable_pres {gv gv' : List (String × List (Int × String))}
    {tab : String × List (Int × String)}
    (hs : addValTable gv tab = .ok gv')
    (h1 : (gv.map Prod.fst).Nodup) (h2 : ∀ p ∈ gv, (p.2.map Prod.fst).Nodup) :
    (gv'.map Prod.fst).Nodup ∧ ∀ p ∈ gv', (p.2.map Prod.fst).Nodup := by
  unfold addValTable at hs
  split at hs
  · cases hs
  · cases hs
    constructor
    · exact dictSet_keys_nodup h1
    · intro p hp
      rcases mem_dictSet hp with rfl | hp2
      · exact foldl_dictSet_keys_nodup _ [] (by simp)
      · exact h2 p hp2

theorem foldl_appendSig_inv :
    ∀ (l : List SigDict) (m : Message), MsgInv m →
      MsgInv (l.foldl (fun m sd => m.appendSig (Signal.ofDict sd)) m)
  | [], _, h => h
  | _ :: l, _, h =>
    foldl_appendSig_inv l _
      (msgInv_appendSig h rfl ⟨List.nodup_nil, List.nodup_nil⟩)

theorem foldl_appendSig_cover :
    ∀ (l : List SigDict) (m : Message), MsgCover m →
      MsgCover (l.foldl (fun m sd => m.appendSig (Signal.ofDict sd)) m)
  | [], _, h => h
  | _ :: l, _, h => foldl_appendSig_cover l _ (msgCover_appendSig h _)

theorem foldl_appendSig_store :
    ∀ (l : List SigDict) (m : Message),
      (l.foldl (fun m sd => m.appendSig (Signal.ofDict sd)) m).store
        = m.store ++ l.map Signal.ofDict
  | [], m => by simp
  | sd :: l, m => by
    rw [List.foldl_cons, foldl_appendSig_store l _]
    show (m.store ++ [Signal.ofDict sd]) ++ _ = _
    rw [List.append_assoc]
    rfl

theorem addMessage_pres {msgs msgs' : List (Nat × Message)} {d : BoDict}
    (hs : addMessage msgs d = .ok msgs')
    (h1 : (msgs.map Prod.fst).Nodup) (h2 : ∀ p ∈ msgs, MsgInv p.2)
    (h3 : ∀ p ∈ msgs, MsgCover p.2) :
    (msgs'.map Prod.fst).Nodup ∧ (∀ p ∈ msgs', MsgInv p.2) ∧
      (∀ p ∈ msgs', MsgCover p.2) ∧
      ((d.signals.map SigDict.name).Nodup →
        (∀ p ∈ msgs, ((p.2.store.map (·.name)).Nodup)) →
        ∀ p ∈ msgs', ((p.2.store.map (·.name)).Nodup)) := by
  unfold addMessage at hs
  split at hs
  · cases hs
  · cases hs
    refine ⟨dictSet_keys_nodup h1, ?_, ?_, ?_⟩
    · intro p hp
      rcases mem_dictSet hp with rfl | hp2
      · exact foldl_appendSig_inv d.signals _ (msgInv_mkNew _ _ _ _)
      · exact h2 p hp2
    · intro p hp
      rcases mem_dictSet hp with rfl | hp2
      · exact foldl_appendSig_cover d.signals _ (msgCover_mkNew _ _ _ _)
      · exact h3 p hp2
    · intro hn h4 p hp
      rcases mem_dictSet hp with rfl | hp2
      · show ((((d.signals.foldl (fun (m : Message) sd => m.appendSig (Signal.ofDict sd))
          (Message.mkNew d.id d.name d.size d.transmitter)).store.map (·.name)).Nodup))
        rw [foldl_appendSig_store]
        show (((([] : List Signal) ++ d.signals.map Signal.ofDict).map (·.name)).Nodup)
        rw [List.nil_append, List.map_map]
        exact hn
      · exact h4 p hp2

theorem addTx_pres {nodes : List (String × NodeInfo)} {m : Message} {tx : String}
    {m' : Message} (hs : addTx nodes m tx = .ok m') (h : MsgInv m) :
    MsgInv m' ∧ m'.store = m.store ∧ m'.signals = m.signals := by
  unfold addTx at hs
  split at hs
  · cases hs
  · split at hs
    · cases hs
      exact ⟨h, rfl, rfl⟩
    · rename_i hmem
      cases hs
      refine ⟨msgInv_set_tx h ?_, rfl, rfl⟩
      refine List.Nodup.append h.tx_nodup (List.nodup_singleton _) ?_
      intro x hx hx2
      rw [List.mem_singleton.mp hx2] at hx
      exact hmem hx

theorem applyBoTxBu1_pres {b b' : Bus} {c : Nat × List String}
    (hs : applyBoTxBu1 b c = .ok b') (h : BusInv b) :
    BusInv b' ∧ (BusCover b → BusCover b') ∧ (BusNames b → BusNames b') := by
  unfold applyBoTxBu1 at hs
  split at hs
  · cases hs
  · rename_i msg hl
    cases hf : c.2.foldlM (addTx b.nodes) msg with
    | error e =>
      rw [hf] at hs
      simp [Bind.bind, Except.bind] at hs
    | ok msg' =>
      rw [hf] at hs
      simp only [Bind.bind, Except.bind] at hs
      cases hs
      have hq : MsgInv msg' ∧ msg'.store = msg.store ∧ msg'.signals = msg.signals := by
        refine @foldlME_inv_mem BErr String Message
          (fun m2 => MsgInv m2 ∧ m2.store = msg.store ∧ m2.signals = msg.signals)
          (addTx b.nodes) c.2 ?_ msg msg' ⟨busInv_msg h hl, rfl, rfl⟩ hf
        intro m1 tx m2 _ hP hstep
        obtain ⟨hi, hst, hsg⟩ := addTx_pres hstep hP.1
        exact ⟨hi, hst.trans hP.2.1, hsg.trans hP.2.2⟩
      refine ⟨busInv_withMsg h _ hq.1, ?_, ?_⟩
      · intro hc
        exact busCover_withMsg hc _
          (msgCover_of_eq hq.2.1 hq.2.2 (busCover_msg hc hl))
      · intro hn
        refine busNames_withMsg hn _ ?_
        rw [hq.2.1]
        exact busNames_msg hn hl

theorem applyCm1_pres {b b' : Bus} {c : CmSpec}
    (hs : applyCm1 b c = .ok b') (h : BusInv b) :
    BusInv b' ∧ (BusCover b → BusCover b') ∧ (BusNames b → BusNames b') := by
  cases c with
  | glob s =>
    simp only [applyCm1] at hs
    cases hs
    exact ⟨⟨h.btr_iff, h.nodes_nodup, h.node_attrs, h.gv_nodup, h.gv_inner,
      h.msgs_nodup, h.msgs, h.td_nodup, h.td_inner, h.defaults_nodup, h.attrs_nodup⟩,
      fun hc => hc, fun hn => hn⟩
  | bu name s =>
    simp only [applyCm1] at hs
    split at hs
    · rename_i ni hl
      cases hs
      refine ⟨⟨h.btr_iff, dictSet_keys_nodup h.nodes_nodup, ?_, h.gv_nodup, h.gv_inner,
        h.msgs_nodup, h.msgs, h.td_nodup, h.td_inner, h.defaults_nodup, h.attrs_nodup⟩,
        fun hc => hc, fun hn => hn⟩
      intro p hp
      rcases mem_dictSet hp with rfl | hp2
      · exact h.node_attrs (name, ni) (dictLookup_mem hl)
      · exact h.node_attrs p hp2
    · cases hs
  | bo id s =>
    simp only [applyCm1] at hs
    split at hs
    · rename_i m hl
      cases hs
      exact ⟨busInv_withMsg h _ (msgInv_set_comments (busInv_msg h hl) _),
        fun hc => busCover_withMsg hc _ (msgCover_of_eq2 (busCover_msg hc hl) rfl rfl),
        fun hn => busNames_withMsg hn _ (names_of_store_eq (busNames_msg hn hl) rfl)⟩
    · cases hs
  | sg id name s =>
    simp only [applyCm1] at hs
    split at hs
    · rename_i m hl
      split at hs
      · rename_i t hlt
        cases hs
        have hm := busInv_msg h hl
        refine ⟨busInv_withMsg h _ ?_, fun hc => busCover_withMsg hc _
          (msgCover_setSig (busCover_msg hc hl) t rfl),
          fun hn => busNames_withMsg hn _ (names_setSig rfl (busNames_msg hn hl))⟩
        exact msgInv_setSig hm t rfl rfl
          ⟨(getSig_sigInv hm t).attrs_nodup, (getSig_sigInv hm t).vdesc_nodup⟩
      · cases hs
    · cases hs
  | ev a s =>
    simp only [applyCm1] at hs
    cases hs

theorem applyBaDef1_pres {b b' : Bus} {c : String × String × BaTyp}
    (hs : applyBaDef1 b c = .ok b') (h : BusInv b) :
    BusInv b' ∧ (BusCover b → BusCover b') ∧ (BusNames b → BusNames b') := by
  unfold applyBaDef1 at hs
  split at hs
  · cases hs
  · rename_i d hl
    split at hs
    · cases hs
    · cases hs
      refine ⟨⟨h.btr_iff, h.nodes_nodup, h.node_attrs, h.gv_nodup, h.gv_inner,
        h.msgs_nodup, h.msgs, dictSet_keys_nodup h.td_nodup, ?_, h.defaults_nodup,
        h.attrs_nodup⟩, fun hc => hc, fun hn => hn⟩
      intro p hp
      rcases mem_dictSet hp with rfl | hp2
      · exact dictSet_keys_nodup (h.td_inner (c.1, d) (dictLookup_mem hl))
      · exact h.td_inner p hp2

theorem applyBaDefDef1_pres {b b' : Bus} {c : String × PyVal}
    (hs : applyBaDefDef1 b c = .ok b') (h : BusInv b) :
    BusInv b' ∧ (BusCover b → BusCover b') ∧ (BusNames b → BusNames b') := by
  unfold applyBaDefDef1 at hs
  split at hs
  · cases hs
  · cases hs
    exact ⟨⟨h.btr_iff, h.nodes_nodup, h.node_attrs, h.gv_nodup, h.gv_inner,
      h.msgs_nodup, h.msgs, h.td_nodup, h.td_inner,
      dictSet_keys_nodup h.defaults_nodup, h.attrs_nodup⟩,
      fun hc => hc, fun hn => hn⟩

theorem applyBa1_pres {b b' : Bus} {c : String × BaDesc × PyVal}
    (hs : applyBa1 b c = .ok b') (h : BusInv b) :
    BusInv b' ∧ (BusCover b → BusCover b') ∧ (BusNames b → BusNames b') := by
  obtain ⟨nm, desc, val⟩ := c
  cases desc with
  | glob =>
    simp only [applyBa1] at hs
    split at hs
    · cases hs
    · cases hs
      exact ⟨⟨h.btr_iff, h.nodes_nodup, h.node_attrs, h.gv_nodup, h.gv_inner,
        h.msgs_nodup, h.msgs, h.td_nodup, h.td_inner, h.defaults_nodup,
        dictSet_keys_nodup h.attrs_nodup⟩, fun hc => hc, fun hn => hn⟩
  | bu node =>
    simp only [applyBa1] at hs
    split at hs
    · cases hs
    · rename_i ni hl
      split at hs
      · cases hs
      · cases hs
        refine ⟨⟨h.btr_iff, dictSet_keys_nodup h.nodes_nodup, ?_, h.gv_nodup,
          h.gv_inner, h.msgs_nodup, h.msgs, h.td_nodup, h.td_inner,
          h.defaults_nodup, h.attrs_nodup⟩, fun hc => hc, fun hn => hn⟩
        intro p hp
        rcases mem_dictSet hp with rfl | hp2
        · exact dictSet_keys_nodup (h.node_attrs (node, ni) (dictLookup_mem hl))
        · exact h.node_attrs p hp2
  | bo id =>
    simp only [applyBa1] at hs
    split at hs
    · cases hs
    · rename_i m hl
      split at hs
      · cases hs
      · cases hs
        exact ⟨busInv_withMsg h _ (msgInv_set_attrs (busInv_msg h hl)
            (dictSet_keys_nodup (busInv_msg h hl).attrs_nodup)),
          fun hc => busCover_withMsg hc _ (msgCover_of_eq2 (busCover_msg hc hl) rfl rfl),
          fun hn => busNames_withMsg hn _ (names_of_store_eq (busNames_msg hn hl) rfl)⟩
  | sg id sname =>
    simp only [applyBa1] at hs
    split at hs
    · cases hs
    · split at hs
      · cases hs
      · split at hs
        · cases hs
        · cases hs
          exact ⟨h, fun hc => hc, fun hn => hn⟩
  | ev s =>
    simp only [applyBa1] at hs
    cases hs

theorem applyValDesc1_pres {b b' : Bus} {c : Nat × String × List (Int × String)}
    (hs : applyValDesc1 b c = .ok b') (h : BusInv b) :
    BusInv b' ∧ (BusCover b → BusCover b') ∧ (BusNames b → BusNames b') := by
  unfold applyValDesc1 at hs
  split at hs
  · cases hs
  · rename_i m hl
    split at hs
    · cases hs
    · rename_i t hlt
      cases hs
      have hm := busInv_msg h hl
      refine ⟨busInv_withMsg h _ ?_, fun hc => busCover_withMsg hc _
        (msgCover_setSig (busCover_msg hc hl) t rfl),
        fun hn => busNames_withMsg hn _ (names_setSig rfl (busNames_msg hn hl))⟩
      refine msgInv_setSig hm t rfl rfl ⟨(getSig_sigInv hm t).attrs_nodup, ?_⟩
      exact foldl_dictSet_keys_nodup _ _ (getSig_sigInv hm t).vdesc_nodup

theorem applySigGroup1_pres {b b' : Bus} {c : Nat × String × Nat × List String}
    (hs : applySigGroup1 b c = .ok b') (h : BusInv b) :
    BusInv b' ∧ (BusCover b → BusCover b') ∧ (BusNames b → BusNames b') := by
  unfold applySigGroup1 at hs
  split at hs
  · cases hs
  · rename_i m hl
    split at hs
    · cases hs
    · replace hs : (if ((c.2.2.2.foldl (fun acc n => if n ∈ acc then acc else acc ++ [n])
            ([] : List String)).any fun n => decide (¬ dictMem m.signals_dict n = true)) = true
          then Except.error BErr.nameError
          else Except.ok (b.withMsg c.1 { m with signal_groups := dictSet m.signal_groups c.2.1 ⟨c.2.2.1, c.2.2.2.foldl (fun acc n => if n ∈ acc then acc else acc ++ [n]) []⟩ }))
          = Except.ok b' := hs
      split at hs
      · cases hs
      · cases hs
        exact ⟨busInv_withMsg h _ (msgInv_set_groups (busInv_msg h hl)
            (dictSet_keys_nodup (busInv_msg h hl).groups_nodup)),
          fun hc => busCover_withMsg hc _ (msgCover_of_eq2 (busCover_msg hc hl) rfl rfl),
          fun hn => busNames_withMsg hn _ (names_of_store_eq (busNames_msg hn hl) rfl)⟩

theorem applySigValtype1_pres {b b' : Bus} {c : Nat × String × Nat}
    (hs : applySigValtype1 b c = .ok b') (h : BusInv b) :
    BusInv b' ∧ (BusCover b → BusCover b') ∧ (BusNames b → BusNames b') := by
  unfold applySigValtype1 at hs
  split at hs
  · cases hs
  · rename_i m hl
    split at hs
    · cases hs
    · rename_i t hlt
      cases hs
      have hm := busInv_msg h hl
      refine ⟨busInv_withMsg h _ ?_, fun hc => busCover_withMsg hc _
        (msgCover_setSig (busCover_msg hc hl) t rfl),
        fun hn => busNames_withMsg hn _ (names_setSig rfl (busNames_msg hn hl))⟩
      exact msgInv_setSig hm t rfl rfl
        ⟨(getSig_sigInv hm t).attrs_nodup, (getSig_sigInv hm t).vdesc_nodup⟩


/-! ## The multiplex-reconstruction steps -/

theorem tag_lt_of_mv {m : Message} {t v : Nat}
    (hv : (m.getSig t).multiplex_value = some v) : t < m.store.length := by
  by_cases hlt : t < m.store.length
  · exact hlt
  · rw [Message.getSig, getD_of_le _ _ _ (le_of_not_lt hlt)] at hv
    exact Option.noConfusion hv

theorem tag_lt_of_multiplexes {m : Message} {u v : Nat}
    (hm : (m.getSig u).multiplexes v = true) : u < m.store.length := by
  by_cases hlt : u < m.store.length
  · exact hlt
  · rw [Message.getSig, getD_of_le _ _ _ (le_of_not_lt hlt)] at hm
    have hd : (default : Signal).is_multiplexor = false := rfl
    simp [Signal.multiplexes, hd] at hm

/-- The common shape of lines 831-838 and 869-877: replace the multiplexor
at `muxTag` by a copy with an extended switch and drop tag `t` from the
top-level list.  All `MsgInv` components survive. -/
theorem msgInv_erase_resw (m : Message) (muxTag t : Nat) (s' : Signal)
    (h : MsgInv m) (ht : t < m.store.length) (hmux : muxTag < m.store.length)
    (hname : s'.name = (m.getSig muxTag).name) (hsi : SigInv s')
    (htag : ∀ e ∈ s'.switch, e ∈ (m.getSig muxTag).switch ∨ e.2 = t) :
    MsgInv { m.setSig muxTag s' with
      signals := (m.setSig muxTag s').signals.erase t } := by
  have hlen : (m.setSig muxTag s').store.length = m.store.length :=
    setSig_store_length m muxTag s'
  refine ⟨h.tx_nodup, h.attrs_nodup, h.groups_nodup, ?_, ?_, ?_, ?_, ?_⟩
  · intro q hq
    have hq2 : q ∈ m.signals := List.mem_of_mem_erase hq
    show q < (m.setSig muxTag s').store.length
    rw [hlen]
    exact h.sig_lt q hq2
  · exact List.Nodup.erase t h.sig_nodup
  · show m.signals_dict = buildDict ((m.store.set muxTag s').map (·.name))
    rw [show (((m.store.set muxTag s').map (·.name)) : List String)
      = m.store.map (·.name) from map_proj_set _ m.store muxTag s' hname]
    exact h.dict_eq
  · intro q hq e he
    show e.2 < (m.setSig muxTag s').store.length
    rw [hlen]
    rcases List.mem_or_eq_of_mem_set hq with h2 | h2
    · exact h.switch_lt q h2 e he
    · subst h2
      rcases htag e he with h3 | h3
      · exact h.switch_lt (m.getSig muxTag) (getD_mem_of_lt _ _ _ hmux) e h3
      · rw [h3]
        exact ht
  · intro q hq
    rcases List.mem_or_eq_of_mem_set hq with h2 | h2
    · exact h.sigs q h2
    · subst h2
      exact hsi

theorem msgCover_erase_resw (m : Message) (muxTag t : Nat) (s' : Signal)
    (hc : MsgCover m) (hmux : muxTag < m.store.length)
    (hsup : ∀ e ∈ (m.getSig muxTag).switch, e ∈ s'.switch)
    (hreach : t ∈ s'.switch.map (·.2)) :
    MsgCover { m.setSig muxTag s' with
      signals := (m.setSig muxTag s').signals.erase t } := by
  intro q hq
  have hq2 : q < m.store.length :=
    lt_of_lt_of_eq hq (setSig_store_length m muxTag s')
  by_cases hqt : q = t
  · subst hqt
    apply List.mem_append_right
    exact List.mem_flatMap.mpr ⟨s', mem_set_self s' hmux, hreach⟩
  · rcases List.mem_append.mp (hc q hq2) with h2 | h2
    · exact List.mem_append_left _ ((List.mem_erase_of_ne hqt).mpr h2)
    · apply List.mem_append_right
      refine flatMap_set_superset _ m.store muxTag s' ?_ q h2
      intro x hx
      rcases List.mem_map.mp hx with ⟨e, he, hxe⟩
      exact List.mem_map.mpr ⟨e, hsup e he, hxe⟩

theorem names_erase_resw (m : Message) (muxTag t : Nat) (s' : Signal)
    (hname : s'.name = (m.getSig muxTag).name)
    (hn : ((m.store.map (·.name)).Nodup)) :
    ((({ m.setSig muxTag s' with signals := (m.setSig muxTag s').signals.erase t } : Message).store.map (fun s : Signal => s.name)).Nodup) := by
  show (((m.store.set muxTag s').map (·.name)).Nodup)
  rw [show (((m.store.set muxTag s').map (·.name)) : List String)
    = m.store.map (·.name) from map_proj_set _ m.store muxTag s' hname]
  exact hn

theorem organizeLoop_pres (muxTag : Nat) : ∀ (ts : List Nat) (m m' : Message),
    organizeLoop muxTag ts m = .ok m' → MsgInv m →
    MsgInv m' ∧ (MsgCover m → MsgCover m') ∧
      ((m.store.map (·.name)).Nodup → ((m'.store.map (·.name)).Nodup))
  | [], m, m', hs, h => by
    cases hs
    exact ⟨h, id, id⟩
  | t :: ts, m, m', hs, h => by
    cases hv : (m.getSig t).multiplex_value with
    | none =>
      have he : organizeLoop muxTag (t :: ts) m = .error .typeError := by
        simp only [organizeLoop, hv]
      rw [he] at hs
      cases hs
    | some v =>
      cases hmul : (m.getSig muxTag).multiplexes v with
      | false =>
        obtain ⟨e, he⟩ := organizeLoop_cons_err muxTag t ts m v hv hmul
        rw [he] at hs
        cases hs
      | true =>
        rw [organizeLoop_cons_ok muxTag t ts m _ v hv hmul rfl] at hs
        have ht : t < m.store.length := tag_lt_of_mv hv
        have hmx : muxTag < m.store.length := tag_lt_of_multiplexes hmul
        have hstep := msgInv_erase_resw m muxTag t
          { m.getSig muxTag with
            switch := switchAppend (m.getSig muxTag).switch (v, v) t }
          h ht hmx rfl
          ⟨(getSig_sigInv h muxTag).attrs_nodup, (getSig_sigInv h muxTag).vdesc_nodup⟩
          (fun e he => (mem_switchAppend_elim he).imp id
            (fun h3 => congrArg Prod.snd h3))
        obtain ⟨h1, h2, h3⟩ := organizeLoop_pres muxTag ts _ m' hs hstep
        refine ⟨h1, fun hc => h2 ?_, fun hn => h3 ?_⟩
        · exact msgCover_erase_resw m muxTag t _ hc hmx
            (fun e he => mem_switchAppend_of_mem _ _ _ he)
            (List.mem_map.mpr ⟨((v, v), t), mem_switchAppend_self _ _ _, rfl⟩)
        · exact names_erase_resw m muxTag t _ rfl hn

theorem organizeMsgMux_pres {m m' : Message} (hs : organizeMsgMux m = .ok m')
    (h : MsgInv m) :
    MsgInv m' ∧ (MsgCover m → MsgCover m') ∧
      ((m.store.map (·.name)).Nodup → ((m'.store.map (·.name)).Nodup)) := by
  replace hs : (if (muxScan m).1 = 1 then
      match (muxScan m).2.1 with
      | some muxTag => organizeLoop muxTag (muxScan m).2.2 m
      | none => Except.error BErr.typeError
    else Except.ok m) = Except.ok m' := hs
  split at hs
  · split at hs
    · rename_i muxTag hmt
      exact organizeLoop_pres muxTag _ m m' hs h
    · cases hs
  · cases hs
    exact ⟨h, id, id⟩

theorem organizeAllMux_pres : ∀ (ids : List Nat) (b b' : Bus),
    organizeAllMux b ids = .ok b' → BusInv b →
    BusInv b' ∧ (BusCover b → BusCover b') ∧ (BusNames b → BusNames b')
  | [], b, b', hs, h => by
    cases hs
    exact ⟨h, id, id⟩
  | id :: ids, b, b', hs, h => by
    unfold organizeAllMux at hs
    split at hs
    · cases hs
    · rename_i m hl
      split at hs
      · cases hs
      · rename_i m2 hom
        obtain ⟨h1, h2, h3⟩ := organizeMsgMux_pres hom (busInv_msg h hl)
        obtain ⟨g1, g2, g3⟩ := organizeAllMux_pres ids _ b' hs (busInv_withMsg h _ h1)
        exact ⟨g1,
          fun hc => g2 (busCover_withMsg hc _ (h2 (busCover_msg hc hl))),
          fun hn => g3 (busNames_withMsg hn _ (h3 (busNames_msg hn hl)))⟩

theorem applySgMulVal1_pres {b b' : Bus} {c : Nat × String × String × List (Nat × Nat)}
    (hs : applySgMulVal1 b c = .ok b') (h : BusInv b) :
    BusInv b' ∧ (c.2.2.2 ≠ [] → BusCover b → BusCover b') ∧
      (BusNames b → BusNames b') := by
  unfold applySgMulVal1 at hs
  split at hs
  · cases hs
  · rename_i m hl
    split at hs
    · cases hs
    · rename_i sigTag hsg
      split at hs
      · cases hs
      · rename_i muxTag hmx
        split at hs
        · cases hs
        · split at hs
          · rename_i hmem
            cases hs
            have hm := busInv_msg h hl
            have htS : sigTag < m.store.length := tag_lt_of_lookup hm hsg
            have htM : muxTag < m.store.length := tag_lt_of_lookup hm hmx
            refine ⟨busInv_withMsg h _ ?_, fun hrng hc => busCover_withMsg hc _ ?_,
              fun hn => busNames_withMsg hn _ ?_⟩
            · exact msgInv_erase_resw m muxTag sigTag
                { m.getSig muxTag with switch := c.2.2.2.foldl (fun sw r => switchAppend sw r sigTag) (m.getSig muxTag).switch }
                hm htS htM rfl
                ⟨(getSig_sigInv hm muxTag).attrs_nodup,
                  (getSig_sigInv hm muxTag).vdesc_nodup⟩
                (fun e he => mem_foldl_switchAppend c.2.2.2 _ e he)
            · refine msgCover_erase_resw m muxTag sigTag
                { m.getSig muxTag with switch := c.2.2.2.foldl (fun sw r => switchAppend sw r sigTag) (m.getSig muxTag).switch }
                (busCover_msg hc hl) htM
                (fun e he => foldl_switchAppend_sub c.2.2.2 _ e he) ?_
              cases hq : c.2.2.2 with
              | nil => exact absurd hq hrng
              | cons r rs =>
                refine List.mem_map.mpr ⟨(r, sigTag), ?_, rfl⟩
                show (r, sigTag) ∈ (r :: rs).foldl
                  (fun sw r => switchAppend sw r sigTag) (m.getSig muxTag).switch
                rw [List.foldl_cons]
                exact foldl_switchAppend_sub rs _ _ (mem_switchAppend_self _ _ _)
            · exact names_erase_resw m muxTag sigTag _ rfl (busNames_msg hn hl)
          · cases hs



theorem bind_ok_elim {ε α β} {mv : Except ε α} {k : α → Except ε β} {b : β}
    (h : Except.bind mv k = .ok b) : ∃ a, mv = .ok a ∧ k a = .ok b := by
  cases mv with
  | error e => simp [Except.bind] at h
  | ok a =>
    refine ⟨a, rfl, ?_⟩
    simpa [Except.bind] using h

theorem ok_bind {ε α β : Type} (a : α) (k : α → Except ε β) :
    Except.bind (Except.ok a) k = k a := rfl

theorem error_bind {ε α β : Type} (e : ε) (k : α → Except ε β) :
    Except.bind (Except.error e) k = Except.error e := rfl

/-- The invariant base for the bus literal of line 897: the state after
the `VAL_TABLE_` and `BO_` stages. -/
theorem b0_all (version : String) (baud : Option Nat) (btrv : Option (Nat × Nat))
    (hpr : baud.isSome = btrv.isSome) (nl : List String) (ns : List String)
    {gv : List (String × List (Int × String))}
    (hgv1 : (gv.map Prod.fst).Nodup) (hgv2 : ∀ p ∈ gv, (p.2.map Prod.fst).Nodup)
    {msgs : List (Nat × Message)}
    (h1 : (msgs.map Prod.fst).Nodup) (h2 : ∀ p ∈ msgs, MsgInv p.2)
    (h3 : ∀ p ∈ msgs, MsgCover p.2) {H : Prop}
    (h4 : H → ∀ p ∈ msgs, ((p.2.store.map (·.name)).Nodup)) :
    BusInv ⟨version, baud, btrv, nl.foldl (fun d n => dictSet d n ⟨[], []⟩) [], ns,
        gv, msgs, [], [("", []), ("BU_", []), ("BO_", []), ("SG_", []), ("EV_", [])],
        [], []⟩ ∧
      BusCover ⟨version, baud, btrv, nl.foldl (fun d n => dictSet d n ⟨[], []⟩) [], ns,
        gv, msgs, [], [("", []), ("BU_", []), ("BO_", []), ("SG_", []), ("EV_", [])],
        [], []⟩ ∧
      (H → BusNames ⟨version, baud, btrv, nl.foldl (fun d n => dictSet d n ⟨[], []⟩) [],
        ns, gv, msgs, [], [("", []), ("BU_", []), ("BO_", []), ("SG_", []), ("EV_", [])],
        [], []⟩) := by
  have htd1 : ((([("", []), ("BU_", []), ("BO_", []), ("SG_", []), ("EV_", [])]
      : List (String × List (String × AttrTypedef))).map Prod.fst).Nodup) := by decide
  have htd2 : ∀ p ∈ ([("", []), ("BU_", []), ("BO_", []), ("SG_", []), ("EV_", [])]
      : List (String × List (String × AttrTypedef))), ((p.2.map Prod.fst).Nodup) := by
    decide
  refine ⟨⟨hpr, foldl_dictSet_keys_nodup nl [] (by simp), ?_, hgv1, hgv2, h1, h2,
    htd1, htd2, List.nodup_nil, List.nodup_nil⟩,
    fun p hp => h3 p hp, fun hH p hp => h4 hH p hp⟩
  intro p hp
  exact @foldl_dictSet_values String NodeInfo String _
    (fun v => ((v.attributes.map Prod.fst).Nodup)) (fun n => n) (fun x => ⟨[], []⟩)
    nl [] (fun q hq => absurd hq (List.not_mem_nil q)) (fun x hx => List.nodup_nil) p hp

/-- Fold a bus-updating step through `foldlM`, carrying the invariant, the
coverage, and the conditional name-uniqueness. -/
theorem busFold_pres {γ : Type} {f : Bus → γ → Except BErr Bus}
    (hf : ∀ b c b', f b c = .ok b' → BusInv b →
      BusInv b' ∧ (BusCover b → BusCover b') ∧ (BusNames b → BusNames b'))
    {H : Prop} (l : List γ) (b b' : Bus)
    (h : BusInv b ∧ BusCover b ∧ (H → BusNames b))
    (hfold : l.foldlM f b = .ok b') :
    BusInv b' ∧ BusCover b' ∧ (H → BusNames b') := by
  refine @foldlME_inv_mem BErr γ Bus
    (fun b2 => BusInv b2 ∧ BusCover b2 ∧ (H → BusNames b2)) f l ?_ b b' h hfold
  intro b1 c b2 _ hP hstep
  obtain ⟨h1, h2, h3⟩ := hf b1 c b2 hstep hP.1
  exact ⟨h1, h2 hP.2.1, fun hn => h3 (hP.2.2 hn)⟩

theorem mem_filterMap_filter {γ α : Type} {f : γ → Option α} {p : γ → Bool}
    {l : List γ} {a : α} (h : a ∈ (l.filter p).filterMap f) : a ∈ l.filterMap f := by
  rcases List.mem_filterMap.mp h with ⟨s, hs, hf⟩
  exact List.mem_filterMap.mpr ⟨s, (List.mem_filter.mp hs).1, hf⟩

set_option maxHeartbeats 2000000 in
/-- Every successfully constructed bus satisfies the structural invariant;
if moreover the `BO_` sections carry pairwise-distinct signal names and
every `SG_MUL_VAL_` section lists at least one range, each message also
keeps all its signals reachable and its stored names distinct. -/
theorem buildBus_inv {secs : List DbcSection} {b : Bus} (hb : buildBus secs = .ok b) :
    BusInv b ∧
      ((∀ d ∈ secs.filterMap secBo?, ((d.signals.map SigDict.name).Nodup)) →
        (∀ c ∈ secs.filterMap secSgMulVal?, c.2.2.2 ≠ []) →
        BusCover b ∧ BusNames b) := by
  simp only [buildBus, xtractWith, Bind.bind] at hb
  -- VERSION
  split at hb <;> first
    | rw [error_bind] at hb; exact absurd hb (by simp)
    | rw [ok_bind] at hb
  rename_i ver
  -- BS_
  split at hb <;> first
    | rw [error_bind] at hb; exact absurd hb (by simp)
    | rw [ok_bind] at hb
  rename_i bsv hbsveq
  -- BU_
  split at hb <;> first
    | rw [error_bind] at hb; exact absurd hb (by simp)
    | rw [ok_bind] at hb
  rename_i bul
  -- NS_ (two accepting arms)
  split at hb <;> first
    | rw [error_bind] at hb; exact absurd hb (by simp)
    | rw [ok_bind] at hb
  all_goals
    obtain ⟨gv, hgv, hb⟩ := bind_ok_elim hb
    obtain ⟨msgs, hmsgs, hb⟩ := bind_ok_elim hb
    obtain ⟨b1, hb1, hb⟩ := bind_ok_elim hb
    obtain ⟨b2, hb2, hb⟩ := bind_ok_elim hb
    obtain ⟨b3, hb3, hb⟩ := bind_ok_elim hb
    obtain ⟨b4, hb4, hb⟩ := bind_ok_elim hb
    obtain ⟨b5, hb5, hb⟩ := bind_ok_elim hb
    obtain ⟨b6, hb6, hb⟩ := bind_ok_elim hb
    obtain ⟨b7, hb7, hb⟩ := bind_ok_elim hb
    obtain ⟨b8, hb8, hb⟩ := bind_ok_elim hb
    obtain ⟨b9, hb9, hb⟩ := bind_ok_elim hb
    obtain ⟨b10, hb10, hb⟩ := bind_ok_elim hb
    split at hb
    · exact absurd hb (by simp)
    · split at hb
      · exact absurd hb (by simp)
      · cases hb
        have hgvP : (gv.map Prod.fst).Nodup ∧ ∀ p ∈ gv, (p.2.map Prod.fst).Nodup := by
          refine @foldlME_inv_mem BErr (String × List (Int × String))
            (List (String × List (Int × String)))
            (fun g => (g.map Prod.fst).Nodup ∧ ∀ p ∈ g, (p.2.map Prod.fst).Nodup)
            addValTable _ ?_ [] gv ⟨by simp, by simp⟩ hgv
          intro g tab g' _ hP hstep
          exact addValTable_pres hstep hP.1 hP.2
        have hmsP : (msgs.map Prod.fst).Nodup ∧ (∀ p ∈ msgs, MsgInv p.2) ∧
            (∀ p ∈ msgs, MsgCover p.2) ∧
            ((∀ d ∈ secs.filterMap secBo?, ((d.signals.map SigDict.name).Nodup)) →
              ∀ p ∈ msgs, ((p.2.store.map (·.name)).Nodup)) := by
          refine @foldlME_inv_mem BErr BoDict (List (Nat × Message))
            (fun ms => (ms.map Prod.fst).Nodup ∧ (∀ p ∈ ms, MsgInv p.2) ∧
              (∀ p ∈ ms, MsgCover p.2) ∧
              ((∀ d ∈ secs.filterMap secBo?, ((d.signals.map SigDict.name).Nodup)) →
                ∀ p ∈ ms, ((p.2.store.map (·.name)).Nodup)))
            addMessage _ ?_ [] msgs ⟨by simp, by simp, by simp, fun _ => by simp⟩ hmsgs
          intro ms d ms' hd hP hstep
          obtain ⟨g1, g2, g3, g4⟩ := addMessage_pres hstep hP.1 hP.2.1 hP.2.2.1
          exact ⟨g1, g2, g3, fun hn => g4 (hn d (mem_filterMap_filter
            (mem_filterMap_filter (mem_filterMap_filter (mem_filterMap_filter
              (mem_filterMap_filter hd)))))) (hP.2.2.2 hn)⟩
        have hB1 := busFold_pres (fun bx c bx' hs hx => applyBoTxBu1_pres hs hx)
          _ _ b1 (b0_all _ _ _ ?hbtr _ _ hgvP.1 hgvP.2 hmsP.1 hmsP.2.1 hmsP.2.2.1
            hmsP.2.2.2) hb1
        case hbtr =>
          cases bsv with
          | none => rfl
          | some t =>
            obtain ⟨x, y2, z⟩ := t
            rfl
        have hB2 := busFold_pres (fun bx c bx' hs hx => applyCm1_pres hs hx)
          _ _ b2 hB1 hb2
        have hB3 := busFold_pres (fun bx c bx' hs hx => applyBaDef1_pres hs hx)
          _ _ b3 hB2 hb3
        have hB4 := busFold_pres (fun bx c bx' hs hx => applyBaDefDef1_pres hs hx)
          _ _ b4 hB3 hb4
        have hB5 := busFold_pres (fun bx c bx' hs hx => applyBa1_pres hs hx)
          _ _ b5 hB4 hb5
        have hB6 := busFold_pres (fun bx c bx' hs hx => applyValDesc1_pres hs hx)
          _ _ b6 hB5 hb6
        have hB7 := busFold_pres (fun bx c bx' hs hx => applySigGroup1_pres hs hx)
          _ _ b7 hB6 hb7
        have hB8 := busFold_pres (fun bx c bx' hs hx => applySigValtype1_pres hs hx)
          _ _ b8 hB7 hb8
        have hB9 : BusInv b9 ∧ BusCover b9 ∧
            ((∀ d ∈ secs.filterMap secBo?, ((d.signals.map SigDict.name).Nodup)) →
              BusNames b9) := by
          obtain ⟨g1, g2, g3⟩ := organizeAllMux_pres _ _ _ hb9 hB8.1
          exact ⟨g1, g2 hB8.2.1, fun hn => g3 (hB8.2.2 hn)⟩
        have hB10 : BusInv b ∧
            ((∀ c ∈ secs.filterMap secSgMulVal?, c.2.2.2 ≠ []) → BusCover b) ∧
            ((∀ d ∈ secs.filterMap secBo?, ((d.signals.map SigDict.name).Nodup)) →
              BusNames b) := by
          refine @foldlME_inv_mem BErr (Nat × String × String × List (Nat × Nat)) Bus
            (fun bb => BusInv bb ∧
              ((∀ c ∈ secs.filterMap secSgMulVal?, c.2.2.2 ≠ []) → BusCover bb) ∧
              ((∀ d ∈ secs.filterMap secBo?, ((d.signals.map SigDict.name).Nodup)) →
                BusNames bb))
            applySgMulVal1 _ ?_ b9 b ⟨hB9.1, fun _ => hB9.2.1, hB9.2.2⟩ hb10
          intro bb c bb' hc hP hstep
          obtain ⟨g1, g2, g3⟩ := applySgMulVal1_pres hstep hP.1
          exact ⟨g1, fun hmv => g2 (hmv c (mem_filterMap_filter (mem_filterMap_filter
            (mem_filterMap_filter (mem_filterMap_filter (mem_filterMap_filter
              (mem_filterMap_filter (mem_filterMap_filter (mem_filterMap_filter
                (mem_filterMap_filter (mem_filterMap_filter (mem_filterMap_filter
                  (mem_filterMap_filter (mem_filterMap_filter (mem_filterMap_filter
                    hc))))))))))))))) (hP.2.1 hmv), fun hn => g3 (hP.2.2 hn)⟩
        exact ⟨hB10.1, fun hn hmv => ⟨hB10.2.1 hmv, hB10.2.2 hn⟩⟩

/-- **C10.**  After every successful Bus construction every Message's
transmitters list is pairwise distinct: `Message.__init__` (lines 327-344)
starts from the single canonical transmitter, and the `BO_TX_BU_` handler
(lines 591-608) appends a transmitter only when it is not already
listed. -/
theorem c10_transmitters_nodup {secs : List DbcSection} {b : Bus}
    (hb : buildBus secs = .ok b) : ∀ p ∈ b.messages, p.2.transmitters.Nodup :=
  fun p hp => ((buildBus_inv hb).1.msgs p hp).tx_nodup

theorem c10_transmitters_nodup_witness :
    ∃ b, buildBus c10secs = Except.ok b ∧ ∀ p ∈ b.messages, p.2.transmitters.Nodup := by
  cases hq : buildBus c10secs with
  | error e =>
    have hok : (buildBus c10secs).toOption.isSome = true := by decide
    rw [hq] at hok
    simp [Except.toOption] at hok
  | ok bb => exact ⟨bb, rfl, c10_transmitters_nodup hq⟩


/-! ## The signal-name bijection (claim C2) -/

theorem reach_lt {m : Message} (h : MsgInv m) : ∀ t ∈ reachTags m, t < m.store.length := by
  intro t ht
  rcases List.mem_append.mp ht with h2 | h2
  · exact h.sig_lt t h2
  · rcases List.mem_flatMap.mp h2 with ⟨s, hs, ht2⟩
    rcases List.mem_map.mp ht2 with ⟨e, he, hte⟩
    rw [← hte]
    exact h.switch_lt s hs e he

theorem getD_map_of_lt (f : α → β) : ∀ (l : List α) (i : Nat) (d : α) (d2 : β),
    i < l.length → (l.map f).getD i d2 = f (l.getD i d)
  | [], _, _, _, h => absurd h (by simp)
  | _ :: _, 0, _, _, _ => rfl
  | _ :: l, i + 1, d, d2, h => getD_map_of_lt f l i d d2 (by simpa using h)

/-- With distinct stored names, reachability coverage, and the structural
invariant, `signals_dict` is a bijection between names and reachable
tags. -/
theorem sigBijection_of_inv {m : Message} (h : MsgInv m) (hc : MsgCover m)
    (hn : ((m.store.map (·.name)).Nodup)) : SigBijection m := by
  have hlen : (m.store.map (·.name)).length = m.store.length := List.length_map _ _
  refine ⟨?_, ?_, ?_⟩
  · rw [h.dict_eq]
    exact buildDict_keys_nodup _
  · intro p hp
    rw [h.dict_eq] at hp
    have hs := buildDict_mem_spec p hp
    have hlt : p.2 < m.store.length := by
      rw [← hlen]
      exact hs.1
    refine ⟨hc p.2 hlt, ?_⟩
    show (m.getSig p.2).name = p.1
    rw [← hs.2, getD_map_of_lt (·.name) m.store p.2 default "" hlt]
    rfl
  · intro t ht
    have hlt := reach_lt h t ht
    have hcomp := buildDict_complete hn t (by rw [hlen]; exact hlt)
    refine ⟨(m.store.map (·.name)).getD t "", ?_, ?_⟩
    · rw [h.dict_eq]
      exact hcomp
    · intro p hp hpt
      rw [h.dict_eq] at hp
      have hs := buildDict_mem_spec p hp
      have h1 : p.1 = (m.store.map (·.name)).getD t "" := by
        rw [← hs.2, hpt]
      obtain ⟨p1, p2⟩ := p
      simp only at h1 hpt
      rw [h1, hpt]

/-- **C2 — counterexample.**  `c2secs` declares one message whose two
signals both carry the name "A" (`Message.append`, lines 346-353, silently
overwrites the `signals_dict` binding); construction succeeds and the
resulting dict binds "A" to the second tag only, so tag 0 is a reachable
signal that is the value of no entry: the claimed bijection fails. -/
theorem c2_duplicate_names_cex :
    ∃ b, buildBus c2secs = Except.ok b ∧ ∃ p ∈ b.messages, ¬ SigBijection p.2 := by
  have hd : ((buildBus c2secs).toOption.bind fun bb =>
      (dictLookup bb.messages 1).map fun m =>
        decide (0 ∈ reachTags m) && m.signals_dict.all fun q => q.2 != 0) = some true := by
    decide
  cases hq : buildBus c2secs with
  | error e =>
    rw [hq] at hd
    simp [Except.toOption] at hd
  | ok bb =>
    rw [hq] at hd
    simp only [Except.toOption, Option.bind] at hd
    cases hm : dictLookup bb.messages 1 with
    | none =>
      rw [hm] at hd
      simp at hd
    | some m =>
      rw [hm] at hd
      simp only [Option.map] at hd
      have hd2 : (decide (0 ∈ reachTags m) &&
          m.signals_dict.all fun q => q.2 != 0) = true := Option.some.inj hd
      rw [Bool.and_eq_true] at hd2
      have h0 : 0 ∈ reachTags m := of_decide_eq_true hd2.1
      have hno : ∀ q ∈ m.signals_dict, q.2 ≠ 0 := by
        intro q hqq
        have := List.all_eq_true.mp hd2.2 q hqq
        simpa using this
      refine ⟨bb, rfl, (1, m), dictLookup_mem hm, ?_⟩
      intro hbij
      obtain ⟨nm, hnm, _⟩ := hbij.2.2 0 h0
      exact hno (nm, 0) hnm rfl

/-- **C2 (amended).**  For every successfully constructed Bus whose `BO_`
sections list pairwise-distinct signal names per message and whose
`SG_MUL_VAL_` sections each carry at least one range, every message's
`signals_dict` is a bijection between names and reachable signals.  (With
a duplicate name the dict binding is silently overwritten —
`c2_duplicate_names_cex` — and with an empty range list the signal is
removed from the top level but attached to no switch entry.) -/
theorem c2_signal_name_bijection {secs : List DbcSection} {b : Bus}
    (hb : buildBus secs = .ok b)
    (hn : ∀ d ∈ secs.filterMap secBo?, ((d.signals.map SigDict.name).Nodup))
    (hmv : ∀ c ∈ secs.filterMap secSgMulVal?, c.2.2.2 ≠ []) :
    ∀ p ∈ b.messages, SigBijection p.2 := by
  obtain ⟨hinv, hcn⟩ := buildBus_inv hb
  obtain ⟨hc, hnm⟩ := hcn hn hmv
  intro p hp
  exact sigBijection_of_inv (hinv.msgs p hp) (hc p hp) (hnm p hp)

theorem c2_signal_name_bijection_witness :
    ∃ b, buildBus cwSecs = Except.ok b ∧ ∀ p ∈ b.messages, SigBijection p.2 := by
  cases hq : buildBus cwSecs with
  | error e =>
    have hok : (buildBus cwSecs).toOption.isSome = true := by decide
    rw [hq] at hok
    simp [Except.toOption] at hok
  | ok bb =>
    exact ⟨bb, rfl, c2_signal_name_bijection hq (by decide) (by decide)⟩


/-! ## Equality toolkit for the diff engine -/

theorem data_ne_nil_append {p : String} (h : p.data ≠ []) (q : String) :
    (p ++ q).data ≠ [] := by
  rw [String.data_append]
  intro he
  exact h (List.append_eq_nil.mp he).1

theorem ne_empty_of_data {p : String} (h : p.data ≠ []) : p ≠ "" := by
  intro he
  rw [he] at h
  exact h rfl

theorem pyValEq_refl : ∀ a, pyValEq a a = true := by
  intro a
  cases a <;> simp [pyValEq]

theorem beqComm {β : Type} [DecidableEq β] (x y : β) : (x == y) = (y == x) := by
  rw [Bool.eq_iff_iff]
  constructor <;> intro h <;> rw [beq_iff_eq] at h ⊢ <;> exact h.symm

theorem pyValEq_symm : ∀ a b, pyValEq a b = pyValEq b a := by
  intro a b
  cases a <;> cases b <;> try rfl
  all_goals exact beqComm _ _

theorem typPayloadEq_refl : ∀ a, typPayloadEq a a = true := by
  intro a
  cases a <;> simp [typPayloadEq, pyValEq_refl]

theorem typPayloadEq_symm : ∀ a b, typPayloadEq a b = typPayloadEq b a := by
  intro a b
  cases a <;> cases b <;> try rfl
  · rename_i x y z w
    show (pyValEq x z && pyValEq y w) = (pyValEq z x && pyValEq w y)
    rw [pyValEq_symm x z, pyValEq_symm y w]
  · rename_i l1 l2
    show (l1 == l2) = (l2 == l1)
    rw [Bool.eq_iff_iff]
    constructor <;> intro h <;> rw [beq_iff_eq] at h ⊢ <;> exact h.symm

theorem typedefEq_refl (t : AttrTypedef) : typedefEq t t = true := by
  simp [typedefEq, typPayloadEq_refl]

theorem typedefEq_symm (a b : AttrTypedef) : typedefEq a b = typedefEq b a := by
  rw [Bool.eq_iff_iff]
  simp only [typedefEq, Bool.and_eq_true, beq_iff_eq]
  rw [typPayloadEq_symm]
  exact ⟨fun hx => ⟨hx.1.symm, hx.2⟩, fun hx => ⟨hx.1.symm, hx.2⟩⟩

theorem pyDictEqBy_iff [DecidableEq κ] {veq : α → α → Bool} {d1 d2 : List (κ × α)} :
    pyDictEqBy veq d1 d2 = true ↔
      ((∀ p ∈ d1, ∃ v, dictLookup d2 p.1 = some v ∧ veq p.2 v = true) ∧
       (∀ p ∈ d2, (dictLookup d1 p.1).isSome = true)) := by
  unfold pyDictEqBy
  rw [Bool.and_eq_true, List.all_eq_true, List.all_eq_true]
  constructor
  · rintro ⟨h1, h2⟩
    refine ⟨?_, h2⟩
    intro p hp
    have hm := h1 p hp
    cases hl : dictLookup d2 p.1 with
    | none =>
      rw [hl] at hm
      simp at hm
    | some v =>
      rw [hl] at hm
      exact ⟨v, rfl, hm⟩
  · rintro ⟨h1, h2⟩
    refine ⟨?_, h2⟩
    intro p hp
    obtain ⟨v, hv, he⟩ := h1 p hp
    rw [hv]
    exact he

theorem pyDictEqBy_iff_nodup [DecidableEq κ] {veq : α → α → Bool} {d1 d2 : List (κ × α)}
    (h1 : (d1.map Prod.fst).Nodup) :
    pyDictEqBy veq d1 d2 = true ↔
      ((∀ k, (dictLookup d1 k).isSome ↔ (dictLookup d2 k).isSome) ∧
       (∀ k v1 v2, dictLookup d1 k = some v1 → dictLookup d2 k = some v2 →
         veq v1 v2 = true)) := by
  rw [pyDictEqBy_iff]
  constructor
  · rintro ⟨ha, hb⟩
    constructor
    · intro k
      constructor
      · intro hk
        cases hl : dictLookup d1 k with
        | none =>
          rw [hl] at hk
          simp at hk
        | some v =>
          obtain ⟨v2, hv2, _⟩ := ha (k, v) (dictLookup_mem hl)
          rw [hv2]
          rfl
      · intro hk
        cases hl : dictLookup d2 k with
        | none =>
          rw [hl] at hk
          simp at hk
        | some v => exact hb (k, v) (dictLookup_mem hl)
    · intro k v1 v2 hl1 hl2
      obtain ⟨v2', hv2', he⟩ := ha (k, v1) (dictLookup_mem hl1)
      rw [hl2] at hv2'
      cases Option.some.inj hv2'
      exact he
  · rintro ⟨ha, hb⟩
    constructor
    · intro p hp
      have hl1 : dictLookup d1 p.1 = some p.2 := dictLookup_eq_of_mem_nodup h1 hp
      have hk : (dictLookup d2 p.1).isSome = true := (ha p.1).mp (by rw [hl1]; rfl)
      cases hl2 : dictLookup d2 p.1 with
      | none =>
        rw [hl2] at hk
        simp at hk
      | some v2 => exact ⟨v2, rfl, hb p.1 p.2 v2 hl1 hl2⟩
    · intro p hp
      refine (ha p.1).mpr ?_
      exact dictLookup_isSome_iff.mpr (List.mem_map_of_mem Prod.fst hp)

theorem pyDictEqBy_refl [DecidableEq κ] {veq : α → α → Bool} {d : List (κ × α)}
    (hd : (d.map Prod.fst).Nodup) (hrefl : ∀ p ∈ d, veq p.2 p.2 = true) :
    pyDictEqBy veq d d = true := by
  rw [pyDictEqBy_iff_nodup hd]
  refine ⟨fun k => Iff.rfl, fun k v1 v2 hl1 hl2 => ?_⟩
  rw [hl1] at hl2
  cases Option.some.inj hl2
  exact hrefl (k, v1) (dictLookup_mem hl1)

theorem pyDictEqBy_symm_val [DecidableEq κ] {veq : α → α → Bool} {d1 d2 : List (κ × α)}
    (h1 : (d1.map Prod.fst).Nodup) (h2 : (d2.map Prod.fst).Nodup)
    (hsymm : ∀ p ∈ d1, ∀ q ∈ d2, veq p.2 q.2 = veq q.2 p.2) :
    pyDictEqBy veq d1 d2 = true → pyDictEqBy veq d2 d1 = true := by
  rw [pyDictEqBy_iff_nodup h1, pyDictEqBy_iff_nodup h2]
  rintro ⟨ha, hb⟩
  refine ⟨fun k => (ha k).symm, fun k v2 v1 hl2 hl1 => ?_⟩
  rw [← hsymm (k, v1) (dictLookup_mem hl1) (k, v2) (dictLookup_mem hl2)]
  exact hb k v1 v2 hl1 hl2

theorem pyDictEqBy_symm [DecidableEq κ] {veq : α → α → Bool}
    (hsymm : ∀ a b, veq a b = veq b a) {d1 d2 : List (κ × α)}
    (h1 : (d1.map Prod.fst).Nodup) (h2 : (d2.map Prod.fst).Nodup) :
    pyDictEqBy veq d1 d2 = true → pyDictEqBy veq d2 d1 = true :=
  pyDictEqBy_symm_val h1 h2 (fun p _ q _ => hsymm p.2 q.2)

theorem nodeInfoEq_refl {ni : NodeInfo} (h : (ni.attributes.map Prod.fst).Nodup) :
    nodeInfoEq ni ni = true := by
  simp only [nodeInfoEq, Bool.and_eq_true, beq_self_eq_true, true_and]
  exact pyDictEqBy_refl h (fun p _ => pyValEq_refl p.2)

theorem nodeInfoEq_symm {n1 n2 : NodeInfo}
    (h1 : (n1.attributes.map Prod.fst).Nodup) (h2 : (n2.attributes.map Prod.fst).Nodup) :
    nodeInfoEq n1 n2 = true → nodeInfoEq n2 n1 = true := by
  simp only [nodeInfoEq, Bool.and_eq_true, beq_iff_eq]
  rintro ⟨hc, ha⟩
  exact ⟨hc.symm, pyDictEqBy_symm pyValEq_symm h1 h2 ha⟩

theorem sigDbc_isSome {s : Signal} (h : s.receivers ≠ []) : (s.dbc).isSome = true := by
  cases hr : s.receivers with
  | nil => exact absurd hr h
  | cons r rest =>
    unfold Signal.dbc
    rw [hr]
    rfl


/-! ## Characterizations of the diff loops -/

theorem signalDiff_empty_iff {s o : Signal} :
    signalDiff s o = some "" ↔ ∃ x, s.dbc = some x ∧ o.dbc = some x := by
  unfold signalDiff
  cases hs : s.dbc with
  | none =>
    constructor
    · intro h
      simp at h
    · rintro ⟨x, hx1, _⟩
      cases hx1
  | some a =>
    cases ho : o.dbc with
    | none =>
      constructor
      · intro h
        simp at h
      · rintro ⟨x, _, hx2⟩
        cases hx2
    | some b =>
      show (if a ≠ b then some (" < " ++ a ++ " > " ++ b) else some "") = some ""
          ↔ ∃ x, some a = some x ∧ some b = some x
      by_cases hne : a ≠ b
      · rw [if_pos hne]
        constructor
        · intro h
          exact absurd (Option.some.inj h)
            (by apply ne_empty_of_data
                repeat apply data_ne_nil_append
                decide)
        · rintro ⟨x, hx1, hx2⟩
          cases Option.some.inj hx1
          cases Option.some.inj hx2
          exact absurd rfl hne
      · rw [if_neg hne]
        have hab : a = b := not_not.mp hne
        subst hab
        exact iff_of_true rfl ⟨a, rfl, rfl⟩

theorem groupDiff_empty_iff {g o : SignalGroup} :
    groupDiff g o = "" ↔
      ((∀ x ∈ g.sigs, x ∈ o.sigs) ∧ (∀ x ∈ o.sigs, x ∈ g.sigs)) := by
  have hb : ((g.sigs.all fun x => decide (x ∈ o.sigs)) &&
      (o.sigs.all fun x => decide (x ∈ g.sigs))) = true ↔
      ((∀ x ∈ g.sigs, x ∈ o.sigs) ∧ (∀ x ∈ o.sigs, x ∈ g.sigs)) := by
    rw [Bool.and_eq_true, List.all_eq_true, List.all_eq_true]
    simp
  unfold groupDiff
  split
  · rename_i h
    constructor
    · intro he
      exact absurd he
        (by
            apply ne_empty_of_data
            repeat apply data_ne_nil_append
            decide)
    · intro hx
      exact absurd (hb.mpr hx) (by simpa using h)
  · rename_i h
    exact iff_of_true rfl (hb.mp (not_not.mp h))

theorem busNodeLoop_le {other : List (String × NodeInfo)} :
    ∀ (l : List (String × NodeInfo)) (c : Nat) (s : String) (r : Nat × String),
      busNodeLoop other l c s = some r → c ≤ r.1
  | [], c, s, r, h => by
    cases h
    exact le_refl c
  | p :: rest, c, s, r, h => by
    unfold busNodeLoop at h
    simp only [Bind.bind] at h
    cases hl : dictLookup other p.1 with
    | none =>
      rw [hl] at h
      simp [Option.bind] at h
    | some o =>
      rw [hl] at h
      simp only [Option.bind] at h
      split at h
      · exact le_trans (Nat.le_succ c) (busNodeLoop_le rest (c + 1) _ r h)
      · exact busNodeLoop_le rest c s r h

theorem busNodeLoop_ok_of {other : List (String × NodeInfo)} :
    ∀ (l : List (String × NodeInfo)) (c : Nat) (s : String),
      (∀ p ∈ l, ∃ o, dictLookup other p.1 = some o ∧ nodeInfoEq p.2 o = true) →
      busNodeLoop other l c s = some (c, s)
  | [], _, _, _ => rfl
  | p :: rest, c, s, hall => by
    obtain ⟨o, hl, he⟩ := hall p (List.mem_cons_self _ _)
    unfold busNodeLoop
    simp only [Bind.bind, hl, Option.bind]
    rw [if_neg (by simp [he])]
    exact busNodeLoop_ok_of rest c s (fun q hq => hall q (List.mem_cons_of_mem _ hq))

theorem busNodeLoop_zero_elim {other : List (String × NodeInfo)} :
    ∀ (l : List (String × NodeInfo)) (c : Nat) (s s' : String),
      busNodeLoop other l c s = some (c, s') →
      ∀ p ∈ l, ∃ o, dictLookup other p.1 = some o ∧ nodeInfoEq p.2 o = true
  | [], _, _, _, _, p, hp => absurd hp (List.not_mem_nil p)
  | q :: rest, c, s, s', h, p, hp => by
    unfold busNodeLoop at h
    simp only [Bind.bind] at h
    cases hl : dictLookup other q.1 with
    | none =>
      rw [hl] at h
      simp [Option.bind] at h
    | some o =>
      rw [hl] at h
      simp only [Option.bind] at h
      split at h
      · have h2 : c + 1 ≤ c := busNodeLoop_le rest (c + 1) _ _ h
        omega
      · rename_i hcond
        rcases List.mem_cons.mp hp with rfl | hp2
        · exact ⟨o, hl, not_not.mp (by simpa using hcond)⟩
        · exact busNodeLoop_zero_elim rest c s s' h p hp2

theorem busMsgLoop_empty_iff {other : List (Nat × Message)} :
    ∀ (l : List (Nat × Message)),
      busMsgLoop other l = some "" ↔
        ∀ p ∈ l, ∃ m2, dictLookup other p.1 = some m2 ∧ msgDiff p.2 m2 = some ""
  | [] => by
    constructor
    · intro _ p hp
      exact absurd hp (List.not_mem_nil p)
    · intro _
      rfl
  | p :: rest => by
    constructor
    · intro h
      unfold busMsgLoop at h
      simp only [Bind.bind] at h
      cases hl : dictLookup other p.1 with
      | none =>
        rw [hl] at h
        simp [Option.bind] at h
      | some m2 =>
        rw [hl] at h
        simp only [Option.bind] at h
        cases hd : msgDiff p.2 m2 with
        | none =>
          rw [hd] at h
          simp [Option.bind] at h
        | some d =>
          rw [hd] at h
          simp only [Option.bind] at h
          split at h
          · rename_i hne
            exact absurd (Option.some.inj h) hne
          · rename_i hne
            have hd0 : d = "" := not_not.mp hne
            intro q hq
            rcases List.mem_cons.mp hq with rfl | hq2
            · exact ⟨m2, hl, by rw [hd, hd0]⟩
            · exact (busMsgLoop_empty_iff rest).mp h q hq2
    · intro hall
      obtain ⟨m2, hl, hd⟩ := hall p (List.mem_cons_self _ _)
      unfold busMsgLoop
      simp only [Bind.bind, hl, Option.bind, hd]
      rw [if_neg (by simp)]
      exact (busMsgLoop_empty_iff rest).mpr
        (fun q hq => hall q (List.mem_cons_of_mem _ hq))

theorem msgSigLoop_empty_iff {m o : Message} :
    ∀ (l : List (String × Nat)),
      msgSigLoop m o l = some "" ↔
        ∀ p ∈ l, ∃ t2, dictLookup o.signals_dict p.1 = some t2 ∧
          signalDiff (m.getSig p.2) (o.getSig t2) = some ""
  | [] => by
    constructor
    · intro _ p hp
      exact absurd hp (List.not_mem_nil p)
    · intro _
      rfl
  | p :: rest => by
    constructor
    · intro h
      unfold msgSigLoop at h
      simp only [Bind.bind] at h
      cases hl : dictLookup o.signals_dict p.1 with
      | none =>
        rw [hl] at h
        simp [Option.bind] at h
      | some t2 =>
        rw [hl] at h
        simp only [Option.bind] at h
        cases hd : signalDiff (m.getSig p.2) (o.getSig t2) with
        | none =>
          rw [hd] at h
          simp [Option.bind] at h
        | some d =>
          rw [hd] at h
          simp only [Option.bind] at h
          split at h
          · exact absurd (Option.some.inj h)
              (by
                  apply ne_empty_of_data
                  repeat apply data_ne_nil_append
                  decide)
          · rename_i hne
            have hd0 : d = "" := not_not.mp hne
            intro q hq
            rcases List.mem_cons.mp hq with rfl | hq2
            · exact ⟨t2, hl, by rw [hd, hd0]⟩
            · exact (msgSigLoop_empty_iff rest).mp h q hq2
    · intro hall
      obtain ⟨t2, hl, hd⟩ := hall p (List.mem_cons_self _ _)
      unfold msgSigLoop
      simp only [Bind.bind, hl, Option.bind, hd]
      rw [if_neg (by simp)]
      exact (msgSigLoop_empty_iff rest).mpr
        (fun q hq => hall q (List.mem_cons_of_mem _ hq))

theorem msgGroupLoop_empty_iff {m o : Message} :
    ∀ (l : List (String × SignalGroup)),
      msgGroupLoop m o l = some "" ↔
        ∀ p ∈ l, ∃ g2, dictLookup o.signal_groups p.1 = some g2 ∧
          groupDiff p.2 g2 = ""
  | [] => by
    constructor
    · intro _ p hp
      exact absurd hp (List.not_mem_nil p)
    · intro _
      rfl
  | p :: rest => by
    constructor
    · intro h
      unfold msgGroupLoop at h
      simp only [Bind.bind] at h
      cases hl : dictLookup o.signal_groups p.1 with
      | none =>
        rw [hl] at h
        simp [Option.bind] at h
      | some g2 =>
        rw [hl] at h
        simp only [Option.bind] at h
        split at h
        · exact absurd (Option.some.inj h)
            (by
                apply ne_empty_of_data
                repeat apply data_ne_nil_append
                decide)
        · rename_i hne
          have hd0 : groupDiff p.2 g2 = "" := not_not.mp hne
          intro q hq
          rcases List.mem_cons.mp hq with rfl | hq2
          · exact ⟨g2, hl, hd0⟩
          · exact (msgGroupLoop_empty_iff rest).mp h q hq2
    · intro hall
      obtain ⟨g2, hl, hd⟩ := hall p (List.mem_cons_self _ _)
      unfold msgGroupLoop
      simp only [Bind.bind, hl, Option.bind, hd]
      rw [if_neg (by simp)]
      exact (msgGroupLoop_empty_iff rest).mpr
        (fun q hq => hall q (List.mem_cons_of_mem _ hq))


theorem keys_setSub_iff [DecidableEq κ] {α1 α2 : Type} {d1 : List (κ × α1)}
    {d2 : List (κ × α2)} :
    ((setSub (d1.map (·.1)) (d2.map (·.1))).isEmpty = true ∧
     (setSub (d2.map (·.1)) (d1.map (·.1))).isEmpty = true)
      ↔ ∀ k, (dictLookup d1 k).isSome ↔ (dictLookup d2 k).isSome := by
  rw [List.isEmpty_iff, List.isEmpty_iff, setSub_eq_nil_iff, setSub_eq_nil_iff]
  constructor
  · rintro ⟨h1, h2⟩ k
    constructor
    · intro hk
      exact dictLookup_isSome_iff.mpr (h1 k (dictLookup_isSome_iff.mp hk))
    · intro hk
      exact dictLookup_isSome_iff.mpr (h2 k (dictLookup_isSome_iff.mp hk))
  · intro h
    exact ⟨fun k hk => dictLookup_isSome_iff.mp ((h k).mp (dictLookup_isSome_iff.mpr hk)),
      fun k hk => dictLookup_isSome_iff.mp ((h k).mpr (dictLookup_isSome_iff.mpr hk))⟩

theorem sdict_keys_nodup {m : Message} (hm : MsgInv m) :
    ((m.signals_dict.map Prod.fst).Nodup) := by
  rw [hm.dict_eq]
  exact buildDict_keys_nodup _

set_option maxHeartbeats 4000000 in
/-- `Message.diff` returns the empty report exactly on `MsgEquiv`
messages (given the structural invariant and non-empty receiver lists on
the left side). -/
theorem msgDiff_empty_iff {m o : Message} (hm : MsgInv m)
    (hrm : ∀ s ∈ m.store, s.receivers ≠ []) :
    msgDiff m o = some "" ↔ MsgEquiv m o := by
  constructor
  · intro h
    unfold msgDiff at h
    split at h
    · exact absurd (Option.some.inj h)
        (by
            apply ne_empty_of_data
            repeat apply data_ne_nil_append
            decide)
    · rename_i hid
      split at h
      · exact absurd (Option.some.inj h)
          (by
              apply ne_empty_of_data
              repeat apply data_ne_nil_append
              decide)
      · rename_i hname
        split at h
        · exact absurd (Option.some.inj h)
            (by
                apply ne_empty_of_data
                repeat apply data_ne_nil_append
                decide)
        · rename_i hsize
          split at h
          · exact absurd (Option.some.inj h)
              (by
                  apply ne_empty_of_data
                  repeat apply data_ne_nil_append
                  decide)
          · rename_i htx
            split at h
            · exact absurd (Option.some.inj h)
                (by
                    apply ne_empty_of_data
                    repeat apply data_ne_nil_append
                    decide)
            · rename_i hsd
              split at h
              · exact Option.noConfusion h
              · rename_i d hd
                split at h
                · rename_i hne
                  exact absurd (Option.some.inj h) hne
                · rename_i hne
                  have hd0 : d = "" := not_not.mp hne
                  rw [hd0] at hd
                  split at h
                  · exact absurd (Option.some.inj h)
                      (by
                          apply ne_empty_of_data
                          repeat apply data_ne_nil_append
                          decide)
                  · rename_i hcom
                    split at h
                    · exact absurd (Option.some.inj h)
                        (by
                            apply ne_empty_of_data
                            repeat apply data_ne_nil_append
                            decide)
                    · rename_i hattr
                      split at h
                      · exact absurd (Option.some.inj h)
                          (by
                              apply ne_empty_of_data
                              repeat apply data_ne_nil_append
                              decide)
                      · rename_i hgd
                        split at h
                        · exact Option.noConfusion h
                        · rename_i d2 hd2
                          split at h
                          · rename_i hne2
                            exact absurd (Option.some.inj h) hne2
                          · rename_i hne2
                            have hd20 : d2 = "" := not_not.mp hne2
                            rw [hd20] at hd2
                            have htx2 := not_or.mp htx
                            have hsd2 := not_or.mp hsd
                            have hgd2 := not_or.mp hgd
                            have hall := (msgSigLoop_empty_iff m.signals_dict).mp hd
                            have hgall := (msgGroupLoop_empty_iff m.signal_groups).mp hd2
                            refine ⟨not_not.mp hid, not_not.mp hname, not_not.mp hsize,
                              ?_, ?_, ?_, ?_, not_not.mp hcom, not_not.mp hattr, ?_, ?_⟩
                            · exact setSub_eq_nil_iff.mp
                                (List.isEmpty_iff.mp (not_not.mp htx2.1))
                            · exact setSub_eq_nil_iff.mp
                                (List.isEmpty_iff.mp (not_not.mp htx2.2))
                            · exact keys_setSub_iff.mp
                                ⟨not_not.mp hsd2.1, not_not.mp hsd2.2⟩
                            · intro k t1 t2 hl1 hl2
                              obtain ⟨t2', hl2', hsdiff⟩ := hall (k, t1) (dictLookup_mem hl1)
                              rw [hl2] at hl2'
                              cases Option.some.inj hl2'
                              obtain ⟨x, hx1, hx2⟩ := signalDiff_empty_iff.mp hsdiff
                              rw [hx1, hx2]
                            · exact keys_setSub_iff.mp
                                ⟨not_not.mp hgd2.1, not_not.mp hgd2.2⟩
                            · intro k g1 g2 hL1 hL2
                              obtain ⟨g2', hL2', hgdiff⟩ := hgall (k, g1) (dictLookup_mem hL1)
                              rw [hL2] at hL2'
                              cases Option.some.inj hL2'
                              exact groupDiff_empty_iff.mp hgdiff
  · rintro ⟨hid, hname, hsize, htx1, htx2, hksd, hdbc, hcom, hattr, hkgd, hgrp⟩
    have hc4 : ¬ (¬ (setSub m.transmitters o.transmitters).isEmpty = true ∨
        ¬ (setSub o.transmitters m.transmitters).isEmpty = true) :=
      not_or.mpr ⟨not_not.mpr (List.isEmpty_iff.mpr (setSub_eq_nil_iff.mpr htx1)),
        not_not.mpr (List.isEmpty_iff.mpr (setSub_eq_nil_iff.mpr htx2))⟩
    have hsdp := keys_setSub_iff.mpr hksd
    have hc5 : ¬ (¬ (setSub (m.signals_dict.map (·.1)) (o.signals_dict.map (·.1))).isEmpty
          = true ∨
        ¬ (setSub (o.signals_dict.map (·.1)) (m.signals_dict.map (·.1))).isEmpty = true) :=
      not_or.mpr ⟨not_not.mpr hsdp.1, not_not.mpr hsdp.2⟩
    have hgdp := keys_setSub_iff.mpr hkgd
    have hc9 : ¬ (¬ (setSub (m.signal_groups.map (·.1)) (o.signal_groups.map (·.1))).isEmpty
          = true ∨
        ¬ (setSub (o.signal_groups.map (·.1)) (m.signal_groups.map (·.1))).isEmpty = true) :=
      not_or.mpr ⟨not_not.mpr hgdp.1, not_not.mpr hgdp.2⟩
    have hloop : msgSigLoop m o m.signals_dict = some "" := by
      refine (msgSigLoop_empty_iff m.signals_dict).mpr ?_
      intro p hp
      have hl1 : dictLookup m.signals_dict p.1 = some p.2 :=
        dictLookup_eq_of_mem_nodup (sdict_keys_nodup hm) hp
      have hk2 : (dictLookup o.signals_dict p.1).isSome = true :=
        (hksd p.1).mp (by rw [hl1]; rfl)
      obtain ⟨t2, hl2⟩ := Option.isSome_iff_exists.mp hk2
      refine ⟨t2, hl2, signalDiff_empty_iff.mpr ?_⟩
      have hlt : p.2 < m.store.length := tag_lt_of_lookup hm hl1
      obtain ⟨x, hx⟩ := Option.isSome_iff_exists.mp
        (sigDbc_isSome (hrm _ (getD_mem_of_lt _ _ _ hlt)))
      refine ⟨x, hx, ?_⟩
      rw [← hdbc p.1 p.2 t2 hl1 hl2]
      exact hx
    have hgloop : msgGroupLoop m o m.signal_groups = some "" := by
      refine (msgGroupLoop_empty_iff m.signal_groups).mpr ?_
      intro p hp
      have hl1 : dictLookup m.signal_groups p.1 = some p.2 :=
        dictLookup_eq_of_mem_nodup hm.groups_nodup hp
      have hk2 : (dictLookup o.signal_groups p.1).isSome = true :=
        (hkgd p.1).mp (by rw [hl1]; rfl)
      obtain ⟨g2, hl2⟩ := Option.isSome_iff_exists.mp hk2
      exact ⟨g2, hl2, groupDiff_empty_iff.mpr (hgrp p.1 p.2 g2 hl1 hl2)⟩
    unfold msgDiff
    rw [if_neg (by simp [hid]), if_neg (by simp [hname]), if_neg (by simp [hsize]),
      if_neg hc4, if_neg hc5]
    simp only [hloop]
    rw [if_neg (by simp), if_neg (by simp [hcom]), if_neg (by simp [hattr]), if_neg hc9]
    simp only [hgloop]
    rw [if_neg (by simp)]


theorem msgEquiv_refl {m : Message} (hm : MsgInv m) : MsgEquiv m m := by
  refine ⟨rfl, rfl, rfl, fun x hx => hx, fun x hx => hx, fun k => Iff.rfl, ?_, rfl, ?_,
    fun k => Iff.rfl, ?_⟩
  · intro k t1 t2 hl1 hl2
    rw [hl1] at hl2
    cases Option.some.inj hl2
    rfl
  · exact pyDictEqBy_refl hm.attrs_nodup (fun p _ => pyValEq_refl p.2)
  · intro k g1 g2 hl1 hl2
    rw [hl1] at hl2
    cases Option.some.inj hl2
    exact ⟨fun x hx => hx, fun x hx => hx⟩

theorem msgEquiv_symm {m o : Message} (hm : MsgInv m) (ho : MsgInv o)
    (h : MsgEquiv m o) : MsgEquiv o m := by
  obtain ⟨hid, hname, hsize, ht1, ht2, hk, hdbc, hcom, hattr, hkg, hgrp⟩ := h
  refine ⟨hid.symm, hname.symm, hsize.symm, ht2, ht1, fun k => (hk k).symm, ?_,
    hcom.symm, pyDictEqBy_symm pyValEq_symm hm.attrs_nodup ho.attrs_nodup hattr,
    fun k => (hkg k).symm, ?_⟩
  · intro k t1 t2 hl1 hl2
    exact (hdbc k t2 t1 hl2 hl1).symm
  · intro k g1 g2 hl1 hl2
    exact ⟨(hgrp k g2 g1 hl2 hl1).2, (hgrp k g2 g1 hl2 hl1).1⟩

theorem busEquiv_refl {b : Bus} (h : BusInv b) : BusEquiv b b := by
  refine ⟨rfl, rfl, rfl, fun k => Iff.rfl, ?_, fun x hx => hx, fun x hx => hx, ?_,
    fun k => Iff.rfl, ?_, rfl, ?_, ?_, ?_⟩
  · intro k n1 n2 hl1 hl2
    rw [hl1] at hl2
    cases Option.some.inj hl2
    exact nodeInfoEq_refl (h.node_attrs (k, n1) (dictLookup_mem hl1))
  · exact pyDictEqBy_refl h.gv_nodup
      (fun p hp => pyDictEqBy_refl (h.gv_inner p hp) (fun q _ => beq_self_eq_true q.2))
  · intro k m1 m2 hl1 hl2
    rw [hl1] at hl2
    cases Option.some.inj hl2
    exact msgEquiv_refl (h.msgs (k, m1) (dictLookup_mem hl1))
  · exact pyDictEqBy_refl h.td_nodup
      (fun p hp => pyDictEqBy_refl (h.td_inner p hp) (fun q _ => typedefEq_refl q.2))
  · exact pyDictEqBy_refl h.defaults_nodup (fun p _ => pyValEq_refl p.2)
  · exact pyDictEqBy_refl h.attrs_nodup (fun p _ => pyValEq_refl p.2)

theorem busEquiv_symm {b1 b2 : Bus} (h1 : BusInv b1) (h2 : BusInv b2)
    (h : BusEquiv b1 b2) : BusEquiv b2 b1 := by
  obtain ⟨hv, hbd, hbt, hkn, hnode, hs1, hs2, hgv, hkm, hmsg, hcom, htd, hdf, hat⟩ := h
  refine ⟨hv.symm, hbd.symm, hbt.symm, fun k => (hkn k).symm, ?_, hs2, hs1, ?_,
    fun k => (hkm k).symm, ?_, hcom.symm, ?_,
    pyDictEqBy_symm pyValEq_symm h1.defaults_nodup h2.defaults_nodup hdf,
    pyDictEqBy_symm pyValEq_symm h1.attrs_nodup h2.attrs_nodup hat⟩
  · intro k n1 n2 hl1 hl2
    exact nodeInfoEq_symm (h1.node_attrs (k, n2) (dictLookup_mem hl2))
      (h2.node_attrs (k, n1) (dictLookup_mem hl1)) (hnode k n2 n1 hl2 hl1)
  · refine pyDictEqBy_symm_val h1.gv_nodup h2.gv_nodup ?_ hgv
    intro p hp q hq
    rw [Bool.eq_iff_iff]
    exact ⟨pyDictEqBy_symm (fun a b => beqComm a b) (h1.gv_inner p hp) (h2.gv_inner q hq),
      pyDictEqBy_symm (fun a b => beqComm a b) (h2.gv_inner q hq) (h1.gv_inner p hp)⟩
  · intro k m1 m2 hl1 hl2
    exact msgEquiv_symm (h1.msgs (k, m2) (dictLookup_mem hl2))
      (h2.msgs (k, m1) (dictLookup_mem hl1)) (hmsg k m2 m1 hl2 hl1)
  · refine pyDictEqBy_symm_val h1.td_nodup h2.td_nodup ?_ htd
    intro p hp q hq
    rw [Bool.eq_iff_iff]
    exact ⟨pyDictEqBy_symm typedefEq_symm (h1.td_inner p hp) (h2.td_inner q hq),
      pyDictEqBy_symm typedefEq_symm (h2.td_inner q hq) (h1.td_inner p hp)⟩


theorem busNodeLoop_slen {other : List (String × NodeInfo)} :
    ∀ (l : List (String × NodeInfo)) (c : Nat) (s : String) (r : Nat × String),
      busNodeLoop other l c s = some r → s.data.length ≤ r.2.data.length
  | [], c, s, r, h => by
    cases h
    exact le_refl _
  | p :: rest, c, s, r, h => by
    unfold busNodeLoop at h
    simp only [Bind.bind] at h
    cases hl : dictLookup other p.1 with
    | none =>
      rw [hl] at h
      simp [Option.bind] at h
    | some o =>
      rw [hl] at h
      simp only [Option.bind] at h
      split at h
      · refine le_trans ?_ (busNodeLoop_slen rest _ _ r h)
        simp only [String.data_append, List.length_append]
        omega
      · exact busNodeLoop_slen rest _ _ r h

set_option maxHeartbeats 4000000 in
/-- `Bus.diff` from the node comparison on returns the empty report
exactly when every component from the nodes down agrees (given the
invariant and receiver lists of the left bus). -/
theorem busDiffRest_empty_iff {b1 b2 : Bus} (h1 : BusInv b1) (hr1 : BusRecv b1) :
    busDiffRest b1 b2 = some "" ↔
      ((∀ k, (dictLookup b1.nodes k).isSome ↔ (dictLookup b2.nodes k).isSome) ∧
       (∀ k n1 n2, dictLookup b1.nodes k = some n1 → dictLookup b2.nodes k = some n2 →
         nodeInfoEq n1 n2 = true) ∧
       (∀ x ∈ b1.newsymbols, x ∈ b2.newsymbols) ∧
       (∀ x ∈ b2.newsymbols, x ∈ b1.newsymbols) ∧
       pyDictEqBy (pyDictEqBy (fun a b : String => a == b))
         b1.global_values b2.global_values = true ∧
       (∀ k, (dictLookup b1.messages k).isSome ↔ (dictLookup b2.messages k).isSome) ∧
       (∀ k m1 m2, dictLookup b1.messages k = some m1 →
         dictLookup b2.messages k = some m2 → MsgEquiv m1 m2) ∧
       b1.comments = b2.comments ∧
       pyDictEqBy (pyDictEqBy typedefEq) b1.attrib_typedefs b2.attrib_typedefs = true ∧
       pyDictEqBy pyValEq b1.attrib_defaults b2.attrib_defaults = true ∧
       pyDictEqBy pyValEq b1.attributes b2.attributes = true) := by
  constructor
  · intro h
    unfold busDiffRest at h
    split at h
    · exact absurd (Option.some.inj h)
        (by
            apply ne_empty_of_data
            repeat apply data_ne_nil_append
            decide)
    · rename_i hkn
      split at h
      · exact Option.noConfusion h
      · rename_i c s heq
        split at h
        · rename_i hc
          have hlen : ("nodes:\n").data.length ≤ s.data.length :=
            busNodeLoop_slen b1.nodes 0 "nodes:\n" (c, s) heq
          rw [Option.some.inj h] at hlen
          exact absurd hlen (by decide)
        · rename_i hc
          have hc0 : c = 0 := not_not.mp hc
          have heq0 : busNodeLoop b2.nodes b1.nodes 0 "nodes:\n" = some (0, s) := by
            rw [heq, hc0]
          have hnodes := busNodeLoop_zero_elim b1.nodes 0 "nodes:\n" s heq0
          split at h
          · exact absurd (Option.some.inj h)
              (by
                  apply ne_empty_of_data
                  repeat apply data_ne_nil_append
                  decide)
          · rename_i hns
            split at h
            · exact absurd (Option.some.inj h)
                (by
                    apply ne_empty_of_data
                    repeat apply data_ne_nil_append
                    decide)
            · rename_i hgv
              split at h
              · exact absurd (Option.some.inj h)
                  (by
                      apply ne_empty_of_data
                      repeat apply data_ne_nil_append
                      decide)
              · rename_i hkm
                split at h
                · exact Option.noConfusion h
                · rename_i d hd
                  split at h
                  · rename_i hne
                    exact absurd (Option.some.inj h) hne
                  · rename_i hne
                    have hd0 : d = "" := not_not.mp hne
                    rw [hd0] at hd
                    have hmsgs := (busMsgLoop_empty_iff b1.messages).mp hd
                    split at h
                    · exact absurd (Option.some.inj h)
                        (by
                            apply ne_empty_of_data
                            repeat apply data_ne_nil_append
                            decide)
                    · rename_i hcom
                      split at h
                      · exact absurd (Option.some.inj h)
                          (by
                              apply ne_empty_of_data
                              repeat apply data_ne_nil_append
                              decide)
                      · rename_i htd
                        split at h
                        · exact absurd (Option.some.inj h)
                            (by
                                apply ne_empty_of_data
                                repeat apply data_ne_nil_append
                                decide)
                        · rename_i hdf
                          split at h
                          · exact absurd (Option.some.inj h)
                              (by apply ne_empty_of_data
                                  repeat apply data_ne_nil_append
                                  decide)
                          · rename_i hat
                            have hkn2 := not_or.mp hkn
                            have hns2 := not_or.mp hns
                            have hkm2 := not_or.mp hkm
                            refine ⟨keys_setSub_iff.mp
                                ⟨not_not.mp hkn2.1, not_not.mp hkn2.2⟩, ?_,
                              setSub_eq_nil_iff.mp (List.isEmpty_iff.mp (not_not.mp hns2.1)),
                              setSub_eq_nil_iff.mp (List.isEmpty_iff.mp (not_not.mp hns2.2)),
                              not_not.mp hgv,
                              keys_setSub_iff.mp ⟨not_not.mp hkm2.1, not_not.mp hkm2.2⟩,
                              ?_, not_not.mp hcom, not_not.mp htd, not_not.mp hdf,
                              not_not.mp hat⟩
                            · intro k n1 n2 hl1 hl2
                              obtain ⟨o, hlo, hoe⟩ := hnodes (k, n1) (dictLookup_mem hl1)
                              rw [hl2] at hlo
                              cases Option.some.inj hlo
                              exact hoe
                            · intro k m1 m2 hl1 hl2
                              obtain ⟨m2', hlm, hmd⟩ := hmsgs (k, m1) (dictLookup_mem hl1)
                              rw [hl2] at hlm
                              cases Option.some.inj hlm
                              exact (msgDiff_empty_iff (h1.msgs (k, m1) (dictLookup_mem hl1))
                                (hr1 (k, m1) (dictLookup_mem hl1))).mp hmd
  · rintro ⟨hkn, hnode, hns1, hns2, hgv, hkm, hmsg, hcom, htd, hdf, hat⟩
    have hknp := keys_setSub_iff.mpr hkn
    have hkmp := keys_setSub_iff.mpr hkm
    have hnloop : busNodeLoop b2.nodes b1.nodes 0 "nodes:\n" = some (0, "nodes:\n") := by
      refine busNodeLoop_ok_of b1.nodes 0 "nodes:\n" ?_
      intro p hp
      have hl1 : dictLookup b1.nodes p.1 = some p.2 :=
        dictLookup_eq_of_mem_nodup h1.nodes_nodup hp
      obtain ⟨o, hlo⟩ := Option.isSome_iff_exists.mp ((hkn p.1).mp (by rw [hl1]; rfl))
      exact ⟨o, hlo, hnode p.1 p.2 o hl1 hlo⟩
    have hmloop : busMsgLoop b2.messages b1.messages = some "" := by
      refine (busMsgLoop_empty_iff b1.messages).mpr ?_
      intro p hp
      have hl1 : dictLookup b1.messages p.1 = some p.2 :=
        dictLookup_eq_of_mem_nodup h1.msgs_nodup hp
      obtain ⟨m2, hlm⟩ := Option.isSome_iff_exists.mp ((hkm p.1).mp (by rw [hl1]; rfl))
      exact ⟨m2, hlm, (msgDiff_empty_iff (h1.msgs p hp) (hr1 p hp)).mpr
        (hmsg p.1 p.2 m2 hl1 hlm)⟩
    unfold busDiffRest
    rw [if_neg (not_or.mpr ⟨not_not.mpr hknp.1, not_not.mpr hknp.2⟩)]
    simp only [hnloop]
    rw [if_neg (by simp)]
    rw [if_neg (not_or.mpr
      ⟨not_not.mpr (List.isEmpty_iff.mpr (setSub_eq_nil_iff.mpr hns1)),
       not_not.mpr (List.isEmpty_iff.mpr (setSub_eq_nil_iff.mpr hns2))⟩)]
    rw [if_neg (not_not.mpr hgv)]
    rw [if_neg (not_or.mpr ⟨not_not.mpr hkmp.1, not_not.mpr hkmp.2⟩)]
    simp only [hmloop]
    rw [if_neg (by simp), if_neg (not_not.mpr hcom), if_neg (not_not.mpr htd),
      if_neg (not_not.mpr hdf), if_neg (not_not.mpr hat)]

set_option maxHeartbeats 1000000 in
/-- `Bus.diff` returns the empty report exactly on `BusEquiv` buses (given
the structural invariant and receiver lists of the left bus). -/
theorem busDiff_empty_iff {b1 b2 : Bus} (h1 : BusInv b1) (hr1 : BusRecv b1) :
    busDiff b1 b2 = some "" ↔ BusEquiv b1 b2 := by
  constructor
  · intro h
    unfold busDiff at h
    split at h
    · exact absurd (Option.some.inj h)
        (by
            apply ne_empty_of_data
            repeat apply data_ne_nil_append
            decide)
    · rename_i hv
      split at h
      · exact absurd (Option.some.inj h)
          (by
              apply ne_empty_of_data
              repeat apply data_ne_nil_append
              decide)
      · rename_i hbd
        split at h
        · rename_i hbt
          split at h
          · rename_i t1 t2 heq1 heq2
            split at h
            · exact absurd (Option.some.inj h)
                (by
                    apply ne_empty_of_data
                    repeat apply data_ne_nil_append
                    decide)
            · rename_i hb1
              split at h
              · exact absurd (Option.some.inj h)
                  (by
                      apply ne_empty_of_data
                      repeat apply data_ne_nil_append
                      decide)
              · rename_i hb2
                exfalso
                apply hbt
                rw [heq1, heq2, Prod.ext (not_not.mp hb1) (not_not.mp hb2)]
          · exact Option.noConfusion h
        · rename_i hbt
          exact ⟨not_not.mp hv, not_not.mp hbd, not_not.mp hbt,
            (busDiffRest_empty_iff h1 hr1).mp h⟩
  · intro he
    obtain ⟨hv, hbd, hbt, htail⟩ := he
    unfold busDiff
    rw [if_neg (not_not.mpr hv), if_neg (not_not.mpr hbd), if_neg (not_not.mpr hbt)]
    exact (busDiffRest_empty_iff h1 hr1).mpr htail

/-- **C7 — confirmed.**  For every successfully constructed bus `b`,
`b.diff(b)` is the empty report, and for every pair of successfully
constructed buses, `b1.diff(b2)` is empty iff `b2.diff(b1)` is (each
stored signal carries a non-empty receiver list, as the grammar of `SG_`
lines guarantees for parsed input). -/
theorem c7_diff_refl_symm {secs1 secs2 : List DbcSection} {b1 b2 : Bus}
    (hb1 : buildBus secs1 = Except.ok b1) (hb2 : buildBus secs2 = Except.ok b2)
    (hr1 : BusRecv b1) (hr2 : BusRecv b2) :
    busDiff b1 b1 = some "" ∧ (busDiff b1 b2 = some "" ↔ busDiff b2 b1 = some "") := by
  have h1 := (buildBus_inv hb1).1
  have h2 := (buildBus_inv hb2).1
  refine ⟨(busDiff_empty_iff h1 hr1).mpr (busEquiv_refl h1), ?_⟩
  rw [busDiff_empty_iff h1 hr1, busDiff_empty_iff h2 hr2]
  exact ⟨busEquiv_symm h1 h2, busEquiv_symm h2 h1⟩

/-- Witness for `c7_diff_refl_symm` on the concrete section lists `cwSecs`
and `c10secs`. -/
theorem c7_diff_refl_symm_witness :
    ∃ b1 b2, buildBus cwSecs = Except.ok b1 ∧ buildBus c10secs = Except.ok b2 ∧
      busDiff b1 b1 = some "" ∧ (busDiff b1 b2 = some "" ↔ busDiff b2 b1 = some "") := by
  cases hq1 : buildBus cwSecs with
  | error e =>
    have hok : (buildBus cwSecs).toOption.isSome = true := by decide
    rw [hq1] at hok
    simp [Except.toOption] at hok
  | ok bb1 =>
    cases hq2 : buildBus c10secs with
    | error e =>
      have hok : (buildBus c10secs).toOption.isSome = true := by decide
      rw [hq2] at hok
      simp [Except.toOption] at hok
    | ok bb2 =>
      have hr1 : BusRecv bb1 := by
        have hchk : ((buildBus cwSecs).toOption.map fun b =>
            b.messages.all fun p => p.2.store.all fun s =>
              !s.receivers.isEmpty) = some true := by decide
        rw [hq1] at hchk
        simp only [Except.toOption, Option.map] at hchk
        intro p hp s hs hnil
        have hall := List.all_eq_true.mp
          (List.all_eq_true.mp (Option.some.inj hchk) p hp) s hs
        rw [hnil] at hall
        exact absurd hall (by decide)
      have hr2 : BusRecv bb2 := by
        have hchk : ((buildBus c10secs).toOption.map fun b =>
            b.messages.all fun p => p.2.store.all fun s =>
              !s.receivers.isEmpty) = some true := by decide
        rw [hq2] at hchk
        simp only [Except.toOption, Option.map] at hchk
        intro p hp s hs hnil
        have hall := List.all_eq_true.mp
          (List.all_eq_true.mp (Option.some.inj hchk) p hp) s hs
        rw [hnil] at hall
        exact absurd hall (by decide)
      exact ⟨bb1, bb2, rfl, rfl, c7_diff_refl_symm hq1 hq2 hr1 hr2⟩

end Dbc
